import Mathlib

/-!
Asynchronous transfer subsystem of the ugen(4) driver.

A shallow embedding of the asynchronous request engine of `ugen.c`
(`ugen_async_callback`, `ugen_submit_ctrl`, `ugen_submit_bulk`,
`ugen_complete_ctrl`, `ugen_complete_bulk` and the `USB_DO_REQUEST`,
`USB_GET_COMPLETED`, `USB_CANCEL` cases of `ugen_do_ioctl`).

Kernel memory is explicit: request records live in `kmem` and are named by
their address, the two `TAILQ`s of an endpoint are lists of such addresses,
transfer objects live in `xfers`.  Calls into the USB stack and the
allocator are recorded, in order, in `trace`.
-/

namespace Ugen

/-! ## Constants of the system headers -/

/-- Value of `EPERM` in `sys/errno.h`. -/
abbrev EPERM : Nat := 1
/-- Value of `EINTR` in `sys/errno.h`. -/
abbrev EINTR : Nat := 4
/-- Value of the io error in `sys/errno.h`. -/
abbrev EIO : Nat := 5
/-- Value of `ENOMEM` in `sys/errno.h`. -/
abbrev ENOMEM : Nat := 12
/-- Value of `EFAULT` in `sys/errno.h`. -/
abbrev EFAULT : Nat := 14
/-- Value of `EINVAL` in `sys/errno.h`. -/
abbrev EINVAL : Nat := 22
/-- Value of `ETIMEDOUT` in `sys/errno.h`. -/
abbrev ETIMEDOUT : Nat := 60

/-- Request type "host to device, standard, device" (`usb.h`). -/
abbrev UT_WRITE_DEVICE : Nat := 0x00
/-- Request type "host to device, standard, interface" (`usb.h`). -/
abbrev UT_WRITE_INTERFACE : Nat := 0x01
/-- Direction bit of `bmRequestType` (`usb.h`). -/
abbrev UT_READ : Nat := 0x80
/-- Standard request code `SET_ADDRESS` (`usb.h`). -/
abbrev UR_SET_ADDRESS : Nat := 0x05
/-- Standard request code `SET_CONFIG` (`usb.h`). -/
abbrev UR_SET_CONFIG : Nat := 0x09
/-- Standard request code `SET_INTERFACE` (`usb.h`). -/
abbrev UR_SET_INTERFACE : Nat := 0x0b

/-- Mask of the transfer type in `bmAttributes` (`usb.h`). -/
abbrev UE_XFERTYPE : Nat := 0x03
/-- Transfer type isochronous. -/
abbrev UE_ISOCHRONOUS : Nat := 0x01
/-- Transfer type bulk. -/
abbrev UE_BULK : Nat := 0x02
/-- Transfer type interrupt. -/
abbrev UE_INTERRUPT : Nat := 0x03

/-- Transfer flag `USBD_NO_COPY` (`usbdi.h`). -/
abbrev USBD_NO_COPY : Nat := 0x01
/-- Transfer flag `USBD_SHORT_XFER_OK` (`usbdi.h`). -/
abbrev USBD_SHORT_XFER_OK : Nat := 0x04
/-- Transfer flag `USBD_FORCE_SHORT_XFER` (`usbdi.h`). -/
abbrev USBD_FORCE_SHORT_XFER : Nat := 0x08

/-- Endpoint number of the control endpoint. -/
abbrev USB_CONTROL_ENDPOINT : Nat := 0
/-- Direction index `OUT` of `sc_endpoints`. -/
abbrev OUT : Nat := 0
/-- Direction index `IN` of `sc_endpoints`. -/
abbrev IN : Nat := 1
/-- Open-for-writing bit of the file flags (`sys/fcntl.h`). -/
abbrev FWRITE : Nat := 0x0002

/-- The `usbd_status` enumeration of `usbdi.h`. -/
inductive usbd_status
  | USBD_NORMAL_COMPLETION
  | USBD_IN_PROGRESS
  | USBD_PENDING_REQUESTS
  | USBD_NOT_STARTED
  | USBD_INVAL
  | USBD_NOMEM
  | USBD_CANCELLED
  | USBD_BAD_ADDRESS
  | USBD_IN_USE
  | USBD_NO_ADDR
  | USBD_SET_ADDR_FAILED
  | USBD_NO_POWER
  | USBD_TOO_DEEP
  | USBD_IOERROR
  | USBD_NOT_CONFIGURED
  | USBD_TIMEOUT
  | USBD_SHORT_XFER
  | USBD_STALLED
  | USBD_INTERRUPTED
  deriving DecidableEq, Repr

open usbd_status

/-! ## Data model -/

/-- A `uWord`: two bytes, least significant first. -/
structure uWord where
  lo : Nat
  hi : Nat
  deriving DecidableEq, Repr

/-- The macro `UGETW(w)`, `w[0] | (w[1] << 8)` on two bytes. -/
def UGETW (w : uWord) : Nat := (w.lo % 256) ||| ((w.hi % 256) <<< 8)

/-- The setup packet `usb_device_request_t`. -/
structure usb_device_request_t where
  bmRequestType : Nat
  bRequest : Nat
  wValue : uWord
  wIndex : uWord
  wLength : uWord
  deriving DecidableEq, Repr

/-- The request block `struct usb_ctl_request`.  Pointers are addresses:
`ucr_data` into user memory, `ucr_sce` the endpoint slot `(endpt, dir)`,
`xfer` the handle of the transfer object.  The `entries` link is carried by
the queue the record is on. -/
structure usb_ctl_request where
  ucr_addr : Nat
  ucr_request : usb_device_request_t
  ucr_data : Nat
  ucr_flags : Nat
  ucr_actlen : Int
  ucr_timeout : Nat
  ucr_read : Nat
  ucr_context : Nat
  ucr_status : usbd_status
  ucr_sce : Nat × Nat
  xfer : Nat
  deriving DecidableEq, Repr

/-- The fields of `struct usbd_xfer` the driver and the bus exchange.
`actlen` and `length` are `u_int32_t`. -/
structure usbd_xfer where
  priv : Nat
  status : usbd_status
  actlen : Nat
  length : Nat
  flags : Nat
  timeout : Nat
  dmabuf : List Nat
  deriving DecidableEq, Repr

/-- The fields of `struct ugen_endpoint` used by the asynchronous engine:
`edesc` is the `bmAttributes` of the endpoint descriptor (`none` for a null
pointer), the queues hold addresses of request records, head first. -/
structure ugen_endpoint where
  edesc : Option Nat
  pipeh : Option Nat
  state : Nat
  timeout : Nat
  submit_queue : List Nat
  complete_queue : List Nat
  deriving DecidableEq, Repr

/-- The driver instance `struct ugen_softc`; `dying` is what
`usbd_is_dying(sc->sc_udev)` returns. -/
structure ugen_softc where
  dying : Bool
  sc_endpoints : Nat → Nat → ugen_endpoint

/-- Calls that leave the driver, in the order they are made. -/
inductive Event
  | malloc (p : Nat)
  | free (p : Nat)
  | usbd_alloc_xfer (x : Nat)
  | usbd_alloc_buffer (x : Nat) (len : Nat)
  | usbd_free_xfer (x : Nat)
  | usbd_transfer (x : Nat)
  | usbd_abort_transfer (x : Nat)
  | usbd_clear_endpoint_stall (pipe : Option Nat)
  | selwakeup (endpt : Nat) (dir : Nat)
  deriving DecidableEq, Repr

/-- The machine state the driver runs in: the softc, the heap of request
records, the transfer objects, the memory of the calling process (`none` at
an address that cannot be accessed) and the log of outgoing calls. -/
structure Kernel where
  sc : ugen_softc
  kmem : Nat → usb_ctl_request
  xfers : Nat → usbd_xfer
  umem : Nat → Option Nat
  trace : List Event

/-- What the allocator and the bus answer during one `USB_DO_REQUEST`:
the results of `malloc`, `usbd_alloc_xfer`, `usbd_alloc_buffer` (whether it
succeeded) and `usbd_transfer`. -/
structure submit_env where
  kreq : Option Nat
  xfer : Option Nat
  buf : Bool
  err : usbd_status

/-! ## Queue macros of `sys/queue.h` -/

/-- The macro `TAILQ_FIRST`. -/
def TAILQ_FIRST (q : List Nat) : Option Nat := q.head?

/-- The macro `TAILQ_REMOVE`, unlinking the element `elm`. -/
def TAILQ_REMOVE (q : List Nat) (elm : Nat) : List Nat := q.erase elm

/-- The macro `TAILQ_INSERT_TAIL`. -/
def TAILQ_INSERT_TAIL (q : List Nat) (elm : Nat) : List Nat := q ++ [elm]

/-- The loop `TAILQ_FOREACH(np, q, entries) if (np->ucr_context == ctx)
{ kreq = np; break; }`: the first record of the queue with that context. -/
def TAILQ_FOREACH_context (kmem : Nat → usb_ctl_request) (q : List Nat) (ctx : Nat) :
    Option Nat :=
  q.find? (fun np => decide ((kmem np).ucr_context = ctx))

/-! ## State access -/

/-- The slot `sc->sc_endpoints[endpt][dir]`. -/
def Kernel.sce (k : Kernel) (endpt dir : Nat) : ugen_endpoint :=
  k.sc.sc_endpoints endpt dir

/-- Assignment to the slot `sc->sc_endpoints[endpt][dir]`. -/
def Kernel.set_sce (k : Kernel) (endpt dir : Nat) (v : ugen_endpoint) : Kernel :=
  { k with sc := { k.sc with sc_endpoints := fun e d =>
      if e = endpt ∧ d = dir then v else k.sc.sc_endpoints e d } }

/-- Assignment `*p = r` to the request record at address `p`. -/
def Kernel.store (k : Kernel) (p : Nat) (r : usb_ctl_request) : Kernel :=
  { k with kmem := fun q => if q = p then r else k.kmem q }

/-- Assignment to the transfer object with handle `x`. -/
def Kernel.set_xfer (k : Kernel) (x : Nat) (v : usbd_xfer) : Kernel :=
  { k with xfers := fun y => if y = x then v else k.xfers y }

/-- Record an outgoing call. -/
def Kernel.emit (k : Kernel) (e : Event) : Kernel :=
  { k with trace := k.trace ++ [e] }

/-- The calls made between state `k` and the later state `k1`. -/
def emitted (k k1 : Kernel) : List Event := k1.trace.drop k.trace.length

/-- The pair `usbd_free_xfer(xfer); free(kreq, M_TEMP, sizeof(*kreq));`. -/
def Kernel.release (k : Kernel) (xfer kreq : Nat) : Kernel :=
  (k.emit (.usbd_free_xfer xfer)).emit (.free kreq)

/-! ## User memory (`uiomove`) -/

/-- Whether the `n` bytes of user memory from `addr` can be accessed. -/
def user_range_ok (umem : Nat → Option Nat) (addr n : Nat) : Bool :=
  (List.range n).all (fun i => (umem (addr + i)).isSome)

/-- The call `uiomove(buf, n, &uio)` with `uio_rw == UIO_WRITE`: the `n`
bytes at user address `addr`, or `EFAULT`. -/
def uiomove_write (umem : Nat → Option Nat) (addr n : Nat) : Except Nat (List Nat) :=
  if user_range_ok umem addr n then
    .ok ((List.range n).map (fun i => (umem (addr + i)).getD 0))
  else .error EFAULT

/-- The call `uiomove(buf, n, &uio)` with `uio_rw == UIO_READ`: the first `n`
bytes of `buf` stored at user address `addr`, or `EFAULT`. -/
def uiomove_read (umem : Nat → Option Nat) (buf : List Nat) (addr n : Nat) :
    Except Nat (Nat → Option Nat) :=
  if user_range_ok umem addr n then
    .ok (fun p => if addr ≤ p ∧ p < addr + n then some (buf.getD (p - addr) 0) else umem p)
  else .error EFAULT

/-- Conversion of an `int` to `u_int32_t`. -/
def to_u32 (i : Int) : Nat := (i % 4294967296).toNat

/-- Conversion of an `int` to `size_t` (64 bits). -/
def to_size_t (i : Int) : Nat := (i % 18446744073709551616).toNat

/-- Conversion of a `u_int32_t` to `int`. -/
def to_int (n : Nat) : Int :=
  if n % 4294967296 < 2147483648 then (n % 4294967296 : Nat)
  else ((n % 4294967296 : Nat) : Int) - 4294967296

/-! ## The completion callback -/

set_option linter.unusedVariables false in
/-- The function `ugen_async_callback(xfer, priv, s)`: `priv` is the address
of the request record. -/
def ugen_async_callback (k : Kernel) (xfer : Nat) (priv : Nat) (s : usbd_status) : Kernel :=
  let req := priv
  let sce := (k.kmem req).ucr_sce
  let k1 := if s = USBD_CANCELLED then
      k.store req { k.kmem req with ucr_status := USBD_CANCELLED }
    else k
  let e1 := k1.sce sce.1 sce.2
  let k2 := k1.set_sce sce.1 sce.2 { e1 with submit_queue := TAILQ_REMOVE e1.submit_queue req }
  let e2 := k2.sce sce.1 sce.2
  let k3 := k2.set_sce sce.1 sce.2
    { e2 with complete_queue := TAILQ_INSERT_TAIL e2.complete_queue req }
  k3.emit (.selwakeup sce.1 sce.2)

/-! ## The submit path -/

/-- The call `usbd_setup_default_xfer` / `usbd_setup_xfer` on a transfer
object: private data, timeout, length and flags are installed, the status is
reset. -/
def usbd_setup_xfer (X : usbd_xfer) (priv timeout len flags : Nat) : usbd_xfer :=
  { X with priv := priv, timeout := timeout, length := len, flags := flags,
           status := USBD_NOT_STARTED, actlen := 0 }

/-- The tail shared, line for line, by `ugen_submit_ctrl` and
`ugen_submit_bulk` from `kreq->xfer = xfer` on: the transfer is handed to
the bus and, when it is in progress, the record is queued. -/
def ugen_submit_transfer (k : Kernel) (sce : Nat × Nat) (kreq xfer : Nat)
    (env : submit_env) : Nat × Kernel :=
  let k := k.store kreq { k.kmem kreq with xfer := xfer }
  let k := k.emit (.usbd_transfer xfer)
  let err := env.err
  if err ≠ USBD_IN_PROGRESS then
    let k := k.emit (.usbd_clear_endpoint_stall (k.sce sce.1 sce.2).pipeh)
    let error := if err = USBD_INTERRUPTED then EINTR
      else if err = USBD_TIMEOUT then ETIMEDOUT
      else EIO
    (error, k.release xfer kreq)
  else
    let e := k.sce sce.1 sce.2
    (0, k.set_sce sce.1 sce.2 { e with submit_queue := TAILQ_INSERT_TAIL e.submit_queue kreq })

/-- The block `if (len != 0) { ... }` shared by `ugen_submit_ctrl` and
`ugen_submit_bulk`: the DMA buffer is allocated and, for a write, filled from
user memory.  An error is the value the function returns early with, after
`usbd_free_xfer(xfer); free(kreq)`. -/
def ugen_submit_buffer (k : Kernel) (req : usb_ctl_request) (kreq xfer : Nat) (len : Int)
    (is_read : Bool) (env : submit_env) : Except (Nat × Kernel) Kernel :=
  if len ≠ 0 then
    if env.buf = false then
      .error (ENOMEM, k.release xfer kreq)
    else
      let k := k.emit (.usbd_alloc_buffer xfer len.toNat)
      let k := k.set_xfer xfer { k.xfers xfer with dmabuf := List.replicate len.toNat 0 }
      if is_read = false then
        match uiomove_write k.umem req.ucr_data len.toNat with
        | .error error => .error (error, k.release xfer kreq)
        | .ok bytes => .ok (k.set_xfer xfer { k.xfers xfer with dmabuf := bytes })
      else .ok k
  else .ok k

/-- The function `ugen_submit_ctrl(sc, req, p)`. -/
def ugen_submit_ctrl (k : Kernel) (req : usb_ctl_request) (env : submit_env) : Nat × Kernel :=
  let sce := req.ucr_sce
  let len : Int := (UGETW req.ucr_request.wLength : Nat)
  if (req.ucr_request.bmRequestType = UT_WRITE_DEVICE ∧
      req.ucr_request.bRequest = UR_SET_ADDRESS) ∨
     (req.ucr_request.bmRequestType = UT_WRITE_DEVICE ∧
      req.ucr_request.bRequest = UR_SET_CONFIG) ∨
     (req.ucr_request.bmRequestType = UT_WRITE_INTERFACE ∧
      req.ucr_request.bRequest = UR_SET_INTERFACE) then
    (EINVAL, k)
  else if len < 0 ∨ len > 32767 then
    (EINVAL, k)
  else
    match env.kreq with
    | none => (ENOMEM, k)
    | some kreq =>
      let k := (k.emit (.malloc kreq)).store kreq req
      match env.xfer with
      | none => (ENOMEM, k.emit (.free kreq))
      | some xfer =>
        let k := k.emit (.usbd_alloc_xfer xfer)
        match ugen_submit_buffer k req kreq xfer len
            (decide (req.ucr_request.bmRequestType &&& UT_READ ≠ 0)) env with
        | .error r => r
        | .ok k =>
          let flags := if (k.kmem kreq).ucr_flags &&& USBD_SHORT_XFER_OK ≠ 0
            then USBD_SHORT_XFER_OK else 0
          let k := k.set_xfer xfer (usbd_setup_xfer (k.xfers xfer) kreq
            (k.kmem kreq).ucr_timeout len.toNat (flags ||| USBD_NO_COPY))
          ugen_submit_transfer k sce kreq xfer env

/-- The function `ugen_submit_bulk(sc, req, p)`. -/
def ugen_submit_bulk (k : Kernel) (req : usb_ctl_request) (env : submit_env) : Nat × Kernel :=
  let sce := req.ucr_sce
  let len : Int := req.ucr_actlen
  if len < 0 then
    (EINVAL, k)
  else
    match env.kreq with
    | none => (ENOMEM, k)
    | some kreq =>
      let k := (k.emit (.malloc kreq)).store kreq req
      match env.xfer with
      | none => (ENOMEM, k.emit (.free kreq))
      | some xfer =>
        let k := k.emit (.usbd_alloc_xfer xfer)
        match ugen_submit_buffer k req kreq xfer len (decide (req.ucr_read ≠ 0)) env with
        | .error r => r
        | .ok k =>
          let flags0 := if (k.kmem kreq).ucr_flags &&& USBD_FORCE_SHORT_XFER ≠ 0
            then USBD_FORCE_SHORT_XFER else 0
          let flags := if (k.kmem kreq).ucr_flags &&& USBD_SHORT_XFER_OK ≠ 0
            then flags0 ||| USBD_SHORT_XFER_OK else flags0
          let k := k.set_xfer xfer (usbd_setup_xfer (k.xfers xfer) kreq
            (k.kmem kreq).ucr_timeout len.toNat (flags ||| USBD_NO_COPY))
          ugen_submit_transfer k sce kreq xfer env

/-! ## The reap path -/

/-- The block `if (len != 0) { ... }` shared by `ugen_complete_ctrl` and
`ugen_complete_bulk` together with the final `usbd_free_xfer(xfer); return
(0);`: a read copies `len` bytes of the DMA buffer to the user buffer, and a
failed copy sets the status to `USBD_IOERROR`. -/
def ugen_complete_copy (k : Kernel) (req : Nat) (xfer : Nat) (len : Int) (is_read : Bool) :
    Nat × Kernel :=
  if len ≠ 0 ∧ is_read = true then
    match uiomove_read k.umem (k.xfers xfer).dmabuf (k.kmem req).ucr_data (to_size_t len) with
    | .error _ =>
      let k := k.store req { k.kmem req with ucr_status := USBD_IOERROR }
      (0, k.emit (.usbd_free_xfer xfer))
    | .ok umem => (0, { k with umem := umem }.emit (.usbd_free_xfer xfer))
  else (0, k.emit (.usbd_free_xfer xfer))

/-- The clamp `if (len > xfer->actlen) len = xfer->actlen;` of an `int`
against a `u_int32_t`. -/
def clamp_len (len : Int) (actlen : Nat) : Int :=
  if to_u32 len > actlen % 4294967296 then to_int actlen else len

/-- The function `ugen_complete_ctrl(req, p)`; `req` is the address of the
record taken off the complete queue. -/
def ugen_complete_ctrl (k : Kernel) (req : Nat) : Nat × Kernel :=
  let xfer := (k.kmem req).xfer
  if (k.kmem req).ucr_status = USBD_CANCELLED then
    (0, k.emit (.usbd_free_xfer xfer))
  else
    let k := k.store req { k.kmem req with ucr_status := (k.xfers xfer).status }
    if (k.xfers xfer).status = USBD_NORMAL_COMPLETION then
      let len := clamp_len (UGETW (k.kmem req).ucr_request.wLength : Nat) (k.xfers xfer).actlen
      let k := k.store req { k.kmem req with ucr_actlen := len }
      ugen_complete_copy k req xfer len
        (decide ((k.kmem req).ucr_request.bmRequestType &&& UT_READ ≠ 0))
    else (0, k.emit (.usbd_free_xfer xfer))

/-- The function `ugen_complete_bulk(req, p)`. -/
def ugen_complete_bulk (k : Kernel) (req : Nat) : Nat × Kernel :=
  let xfer := (k.kmem req).xfer
  if (k.kmem req).ucr_status = USBD_CANCELLED then
    (0, k.emit (.usbd_free_xfer xfer))
  else
    let k := k.store req { k.kmem req with ucr_status := (k.xfers xfer).status }
    if (k.xfers xfer).status = USBD_NORMAL_COMPLETION then
      let len := clamp_len (k.kmem req).ucr_actlen (k.xfers xfer).actlen
      let k := k.store req { k.kmem req with ucr_actlen := len }
      ugen_complete_copy k req xfer len (decide ((k.kmem req).ucr_read ≠ 0))
    else (0, k.emit (.usbd_free_xfer xfer))

/-! ## The ioctl entry -/

/-- The asynchronous commands of `ugen_do_ioctl`. -/
inductive ioctl_cmd
  | USB_DO_REQUEST
  | USB_GET_COMPLETED
  | USB_CANCEL
  deriving DecidableEq, Repr

/-- The case `USB_DO_REQUEST` of `ugen_do_ioctl`. -/
def ugen_do_request (k : Kernel) (endpt : Nat) (req : usb_ctl_request) (flag : Nat)
    (env : submit_env) : Nat × usb_ctl_request × Kernel :=
  let sce := k.sce endpt IN
  let req := { req with ucr_sce := (endpt, IN) }
  if endpt = USB_CONTROL_ENDPOINT then
    if flag &&& FWRITE = 0 then
      (EPERM, req, k)
    else
      let r := ugen_submit_ctrl k req env
      if r.1 ≠ 0 then (r.1, req, r.2) else (0, req, r.2)
  else
    match sce.edesc with
    | none => (EINVAL, req, k)
    | some bmAttributes =>
      if bmAttributes &&& UE_XFERTYPE = UE_INTERRUPT ∨
         bmAttributes &&& UE_XFERTYPE = UE_ISOCHRONOUS then
        (EINVAL, req, k)
      else if bmAttributes &&& UE_XFERTYPE = UE_BULK then
        let r := ugen_submit_bulk k req env
        if r.1 ≠ 0 then (r.1, req, r.2) else (0, req, r.2)
      else (EINVAL, req, k)

/-- The case `USB_GET_COMPLETED` of `ugen_do_ioctl`. -/
def ugen_get_completed (k : Kernel) (endpt : Nat) (req : usb_ctl_request) :
    Nat × usb_ctl_request × Kernel :=
  let sce := k.sce endpt IN
  match TAILQ_FIRST sce.complete_queue with
  | none => ( EIO, req, k)
  | some kreq =>
    let k := k.set_sce endpt IN
      { sce with complete_queue := TAILQ_REMOVE sce.complete_queue kreq }
    if endpt = USB_CONTROL_ENDPOINT then
      let r := ugen_complete_ctrl k kreq
      if r.1 ≠ 0 then (r.1, req, r.2)
      else (0, r.2.kmem kreq, r.2.emit (.free kreq))
    else
      match sce.edesc with
      | none => (EINVAL, req, k)
      | some bmAttributes =>
        if bmAttributes &&& UE_XFERTYPE = UE_INTERRUPT ∨
           bmAttributes &&& UE_XFERTYPE = UE_ISOCHRONOUS then
          (EINVAL, req, k)
        else if bmAttributes &&& UE_XFERTYPE = UE_BULK then
          let r := ugen_complete_bulk k kreq
          if r.1 ≠ 0 then (r.1, req, r.2)
          else (0, r.2.kmem kreq, r.2.emit (.free kreq))
        else (EINVAL, req, k)

/-- The case `USB_CANCEL` of `ugen_do_ioctl`. -/
def ugen_cancel (k : Kernel) (endpt : Nat) (req : usb_ctl_request) :
    Nat × usb_ctl_request × Kernel :=
  let sce := k.sce endpt IN
  match TAILQ_FOREACH_context k.kmem sce.submit_queue req.ucr_context with
  | none =>
    match TAILQ_FOREACH_context k.kmem sce.complete_queue req.ucr_context with
    | none => (EINVAL, req, k)
    | some kreq =>
      (0, req, k.store kreq { k.kmem kreq with ucr_status := USBD_CANCELLED })
  | some kreq =>
    (0, req, k.emit (.usbd_abort_transfer (k.kmem kreq).xfer))

/-- The function `ugen_do_ioctl(sc, endpt, cmd, addr, flag, p)` on the
asynchronous commands; `req` is the request block `addr` points to, and the
result carries the block as the call leaves it. -/
def ugen_do_ioctl (k : Kernel) (endpt : Nat) (cmd : ioctl_cmd) (req : usb_ctl_request)
    (flag : Nat) (env : submit_env) : Nat × usb_ctl_request × Kernel :=
  if k.sc.dying = true then
    ( EIO, req, k)
  else
    match cmd with
    | .USB_DO_REQUEST => ugen_do_request k endpt req flag env
    | .USB_GET_COMPLETED => ugen_get_completed k endpt req
    | .USB_CANCEL => ugen_cancel k endpt req

/-! ## Runs of the engine -/

/-- One step taken on the driver: an ioctl of the calling process, the bus
invoking the completion callback, or the host controller updating a transfer
object it owns. -/
inductive Label
  | ioctl (endpt : Nat) (cmd : ioctl_cmd) (req : usb_ctl_request) (flag : Nat)
      (env : submit_env)
  | callback (xfer priv : Nat) (s : usbd_status)
  | bus (x : Nat) (X : usbd_xfer)

/-- The state after a step. -/
def step (k : Kernel) : Label → Kernel
  | .ioctl endpt cmd req flag env => (ugen_do_ioctl k endpt cmd req flag env).2.2
  | .callback xfer priv s => ugen_async_callback k xfer priv s
  | .bus x X => k.set_xfer x X

/-- The state after a sequence of steps. -/
def run : Kernel → List Label → Kernel
  | k, [] => k
  | k, l :: ls => run (step k l) ls

/-- What the environment guarantees at a step: `malloc` returns memory that
holds no queued record, and the bus completes a transfer whose record is on
the submit queue of its endpoint. -/
def Guard (k : Kernel) : Label → Prop
  | .ioctl _ .USB_DO_REQUEST _ _ env =>
      ∀ p, env.kreq = some p →
        ∀ e d, p ∉ (k.sce e d).submit_queue ∧ p ∉ (k.sce e d).complete_queue
  | .ioctl _ _ _ _ _ => True
  | .callback _ priv _ =>
      priv ∈ (k.sce (k.kmem priv).ucr_sce.1 (k.kmem priv).ucr_sce.2).submit_queue
  | .bus _ _ => True

/-- The guard holds at every step of a sequence. -/
def Guarded : Kernel → List Label → Prop
  | _, [] => True
  | k, l :: ls => Guard k l ∧ Guarded (step k l) ls

/-- The contexts carried by the records of a queue, in queue order. -/
def ctxs (k : Kernel) (q : List Nat) : List Nat :=
  q.map (fun p => (k.kmem p).ucr_context)

/-- The stronger guard under which submitters keep contexts apart: an
accepted `USB_DO_REQUEST` carries a context that no record on either queue
of its endpoint carries. -/
def GuardU (k : Kernel) (l : Label) : Prop :=
  Guard k l ∧
  match l with
  | .ioctl endpt .USB_DO_REQUEST req flag env =>
      (ugen_do_ioctl k endpt .USB_DO_REQUEST req flag env).1 = 0 →
        req.ucr_context ∉ ctxs k ((k.sce endpt IN).submit_queue ++
          (k.sce endpt IN).complete_queue)
  | _ => True

/-- Every endpoint slot as `ugenopen` leaves it after `TAILQ_INIT`: both
queues empty. -/
def Fresh (k : Kernel) : Prop :=
  ∀ e d, (k.sce e d).submit_queue = [] ∧ (k.sce e d).complete_queue = []

/-- The states reachable from freshly opened endpoints by steps that the
guard `G` admits. -/
inductive Reachable (G : Kernel → Label → Prop) : Kernel → Prop
  | init (k : Kernel) : Fresh k → Reachable G k
  | step (k : Kernel) (l : Label) : Reachable G k → G k l → Reachable G (step k l)

/-- The record a step creates: the endpoint and address of the record of an
accepted `USB_DO_REQUEST`. -/
def created (k : Kernel) : Label → Option (Nat × Nat)
  | .ioctl endpt .USB_DO_REQUEST req flag env =>
      if (ugen_do_ioctl k endpt .USB_DO_REQUEST req flag env).1 = 0 then
        env.kreq.map (fun p => (endpt, p))
      else none
  | _ => none

/-- The record a step reaps: the endpoint and address of the record a
successful `USB_GET_COMPLETED` hands back. -/
def reaped (k : Kernel) : Label → Option (Nat × Nat)
  | .ioctl endpt .USB_GET_COMPLETED req flag env =>
      if (ugen_do_ioctl k endpt .USB_GET_COMPLETED req flag env).1 = 0 then
        (TAILQ_FIRST (k.sce endpt IN).complete_queue).map (fun p => (endpt, p))
      else none
  | _ => none

/-- The records of each endpoint created and not yet reaped, after a step. -/
def outstanding_step (k : Kernel) (g : Nat → List Nat) (l : Label) : Nat → List Nat :=
  fun e =>
    let g1 := match created k l with
      | some (e1, p) => if e1 = e then g e ++ [p] else g e
      | none => g e
    match reaped k l with
    | some (e1, p) => if e1 = e then g1.erase p else g1
    | none => g1

/-- Reachable states together with, per endpoint, the records created by an
accepted submit and not yet reaped. -/
inductive Run : Kernel → (Nat → List Nat) → Prop
  | init (k : Kernel) : Fresh k → Run k (fun _ => [])
  | step (k : Kernel) (g : Nat → List Nat) (l : Label) :
      Run k g → Guard k l → Run (step k l) (outstanding_step k g l)

/-- The contexts of the requests of endpoint `e` for which
`ugen_async_callback` fires during a sequence of steps, in firing order. -/
def fired (e : Nat) : Kernel → List Label → List Nat
  | _, [] => []
  | k, l :: ls =>
    (match l with
     | .callback _ priv _ =>
        if (k.kmem priv).ucr_sce = (e, IN) then [(k.kmem priv).ucr_context] else []
     | _ => []) ++ fired e (step k l) ls

/-- Whether a step is a `USB_GET_COMPLETED` on endpoint `e`. -/
def is_reap (e : Nat) : Label → Bool
  | .ioctl endpt .USB_GET_COMPLETED _ _ _ => decide (endpt = e)
  | _ => false

/-- The results (error, request block handed back) of `n` successive
`USB_GET_COMPLETED` calls on endpoint `endpt`, and the state after them. -/
def reap_n (endpt : Nat) (req : usb_ctl_request) (flag : Nat) (env : submit_env) :
    Nat → Kernel → List (Nat × usb_ctl_request) × Kernel
  | 0, k => ([], k)
  | n + 1, k =>
    let r := ugen_do_ioctl k endpt .USB_GET_COMPLETED req flag env
    let rest := reap_n endpt req flag env n r.2.2
    ((r.1, r.2.1) :: rest.1, rest.2)

/-- The two interleavings of a cancel with the completion of the record at
address `p`: with `none` the `USB_CANCEL` comes first and the abort makes the
callback fire with `USBD_CANCELLED`; with `some s` the callback has fired
with status `s` before the `USB_CANCEL`.  The result is the error of the
`USB_CANCEL` and the state after both. -/
def cancel_race (k : Kernel) (endpt : Nat) (p : Nat) (creq : usb_ctl_request) (flag : Nat)
    (env : submit_env) : Option usbd_status → Nat × Kernel
  | none =>
    let c := ugen_do_ioctl k endpt .USB_CANCEL creq flag env
    (c.1, ugen_async_callback c.2.2 (k.kmem p).xfer p USBD_CANCELLED)
  | some s =>
    let k2 := ugen_async_callback k (k.kmem p).xfer p s
    let c := ugen_do_ioctl k2 endpt .USB_CANCEL creq flag env
    (c.1, c.2.2)

/-- Where `USB_CANCEL` finds the record at address `p` in the two
interleavings of `cancel_race`: on the submit queue when it comes first, on
the complete queue (and not on the submit queue) after the callback. -/
def cancel_finds (k : Kernel) (endpt : Nat) (p : Nat) (ctx : Nat) : Option usbd_status → Prop
  | none =>
    TAILQ_FOREACH_context k.kmem (k.sce endpt IN).submit_queue ctx = some p
  | some s =>
    let k2 := ugen_async_callback k (k.kmem p).xfer p s
    TAILQ_FOREACH_context k2.kmem (k2.sce endpt IN).submit_queue ctx = none ∧
    TAILQ_FOREACH_context k2.kmem (k2.sce endpt IN).complete_queue ctx = some p

/-- The endpoints that serve the asynchronous commands: the control endpoint
and those whose IN descriptor is of bulk type. -/
def async_endpoint (k : Kernel) (endpt : Nat) : Prop :=
  endpt = USB_CONTROL_ENDPOINT ∨
    ∃ a, (k.sce endpt IN).edesc = some a ∧ a &&& UE_XFERTYPE = UE_BULK

/-! ## Concrete data -/

/-- The request of the test program `test_async_control`: a `GET_STATUS`
device read of two bytes, here with context 7 and a user buffer at 100. -/
def urb_get_status : usb_ctl_request :=
  { ucr_addr := 0
    ucr_request := { bmRequestType := 0x80, bRequest := 0x00, wValue := ⟨0, 0⟩,
                     wIndex := ⟨0, 0⟩, wLength := ⟨2, 0⟩ }
    ucr_data := 100
    ucr_flags := 0
    ucr_actlen := 2
    ucr_timeout := 5000
    ucr_read := 1
    ucr_context := 7
    ucr_status := USBD_NORMAL_COMPLETION
    ucr_sce := (0, 0)
    xfer := 0 }

/-- A driver instance just attached and opened: no endpoint descriptors, all
queues empty, nothing logged. -/
def kernel_boot : Kernel :=
  { sc := { dying := false, sc_endpoints := fun _ _ => ⟨none, none, 0, 0, [], []⟩ }
    kmem := fun _ => urb_get_status
    xfers := fun _ => ⟨0, USBD_NOT_STARTED, 0, 0, 0, 0, []⟩
    umem := fun _ => some 0
    trace := [] }

/-- An allocator and bus that hand out record address `p` and transfer
handle `x` and take the transfer in progress. -/
def env_ok (p x : Nat) : submit_env :=
  { kreq := some p, xfer := some x, buf := true, err := USBD_IN_PROGRESS }

/-- The state after the request `urb_get_status` was accepted on the control
endpoint as record 1 with transfer 1. -/
def kernel_submitted : Kernel :=
  (ugen_do_ioctl kernel_boot 0 .USB_DO_REQUEST urb_get_status FWRITE (env_ok 1 1)).2.2

/-- The state after the transfer of `kernel_submitted` completed normally. -/
def kernel_completed : Kernel :=
  ugen_async_callback kernel_submitted 1 1 USBD_NORMAL_COMPLETION

/-- A record address is queued when it is on some queue of some endpoint
slot. -/
def queued (k : Kernel) (q : Nat) : Prop :=
  ∃ e d, q ∈ (k.sce e d).submit_queue ∨ q ∈ (k.sce e d).complete_queue

/-- The queue discipline: on every endpoint slot no record is linked twice
(neither within a queue nor across the two), every linked record points back
to the slot it is on, and records are only ever linked on the IN slot of an
endpoint that serves the asynchronous commands. -/
def Inv (k : Kernel) : Prop :=
  ∀ e d,
    ((k.sce e d).submit_queue ++ (k.sce e d).complete_queue).Nodup ∧
    (∀ q ∈ (k.sce e d).submit_queue ++ (k.sce e d).complete_queue,
      (k.kmem q).ucr_sce = (e, d)) ∧
    ((k.sce e d).submit_queue ++ (k.sce e d).complete_queue ≠ [] →
      d = IN ∧ async_endpoint k e)

/-- The guard of a step, checked on the control endpoint alone: enough on a
driver instance without endpoint descriptors, where no other endpoint can
queue anything. -/
def guard_local (k : Kernel) : Label → Bool
  | .ioctl _ .USB_DO_REQUEST _ _ env =>
      match env.kreq with
      | none => true
      | some p => decide (p ∉ (k.sce 0 IN).submit_queue ++ (k.sce 0 IN).complete_queue)
  | .ioctl _ _ _ _ _ => true
  | .callback _ priv _ =>
      decide (priv ∈ (k.sce (k.kmem priv).ucr_sce.1 (k.kmem priv).ucr_sce.2).submit_queue)
  | .bus _ _ => true

/-- The check `guard_local` along a sequence of steps. -/
def guarded_local : Kernel → List Label → Bool
  | _, [] => true
  | k, l :: ls => guard_local k l && guarded_local (step k l) ls

/-- The `USB_DO_REQUEST` step submitting `urb_get_status` with context `ctx`
on the control endpoint, the record being allocated at `p` with transfer
`p`. -/
def submit_step (p ctx : Nat) : Label :=
  .ioctl 0 .USB_DO_REQUEST { urb_get_status with ucr_context := ctx } FWRITE (env_ok p p)

/-- Three control requests with contexts 1, 2, 3 are submitted, the second is
cancelled, and the transfers complete in the order 2, 3, 1. -/
def fifo_steps : List Label :=
  [submit_step 1 1, submit_step 2 2, submit_step 3 3,
   .ioctl 0 .USB_CANCEL { urb_get_status with ucr_context := 2 } 0 (env_ok 0 0),
   .callback 2 2 USBD_CANCELLED,
   .callback 3 3 USBD_NORMAL_COMPLETION,
   .callback 1 1 USBD_NORMAL_COMPLETION]

/-- Two requests are submitted with the same context 7 and the first one
completes. -/
def duplicate_steps : List Label :=
  [submit_step 1 7, submit_step 2 7, .callback 1 1 USBD_NORMAL_COMPLETION]

/-- Two requests are submitted with contexts 7 and 8 and the first one
completes. -/
def distinct_steps : List Label :=
  [submit_step 1 7, submit_step 2 8, .callback 1 1 USBD_NORMAL_COMPLETION]

/-- The records of each endpoint created and not yet reaped, after a sequence
of steps. -/
def outstanding_run : Kernel → (Nat → List Nat) → List Label → Nat → List Nat
  | _, g, [] => g
  | k, g, l :: ls => outstanding_run (step k l) (outstanding_step k g l) ls

/-- A second request, with context 8. -/
def urb_second : usb_ctl_request := { urb_get_status with ucr_context := 8 }

/-! ## Polling, the bus, and the terms of the reap claims -/

/-- Event bit `POLLIN` of `sys/poll.h`. -/
abbrev POLLIN : Nat := 0x0001
/-- Event bit `POLLERR` of `sys/poll.h`. -/
abbrev POLLERR : Nat := 0x0008
/-- Event bit `POLLRDNORM` of `sys/poll.h`. -/
abbrev POLLRDNORM : Nat := 0x0040

/-- The macro `TAILQ_EMPTY`. -/
def TAILQ_EMPTY (q : List Nat) : Bool := q.isEmpty

/-- The block `if (events & (POLLIN | POLLRDNORM)) { if (ready) revents |=
events & (POLLIN | POLLRDNORM); else selrecord(p, &sce->rsel); }` of
`ugenpoll`, with `revents` zero before: the new `revents` and whether
`selrecord` was called. -/
def poll_read (events : Nat) (ready : Bool) : Nat × Bool :=
  if events &&& (POLLIN ||| POLLRDNORM) ≠ 0 then
    if ready = true then (events &&& (POLLIN ||| POLLRDNORM), false) else (0, true)
  else (0, false)

/-- The function `ugenpoll(dev, events, p)` on endpoint `endpt` of the device:
the returned `revents` and whether `selrecord` was called, or `none` where the
code dereferences a null `sce->edesc`.  `diagnostic` says whether the kernel
is built with `DIAGNOSTIC`; `ring_ready` is the readiness test of the
interrupt and isochronous cases (`sce->q.c_cc > 0`, `sce->cur != sce->fill`),
whose buffers are outside the asynchronous engine. -/
def ugenpoll (diagnostic : Bool) (k : Kernel) (endpt events : Nat) (ring_ready : Bool) :
    Option (Nat × Bool) :=
  if k.sc.dying = true then some (POLLERR, false)
  else
    let sce := k.sce endpt IN
    if diagnostic = true ∧ endpt ≠ USB_CONTROL_ENDPOINT ∧ sce.edesc = none then
      some (POLLERR, false)
    else if diagnostic = true ∧ endpt ≠ USB_CONTROL_ENDPOINT ∧ sce.pipeh = none then
      some (POLLERR, false)
    else if endpt = USB_CONTROL_ENDPOINT then
      some (poll_read events (!TAILQ_EMPTY sce.complete_queue))
    else
      match sce.edesc with
      | none => none
      | some bmAttributes =>
        if bmAttributes &&& UE_XFERTYPE = UE_INTERRUPT then
          some (poll_read events ring_ready)
        else if bmAttributes &&& UE_XFERTYPE = UE_ISOCHRONOUS then
          some (poll_read events ring_ready)
        else if bmAttributes &&& UE_XFERTYPE = UE_BULK then
          some (poll_read events (!TAILQ_EMPTY sce.complete_queue))
        else some (0, false)

/-- The host controller finishing the transfer `x`: it stores the final
status, the count of bytes moved and the contents of the DMA buffer in the
transfer object and invokes the callback installed on it, `ugen_async_callback`,
with the private pointer and the status of the transfer. -/
def usb_transfer_complete (k : Kernel) (x : Nat) (status : usbd_status) (actlen : Nat)
    (dmabuf : List Nat) : Kernel :=
  let k1 := k.set_xfer x { k.xfers x with status := status, actlen := actlen, dmabuf := dmabuf }
  ugen_async_callback k1 x (k1.xfers x).priv status

/-- The declared length of the queued record `b` of endpoint `endpt`: the
`wLength` of the setup packet on the control endpoint, the `ucr_actlen` it was
submitted with otherwise. -/
def declared_length (k : Kernel) (endpt b : Nat) : Int :=
  if endpt = USB_CONTROL_ENDPOINT then (UGETW (k.kmem b).ucr_request.wLength : Nat)
  else (k.kmem b).ucr_actlen

/-- Whether the queued record `b` of endpoint `endpt` is a read: the direction
bit of `bmRequestType` on the control endpoint, `ucr_read` otherwise. -/
def read_request (k : Kernel) (endpt b : Nat) : Bool :=
  if endpt = USB_CONTROL_ENDPOINT then
    decide ((k.kmem b).ucr_request.bmRequestType &&& UT_READ ≠ 0)
  else decide ((k.kmem b).ucr_read ≠ 0)

/-- The conditions under which `USB_GET_COMPLETED` on endpoint `endpt` reaps
the record `b`: the device is not dying, `b` is the head of the complete
queue, and the endpoint is the control endpoint or a bulk endpoint. -/
def reaps (k : Kernel) (endpt b : Nat) : Prop :=
  k.sc.dying = false ∧ TAILQ_FIRST (k.sce endpt IN).complete_queue = some b ∧
    async_endpoint k endpt

/-- A driver instance whose endpoint 1 has a bulk descriptor and an open pipe
in the IN slot; all queues are empty. -/
def kernel_bulk : Kernel :=
  { kernel_boot with
    sc := { dying := false
            sc_endpoints := fun e d =>
              if e = 1 ∧ d = IN then ⟨some UE_BULK, some 1, 0, 0, [], []⟩
              else ⟨none, none, 0, 0, [], []⟩ } }

/-- A bulk read of `len` bytes into the user buffer at 100, with context 5. -/
def urb_bulk_read (len : Int) : usb_ctl_request :=
  { urb_get_status with ucr_actlen := len, ucr_context := 5 }

/-- The error number chosen by the block `if (err == USBD_INTERRUPTED) error =
EINTR; else if (err == USBD_TIMEOUT) error = ETIMEDOUT; else error = EIO;` of
`ugen_submit_ctrl` and `ugen_submit_bulk`. -/
def submit_errno (err : usbd_status) : Nat :=
  if err = USBD_INTERRUPTED then EINTR
  else if err = USBD_TIMEOUT then ETIMEDOUT
  else EIO

/-- The requests that would damage the bus integrity: a device write of
`SET_ADDRESS`, a device write of `SET_CONFIG`, an interface write of
`SET_INTERFACE`. -/
def bus_integrity_write (r : usb_device_request_t) : Prop :=
  (r.bmRequestType = UT_WRITE_DEVICE ∧ r.bRequest = UR_SET_ADDRESS) ∨
  (r.bmRequestType = UT_WRITE_DEVICE ∧ r.bRequest = UR_SET_CONFIG) ∨
  (r.bmRequestType = UT_WRITE_INTERFACE ∧ r.bRequest = UR_SET_INTERFACE)

/-- An allocator that hands out record address `p` and transfer handle `x`,
and a bus that answers the submission with `err`. -/
def env_err (p x : Nat) (err : usbd_status) : submit_env :=
  { kreq := some p, xfer := some x, buf := true, err := err }

/-- A `SET_ADDRESS` device write, otherwise like `urb_get_status`. -/
def urb_set_address : usb_ctl_request :=
  { urb_get_status with
    ucr_request := { bmRequestType := UT_WRITE_DEVICE, bRequest := UR_SET_ADDRESS,
                     wValue := ⟨1, 0⟩, wIndex := ⟨0, 0⟩, wLength := ⟨0, 0⟩ } }

/-- The request `urb_get_status` with the two bytes of `wLength` replaced. -/
def urb_with_length (lo hi : Nat) : usb_ctl_request :=
  { urb_get_status with
    ucr_request := { urb_get_status.ucr_request with wLength := ⟨lo, hi⟩ } }

/-- The driver instance `kernel_boot` run by a process with no user memory
mapped. -/
def kernel_unmapped : Kernel := { kernel_boot with umem := fun _ => none }

/-- The state after `urb_get_status` was accepted on the control endpoint of
`k` as record 1 with transfer 1 and the device delivered the two bytes 1, 0. -/
def kernel_delivered (k : Kernel) : Kernel :=
  usb_transfer_complete
    (ugen_do_ioctl k 0 .USB_DO_REQUEST urb_get_status FWRITE (env_ok 1 1)).2.2
    1 USBD_NORMAL_COMPLETION 2 [1, 0]

/-- The state after a bulk read of four bytes was accepted on endpoint 1 of
`kernel_bulk` as record 1 with transfer 1 and the transfer finished with
status `s` after `n` bytes, the DMA buffer holding `buf`. -/
def kernel_bulk_finished (s : usbd_status) (n : Nat) (buf : List Nat) : Kernel :=
  usb_transfer_complete
    (ugen_do_ioctl kernel_bulk 1 .USB_DO_REQUEST (urb_bulk_read 4) 0 (env_ok 1 1)).2.2
    1 s n buf

/-- The driver instance `kernel_bulk` with the pipe of the IN slot of
endpoint 1 not open. -/
def kernel_bulk_closed : Kernel :=
  { kernel_boot with
    sc := { dying := false
            sc_endpoints := fun e d =>
              if e = 1 ∧ d = IN then ⟨some UE_BULK, none, 0, 0, [], []⟩
              else ⟨none, none, 0, 0, [], []⟩ } }

/-- The block handed back by `USB_GET_COMPLETED` on endpoint `endpt`. -/
def reaped_request (k : Kernel) (endpt : Nat) (req : usb_ctl_request) (flag : Nat)
    (env : submit_env) : usb_ctl_request :=
  (ugen_do_ioctl k endpt .USB_GET_COMPLETED req flag env).2.1

/-- The state `USB_GET_COMPLETED` on endpoint `endpt` leaves. -/
def reaped_state (k : Kernel) (endpt : Nat) (req : usb_ctl_request) (flag : Nat)
    (env : submit_env) : Kernel :=
  (ugen_do_ioctl k endpt .USB_GET_COMPLETED req flag env).2.2

/-- The state after a bulk read of four bytes was accepted on endpoint 1 of
`kernel_bulk` as record 1 and cancelled by its context before any completion:
the `USB_CANCEL` aborts the transfer and the callback fires with
`USBD_CANCELLED`. -/
def kernel_bulk_cancelled : Kernel :=
  (cancel_race (ugen_do_ioctl kernel_bulk 1 .USB_DO_REQUEST (urb_bulk_read 4) 0
    (env_ok 1 1)).2.2 1 1 (urb_bulk_read 4) 0 (env_ok 0 0) none).2

/-- The asynchronous control scenario of `test_async_control` up to the
wake-up: the request `req` is submitted with `USB_DO_REQUEST` on the control
endpoint, and the host controller finishes its transfer `x` with normal
completion after `n` bytes, the DMA buffer holding `buf`. -/
def control_delivered (k : Kernel) (req : usb_ctl_request) (flag : Nat) (env : submit_env)
    (x n : Nat) (buf : List Nat) : Kernel :=
  usb_transfer_complete
    (ugen_do_ioctl k USB_CONTROL_ENDPOINT .USB_DO_REQUEST req flag env).2.2
    x USBD_NORMAL_COMPLETION n buf

/-! ## The library back-end: constants of `errno.h` and `libusb.h` -/

/-- Error number `ENOENT` of `errno.h`. -/
abbrev ENOENT : Nat := 2
/-- Error number `EACCES` of `errno.h`. -/
abbrev EACCES : Nat := 13

/-- Result `LIBUSB_SUCCESS` of `libusb.h`. -/
abbrev LIBUSB_SUCCESS : Int := 0
/-- Result `LIBUSB_ERROR_IO` of `libusb.h`. -/
abbrev LIBUSB_ERROR_IO : Int := -1
/-- Result `LIBUSB_ERROR_ACCESS` of `libusb.h`. -/
abbrev LIBUSB_ERROR_ACCESS : Int := -3
/-- Result `LIBUSB_ERROR_NO_DEVICE` of `libusb.h`. -/
abbrev LIBUSB_ERROR_NO_DEVICE : Int := -4
/-- Result `LIBUSB_ERROR_TIMEOUT` of `libusb.h`. -/
abbrev LIBUSB_ERROR_TIMEOUT : Int := -7
/-- Result `LIBUSB_ERROR_NO_MEM` of `libusb.h`. -/
abbrev LIBUSB_ERROR_NO_MEM : Int := -11
/-- Result `LIBUSB_ERROR_NOT_SUPPORTED` of `libusb.h`. -/
abbrev LIBUSB_ERROR_NOT_SUPPORTED : Int := -12
/-- Result `LIBUSB_ERROR_OTHER` of `libusb.h`. -/
abbrev LIBUSB_ERROR_OTHER : Int := -99

/-- Transfer status `LIBUSB_TRANSFER_COMPLETED` of `libusb.h`. -/
abbrev LIBUSB_TRANSFER_COMPLETED : Nat := 0
/-- Transfer status `LIBUSB_TRANSFER_ERROR` of `libusb.h`. -/
abbrev LIBUSB_TRANSFER_ERROR : Nat := 1
/-- Transfer status `LIBUSB_TRANSFER_CANCELLED` of `libusb.h`. -/
abbrev LIBUSB_TRANSFER_CANCELLED : Nat := 3
/-- Transfer status `LIBUSB_TRANSFER_STALL` of `libusb.h`. -/
abbrev LIBUSB_TRANSFER_STALL : Nat := 4

/-- Transfer type `LIBUSB_TRANSFER_TYPE_CONTROL` of `libusb.h`. -/
abbrev LIBUSB_TRANSFER_TYPE_CONTROL : Nat := 0
/-- Transfer type `LIBUSB_TRANSFER_TYPE_ISOCHRONOUS` of `libusb.h`. -/
abbrev LIBUSB_TRANSFER_TYPE_ISOCHRONOUS : Nat := 1
/-- Transfer type `LIBUSB_TRANSFER_TYPE_BULK` of `libusb.h`. -/
abbrev LIBUSB_TRANSFER_TYPE_BULK : Nat := 2
/-- Transfer type `LIBUSB_TRANSFER_TYPE_INTERRUPT` of `libusb.h`. -/
abbrev LIBUSB_TRANSFER_TYPE_INTERRUPT : Nat := 3
/-- Transfer type `LIBUSB_TRANSFER_TYPE_BULK_STREAM` of `libusb.h`. -/
abbrev LIBUSB_TRANSFER_TYPE_BULK_STREAM : Nat := 4

/-- Transfer flag `LIBUSB_TRANSFER_SHORT_NOT_OK` of `libusb.h`. -/
abbrev LIBUSB_TRANSFER_SHORT_NOT_OK : Nat := 1
/-- Transfer flag `LIBUSB_TRANSFER_ADD_ZERO_PACKET` of `libusb.h`. -/
abbrev LIBUSB_TRANSFER_ADD_ZERO_PACKET : Nat := 8
/-- Direction bit `LIBUSB_ENDPOINT_IN` of an endpoint address. -/
abbrev LIBUSB_ENDPOINT_IN : Nat := 0x80
/-- Size `LIBUSB_CONTROL_SETUP_SIZE` of the setup packet at the start of a
control buffer. -/
abbrev LIBUSB_CONTROL_SETUP_SIZE : Nat := 8
/-- Bound `USB_MAX_ENDPOINTS` of `dev/usb/usb.h`. -/
abbrev USB_MAX_ENDPOINTS : Nat := 16
/-- Open flag `FREAD` of `sys/fcntl.h`. -/
abbrev FREAD : Nat := 0x0001

/-- The function `_errno_to_libusb(err)`. -/
def _errno_to_libusb (err : Int) : Int :=
  if err = ( EIO : Nat) then LIBUSB_ERROR_IO
  else if err = (EACCES : Nat) then LIBUSB_ERROR_ACCESS
  else if err = (ENOENT : Nat) then LIBUSB_ERROR_NO_DEVICE
  else if err = (ENOMEM : Nat) then LIBUSB_ERROR_NO_MEM
  else if err = (ETIMEDOUT : Nat) then LIBUSB_ERROR_TIMEOUT
  else LIBUSB_ERROR_OTHER

/-! ## The library back-end: the event handler `obsd_handle_events` -/

/-- The calls `obsd_handle_events` makes to the system and to the library
core, as they are logged: `ioctl(fd, USB_GET_COMPLETED, &req)` with the error
it failed with (0 when it succeeded), the two dispatchers with their
arguments, and the calls of the disconnect branch. -/
inductive lib_call
  | ioctl_get_completed (fd : Int) (error : Nat)
  | usbi_handle_transfer_completion (itransfer : Nat) (status : Nat)
  | usbi_handle_transfer_cancellation (itransfer : Nat)
  | usbi_remove_pollfd (fd : Int)
  | close (fd : Int)
  | usbi_handle_disconnect (dev : Nat)
  deriving DecidableEq, Repr

/-- The dispatchers of the library core, which are not part of the back-end:
the value `usbi_handle_transfer_completion(itransfer, status)` and
`usbi_handle_transfer_cancellation(itransfer)` return, given the calls made so
far.  They are taken not to re-enter the back-end. -/
structure lib_env where
  completion : List lib_call → Nat → Nat → Int
  cancellation : List lib_call → Nat → Int

/-- The state of the back-end that `obsd_handle_events` works on: the field
`transferred` of each `struct usbi_transfer` (by its address), `errno`, and
the log of calls. -/
structure lib_state where
  transferred : Nat → Int
  errno : Int
  calls : List lib_call

/-- A call is appended to the log. -/
def lib_state.log (L : lib_state) (c : lib_call) : lib_state :=
  { L with calls := L.calls ++ [c] }

/-- The sum of two `int`s as the machine computes it (two's complement, 32
bits). -/
def int_add (a b : Int) : Int := to_int (to_u32 (a + b))

/-- The statement `itransfer->transferred += actlen;`. -/
def lib_state.add_transferred (L : lib_state) (itransfer : Nat) (actlen : Int) : lib_state :=
  { L with transferred := fun t =>
      if t = itransfer then int_add (L.transferred t) actlen else L.transferred t }

/-- The `switch (req.ucr_status)` of `obsd_handle_events` as far as
`error_code` goes: `none` stands for the `goto repeat` of
`USBD_IN_PROGRESS`. -/
def status_switch : usbd_status → Option Nat
  | .USBD_NORMAL_COMPLETION => some LIBUSB_TRANSFER_COMPLETED
  | .USBD_SHORT_XFER => some LIBUSB_TRANSFER_ERROR
  | .USBD_IN_PROGRESS => none
  | .USBD_CANCELLED => some LIBUSB_TRANSFER_CANCELLED
  | .USBD_STALLED => some LIBUSB_TRANSFER_STALL
  | _ => some LIBUSB_TRANSFER_ERROR

/-- One round of the loop `while (1) { repeat: ... }` of `obsd_handle_events`
on the descriptor `fd`, which is the node of endpoint `endpt` of the device
with driver state `k`; `req` is the local variable the ioctl fills in.  The
first component is `some err` when the round leaves the loop by `break` with
that value of `err`, and `none` when the loop goes round again (also by
`goto repeat`). -/
def obsd_reap_round (env : lib_env) (fd : Int) (endpt flag : Nat) (senv : submit_env)
    (k : Kernel) (req : usb_ctl_request) (L : lib_state) :
    Option Int × Kernel × usb_ctl_request × lib_state :=
  let r := ugen_do_ioctl k endpt .USB_GET_COMPLETED req flag senv
  let L := L.log (.ioctl_get_completed fd r.1)
  if r.1 ≠ 0 then
    (some 0, r.2.2, r.2.1, { L with errno := r.1 })
  else
    let req := r.2.1
    let k := r.2.2
    let itransfer := req.ucr_context
    let L := if req.ucr_status = USBD_NORMAL_COMPLETION then
        L.add_transferred itransfer req.ucr_actlen
      else L
    match status_switch req.ucr_status with
    | none => (none, k, req, L)
    | some error_code =>
      if error_code = LIBUSB_TRANSFER_CANCELLED then
        let err := env.cancellation L.calls itransfer
        let L := L.log (.usbi_handle_transfer_cancellation itransfer)
        if err ≠ 0 then (some err, k, req, L) else (none, k, req, L)
      else
        let err := env.completion L.calls itransfer error_code
        let L := L.log (.usbi_handle_transfer_completion itransfer error_code)
        if err ≠ 0 then (some err, k, req, L) else (none, k, req, L)

/-- The loop `while (1) { repeat: ... }` of `obsd_handle_events`: the value of
`err` it is left with and the states after it, or `none` when `fuel` rounds
do not suffice. -/
def obsd_reap (env : lib_env) (fd : Int) (endpt flag : Nat) (senv : submit_env) :
    Nat → Kernel → usb_ctl_request → lib_state →
      Option (Int × Kernel × usb_ctl_request × lib_state)
  | 0, _, _, _ => none
  | fuel + 1, k, req, L =>
    match obsd_reap_round env fd endpt flag senv k req L with
    | (some err, k1, req1, L1) => some (err, k1, req1, L1)
    | (none, k1, req1, L1) => obsd_reap env fd endpt flag senv fuel k1 req1 L1

/-- An entry of the array `fds` handed to `obsd_handle_events`. -/
structure pollfd where
  fd : Int
  revents : Nat

/-- What `obsd_handle_events` reads of an open device handle: the device it
is a handle of (the index of its driver instance), the descriptor `dpriv->fd`
of the control node and the array `hpriv->endpoints` of the descriptors of the
endpoint nodes. -/
structure libusb_device_handle where
  dev : Nat
  fd : Int
  endpoints : Nat → Int

/-- The search `list_for_each_entry(handle, &ctx->open_devs, ...)` of
`obsd_handle_events` for the handle that owns the descriptor `fd`: the handle
and the number of the endpoint whose node `fd` is (the control node for
`dpriv->fd`). -/
def find_handle : List libusb_device_handle → Int → Option (libusb_device_handle × Nat)
  | [], _ => none
  | h :: rest, fd =>
    if h.fd = fd then some (h, USB_CONTROL_ENDPOINT)
    else
      match (List.range USB_MAX_ENDPOINTS).find? (fun endpt => decide (h.endpoints endpt = fd)) with
      | some endpt => some (h, endpt)
      | none => find_handle rest fd

/-- The disconnect branch of `obsd_handle_events`: every open endpoint node is
taken off the poll set and closed, the control node is taken off the poll set
and the disconnect hook is called.  What `close` does in the driver is not
run here. -/
def obsd_disconnect (h : libusb_device_handle) (L : lib_state) : lib_state :=
  let L := (List.range USB_MAX_ENDPOINTS).foldl (fun L endpt =>
    if h.endpoints endpt ≥ 0 then
      (L.log (.usbi_remove_pollfd (h.endpoints endpt))).log (.close (h.endpoints endpt))
    else L) L
  (L.log (.usbi_remove_pollfd h.fd)).log (.usbi_handle_disconnect h.dev)

/-- The loop `for (i = 0; i < nfds && num_ready > 0; i++)` of
`obsd_handle_events` over the entries of `fds` still to visit: the value of
`err` after the loop and the states of the drivers (by device), of `req` and
of the back-end; `none` when `fuel` rounds do not suffice for a descriptor. -/
def obsd_handle_fds (env : lib_env) (open_devs : List libusb_device_handle) (flag : Nat)
    (senv : submit_env) (fuel : Nat) :
    List pollfd → Int → (Nat → Kernel) → usb_ctl_request → lib_state →
      Option (Int × (Nat → Kernel) × usb_ctl_request × lib_state)
  | [], _, ks, req, L => some (0, ks, req, L)
  | p :: fds, num_ready, ks, req, L =>
    if ¬ num_ready > 0 then some (0, ks, req, L)
    else if p.revents = 0 then
      obsd_handle_fds env open_devs flag senv fuel fds num_ready ks req L
    else
      match find_handle open_devs p.fd with
      | none => some ((ENOENT : Nat), ks, req, L)
      | some (h, endpt) =>
        if p.revents &&& POLLERR ≠ 0 then
          obsd_handle_fds env open_devs flag senv fuel fds (num_ready - 1) ks req
            (obsd_disconnect h L)
        else
          match obsd_reap env p.fd endpt flag senv fuel (ks h.dev) req L with
          | none => none
          | some (err, k1, req1, L1) =>
            let ks1 := fun d => if d = h.dev then k1 else ks d
            if err ≠ 0 then some (L1.errno, ks1, req1, L1)
            else obsd_handle_fds env open_devs flag senv fuel fds (num_ready - 1) ks1 req1 L1

/-- The function `obsd_handle_events(ctx, fds, nfds, num_ready)`: the value
returned and the states it leaves. -/
def obsd_handle_events (env : lib_env) (open_devs : List libusb_device_handle) (flag : Nat)
    (senv : submit_env) (fuel : Nat) (fds : List pollfd) (num_ready : Int)
    (ks : Nat → Kernel) (req : usb_ctl_request) (L : lib_state) :
    Option (Int × (Nat → Kernel) × usb_ctl_request × lib_state) :=
  match obsd_handle_fds env open_devs flag senv fuel fds num_ready ks req L with
  | none => none
  | some (err, ks1, req1, L1) =>
    some (if err ≠ 0 then _errno_to_libusb err else LIBUSB_SUCCESS, ks1, req1, L1)

/-- Dispatchers that always return 0. -/
def lib_env_ok : lib_env := ⟨fun _ _ _ => 0, fun _ _ => 0⟩

/-- A back-end state with all counts zero and nothing logged. -/
def lib_boot : lib_state := ⟨fun _ => 0, 0, []⟩

/-- The dispatcher call a round of the loop of `obsd_handle_events` makes for
the reaped block `R`: none when its status is in progress. -/
def dispatch_of (R : usb_ctl_request) : List lib_call :=
  match status_switch R.ucr_status with
  | none => []
  | some code =>
    if code = LIBUSB_TRANSFER_CANCELLED then
      [.usbi_handle_transfer_cancellation R.ucr_context]
    else [.usbi_handle_transfer_completion R.ucr_context code]

/-- The calls one round of the loop of `obsd_handle_events` logs when its
`USB_GET_COMPLETED` on `fd` succeeds with the block `R` and the dispatcher
returns: the ioctl, then the dispatch, if any, of `R`. -/
def round_calls (fd : Int) (R : usb_ctl_request) : List lib_call :=
  .ioctl_get_completed fd 0 :: dispatch_of R

/-- The results of the `USB_GET_COMPLETED` calls in a log, in order. -/
def ioctl_errors : List lib_call → List Nat
  | [] => []
  | .ioctl_get_completed _ e :: cs => e :: ioctl_errors cs
  | _ :: cs => ioctl_errors cs

/-- The dispatcher calls in a log, in order. -/
def dispatches : List lib_call → List lib_call
  | [] => []
  | .usbi_handle_transfer_completion t s :: cs =>
    .usbi_handle_transfer_completion t s :: dispatches cs
  | .usbi_handle_transfer_cancellation t :: cs =>
    .usbi_handle_transfer_cancellation t :: dispatches cs
  | _ :: cs => dispatches cs

/-- A handle of device 0 whose control node is descriptor 3 and which has no
endpoint node open. -/
def handle_boot : libusb_device_handle := ⟨0, 3, fun _ => -1⟩

/-- The entry of `fds` for descriptor 3 reported readable. -/
def pollfd_ready : pollfd := ⟨3, POLLIN ||| POLLRDNORM⟩

/-! ## The library back-end: `obsd_submit_transfer` -/

/-- Error number `ENXIO` of `errno.h`. -/
abbrev ENXIO : Nat := 6
/-- Open mode `O_RDONLY` of `fcntl.h`. -/
abbrev O_RDONLY : Nat := 0
/-- Open mode `O_WRONLY` of `fcntl.h`. -/
abbrev O_WRONLY : Nat := 1
/-- Open mode `O_RDWR` of `fcntl.h`. -/
abbrev O_RDWR : Nat := 2

/-- The requests `obsd_submit_transfer` makes with `ioctl`, with what they
carry. -/
inductive os_ioctl
  | USB_REQUEST (req : usb_ctl_request)
  | USB_DO_REQUEST (req : usb_ctl_request)
  | USB_SET_TIMEOUT (timeout : Nat)
  | USB_SET_SHORT_XFER (nr : Int)
  deriving DecidableEq, Repr

/-- The calls `obsd_submit_transfer` makes to the system and to the library
core, as they are logged. -/
inductive os_call
  | open_bus (number : Nat) (mode : Nat)
  | open_endpoint (endpt : Nat) (mode : Nat)
  | close (fd : Int)
  | ioctl (fd : Int) (cmd : os_ioctl)
  | read (fd : Int) (buffer : Nat) (length : Int)
  | write (fd : Int) (buffer : Nat) (length : Int)
  | usbi_add_pollfd (fd : Int) (events : Nat)
  | usbi_signal_transfer_completion (itransfer : Nat)
  deriving DecidableEq, Repr

/-- The system as `obsd_submit_transfer` sees it, given the calls made so far:
the value and the `errno` of the next `open`, of the next `ioctl` and of the
next `read` or `write`, and the `ucr_actlen` a `USB_REQUEST` stores. -/
structure os_env where
  open_result : List os_call → Int × Int
  ioctl_result : List os_call → Int × Int
  rw_result : List os_call → Int × Int
  actlen : List os_call → Int

/-- The state `obsd_submit_transfer` works on: the array `hpriv->endpoints`,
the field `transferred` of each `struct usbi_transfer`, `errno`, and the log
of calls. -/
structure os_state where
  endpoints : Nat → Int
  transferred : Nat → Int
  errno : Int
  calls : List os_call

/-- What `obsd_submit_transfer` reads of a `struct libusb_transfer` and of the
device it is for: type, endpoint address, flags, timeout, length, the address
of the buffer and the setup packet at its start, and of the device the name of
its ugen(4) node (absent when it has none), the descriptor of its control
node, its bus number and its address. -/
structure libusb_transfer where
  type : Nat
  endpoint : Nat
  flags : Nat
  timeout : Nat
  length : Int
  buffer : Nat
  setup : usb_device_request_t
  devname : Option Nat
  fd : Int
  bus_number : Nat
  device_address : Nat

/-- The macro `IS_XFERIN` of `libusbi.h`. -/
def IS_XFERIN (t : libusb_transfer) : Bool := decide (t.endpoint &&& LIBUSB_ENDPOINT_IN ≠ 0)

/-- The macro `IS_XFEROUT` of `libusbi.h`. -/
def IS_XFEROUT (t : libusb_transfer) : Bool := !IS_XFERIN t

/-- The macro `UE_GET_ADDR` of `dev/usb/usb.h`. -/
def UE_GET_ADDR (a : Nat) : Nat := a &&& 0x0f

/-- A system call is logged and `errno` is set when it failed. -/
def os_state.sys (S : os_state) (c : os_call) (r : Int × Int) : os_state :=
  { S with calls := S.calls ++ [c], errno := if r.1 < 0 then r.2 else S.errno }

/-- A call into the library core is logged. -/
def os_state.log (S : os_state) (c : os_call) : os_state :=
  { S with calls := S.calls ++ [c] }

/-- The function `_access_endpoint(transfer)`. -/
def _access_endpoint (env : os_env) (t : libusb_transfer) (S : os_state) : Int × os_state :=
  let endpt := UE_GET_ADDR t.endpoint
  let mode := if IS_XFERIN t = true then O_RDONLY else O_WRONLY
  if S.endpoints endpt < 0 then
    let r1 := env.open_result S.calls
    let S1 := S.sys (.open_endpoint endpt O_RDWR) r1
    let opened := fun (fd : Int) (S2 : os_state) =>
      let S3 := { S2 with endpoints := fun e => if e = endpt then fd else S2.endpoints e }
      let S4 := S3.log (.usbi_add_pollfd fd (POLLIN ||| POLLRDNORM))
      (S4.endpoints endpt, S4)
    if r1.1 < 0 ∧ S1.errno = ( ENXIO : Nat) then
      let r2 := env.open_result S1.calls
      let S2 := S1.sys (.open_endpoint endpt mode) r2
      if r2.1 < 0 then (-1, S2) else opened r2.1 S2
    else if r1.1 < 0 then (-1, S1)
    else opened r1.1 S1
  else (S.endpoints endpt, S)

/-- The function `_sync_gen_transfer(itransfer)`. -/
def _sync_gen_transfer (env : os_env) (itransfer : Nat) (t : libusb_transfer) (S : os_state) :
    Int × os_state :=
  match t.devname with
  | none => (LIBUSB_ERROR_NOT_SUPPORTED, S)
  | some _ =>
    let a := _access_endpoint env t S
    if a.1 < 0 then (_errno_to_libusb a.2.errno, a.2)
    else
      let fd := a.1
      let r := env.ioctl_result a.2.calls
      let S1 := a.2.sys (.ioctl fd (.USB_SET_TIMEOUT t.timeout)) r
      if r.1 < 0 then (_errno_to_libusb S1.errno, S1)
      else
        let finish := fun (nr : Int) (S3 : os_state) =>
          if nr < 0 then (_errno_to_libusb S3.errno, S3)
          else
            ((0 : Int), { S3 with transferred := fun i =>
              if i = itransfer then nr else S3.transferred i })
        if IS_XFERIN t = true then
          if t.flags &&& LIBUSB_TRANSFER_SHORT_NOT_OK = 0 then
            let r2 := env.ioctl_result S1.calls
            let S2 := S1.sys (.ioctl fd (.USB_SET_SHORT_XFER 1)) r2
            if r2.1 < 0 then (_errno_to_libusb S2.errno, S2)
            else
              let n := env.rw_result S2.calls
              finish n.1 (S2.sys (.read fd t.buffer t.length) n)
          else
            let n := env.rw_result S1.calls
            finish n.1 (S1.sys (.read fd t.buffer t.length) n)
        else
          let n := env.rw_result S1.calls
          finish n.1 (S1.sys (.write fd t.buffer t.length) n)

/-- The function `_sync_bulk_transfer(itransfer)`; `req0` is the local
variable `req` as it is found. -/
def _sync_bulk_transfer (env : os_env) (itransfer : Nat) (t : libusb_transfer)
    (req0 : usb_ctl_request) (S : os_state) : Int × os_state :=
  match t.devname with
  | none => (LIBUSB_ERROR_NOT_SUPPORTED, S)
  | some _ =>
    let a := _access_endpoint env t S
    if a.1 < 0 then (_errno_to_libusb a.2.errno, a.2)
    else
      let fd := a.1
      let flags0 := if t.flags &&& LIBUSB_TRANSFER_SHORT_NOT_OK = 0 then USBD_SHORT_XFER_OK else 0
      let flags := if t.flags &&& LIBUSB_TRANSFER_ADD_ZERO_PACKET ≠ 0
        then flags0 ||| USBD_FORCE_SHORT_XFER else flags0
      let req := { req0 with
        ucr_timeout := t.timeout
        ucr_flags := flags
        ucr_read := if IS_XFERIN t = true then 1 else 0
        ucr_data := t.buffer
        ucr_actlen := t.length
        ucr_context := itransfer }
      let r := env.ioctl_result a.2.calls
      let S1 := a.2.sys (.ioctl fd (.USB_DO_REQUEST req)) r
      if r.1 ≠ 0 then (_errno_to_libusb S1.errno, S1) else (0, S1)

/-- The function `_sync_control_transfer(itransfer)`. -/
def _sync_control_transfer (env : os_env) (itransfer : Nat) (t : libusb_transfer)
    (req0 : usb_ctl_request) (S : os_state) : Int × os_state :=
  let req := { req0 with
    ucr_addr := t.device_address
    ucr_request := t.setup
    ucr_data := t.buffer + LIBUSB_CONTROL_SETUP_SIZE
    ucr_flags := if t.flags &&& LIBUSB_TRANSFER_SHORT_NOT_OK = 0 then USBD_SHORT_XFER_OK else 0 }
  match t.devname with
  | none =>
    let o := env.open_result S.calls
    let S1 := S.sys (.open_bus t.bus_number O_RDWR) o
    if o.1 < 0 then (_errno_to_libusb S1.errno, S1)
    else
      let fd := o.1
      let r := env.ioctl_result S1.calls
      let len := env.actlen S1.calls
      let S2 := S1.sys (.ioctl fd (.USB_REQUEST req)) r
      if r.1 < 0 then
        let err := S2.errno
        let S3 := S2.log (.close fd)
        (_errno_to_libusb err, S3)
      else
        let S3 := S2.log (.close fd)
        (0, { S3 with transferred := fun i => if i = itransfer then len else S3.transferred i })
  | some _ =>
    let req := { req with
      ucr_context := itransfer
      ucr_timeout := t.timeout
      ucr_read := req.ucr_request.bmRequestType &&& UT_READ }
    let r := env.ioctl_result S.calls
    let S1 := S.sys (.ioctl t.fd (.USB_DO_REQUEST req)) r
    if r.1 < 0 then (_errno_to_libusb S1.errno, S1) else (0, S1)

/-- The function `obsd_submit_transfer(itransfer)`. -/
def obsd_submit_transfer (env : os_env) (itransfer : Nat) (t : libusb_transfer)
    (req0 : usb_ctl_request) (S : os_state) : Int × os_state :=
  let r : Int × os_state :=
    if t.type = LIBUSB_TRANSFER_TYPE_CONTROL then
      _sync_control_transfer env itransfer t req0 S
    else if t.type = LIBUSB_TRANSFER_TYPE_ISOCHRONOUS then
      if IS_XFEROUT t = true then (LIBUSB_ERROR_NOT_SUPPORTED, S)
      else _sync_gen_transfer env itransfer t S
    else if t.type = LIBUSB_TRANSFER_TYPE_BULK then
      _sync_bulk_transfer env itransfer t req0 S
    else if t.type = LIBUSB_TRANSFER_TYPE_INTERRUPT then
      if IS_XFEROUT t = true ∧ t.flags &&& LIBUSB_TRANSFER_ADD_ZERO_PACKET ≠ 0 then
        (LIBUSB_ERROR_NOT_SUPPORTED, S)
      else _sync_gen_transfer env itransfer t S
    else if t.type = LIBUSB_TRANSFER_TYPE_BULK_STREAM then
      (LIBUSB_ERROR_NOT_SUPPORTED, S)
    else (0, S)
  if r.1 ≠ 0 then r
  else if t.type = LIBUSB_TRANSFER_TYPE_CONTROL then
    if t.devname = none then
      (LIBUSB_SUCCESS, r.2.log (.usbi_signal_transfer_completion itransfer))
    else (LIBUSB_SUCCESS, r.2)
  else if t.type = LIBUSB_TRANSFER_TYPE_BULK then (LIBUSB_SUCCESS, r.2)
  else (LIBUSB_SUCCESS, r.2.log (.usbi_signal_transfer_completion itransfer))

/-- A system in which every call succeeds: `open` gives descriptor 4, `ioctl`
gives 0, `read` and `write` move 2 bytes. -/
def os_env_ok : os_env := ⟨fun _ => (4, 0), fun _ => (0, 0), fun _ => (2, 0), fun _ => 2⟩

/-- A back-end state with no endpoint node open and nothing logged. -/
def os_boot : os_state := ⟨fun _ => -1, fun _ => 0, 0, []⟩

/-- An isochronous IN transfer of two bytes on endpoint 1 of a device with a
ugen(4) node. -/
def transfer_iso_in : libusb_transfer :=
  { type := LIBUSB_TRANSFER_TYPE_ISOCHRONOUS, endpoint := 0x81, flags := 0, timeout := 1000,
    length := 2, buffer := 100, setup := urb_get_status.ucr_request, devname := some 0,
    fd := 3, bus_number := 0, device_address := 2 }

/-- The transfer `transfer_iso_in` in the OUT direction. -/
def transfer_iso_out : libusb_transfer := { transfer_iso_in with endpoint := 0x01 }

/-- A driver instance whose endpoint 2 has a bulk descriptor and an open pipe
in the OUT slot only; the IN slot of endpoint 2 has no descriptor. -/
def kernel_bulk_out : Kernel :=
  { kernel_boot with
    sc := { dying := false
            sc_endpoints := fun e d =>
              if e = 2 ∧ d = OUT then ⟨some UE_BULK, some 2, 0, 0, [], []⟩
              else ⟨none, none, 0, 0, [], []⟩ } }

/-- A driver instance whose endpoint 1 has an interrupt descriptor in the IN
slot while record 1 is on the complete queue of that slot, as after the
alternate setting of the interface was changed with the node open. -/
def kernel_interrupt_queued : Kernel :=
  { kernel_boot with
    sc := { dying := false
            sc_endpoints := fun e d =>
              if e = 1 ∧ d = IN then ⟨some UE_INTERRUPT, some 1, 0, 0, [], [1]⟩
              else ⟨none, none, 0, 0, [], []⟩ } }

/-! ## Endpoint teardown: `ugen_do_close` -/

/-- What `ugen_do_close` reads and writes of the softc beside the queues and
pipes: the flags `sc_is_open`, and per endpoint slot the buffer `ibuf` and the
transfers of the array `isoreqs`. -/
structure ugen_open_state where
  sc_is_open : Nat → Bool
  ibuf : Nat → Nat → Option Nat
  isoreqs : Nat → Nat → Nat → Nat

/-- Length `UGEN_NISOREQS` of the array `isoreqs`. -/
abbrev UGEN_NISOREQS : Nat := 6

/-- The calls of the pipe teardown of `ugen_do_close` that the log of the
asynchronous engine has no entry for. -/
inductive close_call
  | usbd_close_pipe (pipe : Nat)
  | ndflush (endpt dir : Nat)
  | clfree (endpt dir : Nat)
  deriving DecidableEq, Repr

/-- The loop `while ((req = TAILQ_FIRST(&sce->complete_queue))) { ... }` of
`ugen_do_close`: each round unlinks the head, frees its transfer and frees the
record; `none` when `fuel` rounds do not empty the queue. -/
def ugen_close_drain (endpt : Nat) : Nat → Kernel → Option Kernel
  | 0, k =>
    match TAILQ_FIRST (k.sce endpt IN).complete_queue with
    | none => some k
    | some _ => none
  | fuel + 1, k =>
    match TAILQ_FIRST (k.sce endpt IN).complete_queue with
    | none => some k
    | some req =>
      let sce := k.sce endpt IN
      let k := k.set_sce endpt IN
        { sce with complete_queue := TAILQ_REMOVE sce.complete_queue req }
      let k := k.emit (.usbd_free_xfer (k.kmem req).xfer)
      let k := k.emit (.free req)
      ugen_close_drain endpt fuel k

/-- One round of the loop `for (dir = OUT; dir <= IN; dir++)` of
`ugen_do_close`; `none` where the code dereferences a null `sce->edesc`. -/
def ugen_close_dir (endpt flag dir : Nat) (k : Kernel) (o : ugen_open_state)
    (calls : List close_call) : Option (Kernel × ugen_open_state × List close_call) :=
  if flag &&& (if dir = OUT then FWRITE else FREAD) = 0 then some (k, o, calls)
  else
    let sce := k.sce endpt dir
    match sce.pipeh with
    | none => some (k, o, calls)
    | some pipe =>
      let calls := calls ++ [.usbd_close_pipe pipe]
      let k := k.set_sce endpt dir { sce with pipeh := none }
      match sce.edesc with
      | none => none
      | some bmAttributes =>
        let r : Kernel × List close_call :=
          if bmAttributes &&& UE_XFERTYPE = UE_INTERRUPT then
            (k, calls ++ [.ndflush endpt dir, .clfree endpt dir])
          else if bmAttributes &&& UE_XFERTYPE = UE_ISOCHRONOUS then
            ((List.range UGEN_NISOREQS).foldl
              (fun k i => k.emit (.usbd_free_xfer (o.isoreqs endpt dir i))) k, calls)
          else (k, calls)
        match o.ibuf endpt dir with
        | none => some (r.1, o, r.2)
        | some p =>
          some (r.1.emit (.free p),
            { o with ibuf := fun e d => if e = endpt ∧ d = dir then none else o.ibuf e d }, r.2)

/-- The function `ugen_do_close(sc, endpt, flag)`: the value returned, the
states it leaves and the calls of the pipe teardown; `diagnostic` says whether
the kernel is built with `DIAGNOSTIC`. -/
def ugen_do_close (diagnostic : Bool) (fuel : Nat) (k : Kernel) (o : ugen_open_state)
    (endpt flag : Nat) : Option (Nat × Kernel × ugen_open_state × List close_call) :=
  if diagnostic = true ∧ o.sc_is_open endpt = false then some (EINVAL, k, o, [])
  else
    match ugen_close_drain endpt fuel k with
    | none => none
    | some k =>
      let closed := fun (o : ugen_open_state) =>
        { o with sc_is_open := fun e => if e = endpt then false else o.sc_is_open e }
      if endpt = USB_CONTROL_ENDPOINT then some (0, k, closed o, [])
      else
        match ugen_close_dir endpt flag OUT k o [] with
        | none => none
        | some (k1, o1, c1) =>
          match ugen_close_dir endpt flag IN k1 o1 c1 with
          | none => none
          | some (k2, o2, c2) => some (0, k2, closed o2, c2)

/-- The frees of the pipe teardown of `ugen_do_close` on endpoint `endpt`: of a
transfer of the array `isoreqs` or of the buffer `ibuf` of one of its
slots. -/
def teardown_free (o : ugen_open_state) (endpt : Nat) (ev : Event) : Prop :=
  (∃ d i, ev = .usbd_free_xfer (o.isoreqs endpt d i)) ∨
  (∃ d p, o.ibuf endpt d = some p ∧ ev = .free p)

/-- The releases of the drain of `ugen_do_close` for the complete queue `q`:
for each record in turn its transfer, then the record. -/
def drain_events (k : Kernel) (q : List Nat) : List Event :=
  q.flatMap (fun b => [.usbd_free_xfer (k.kmem b).xfer, .free b])

/-- Open-state of a driver instance with endpoints 0 and 1 open, no buffers
and transfer 0 in every slot of `isoreqs`. -/
def open_boot : ugen_open_state := ⟨fun e => decide (e ≤ 1), fun _ _ => none, fun _ _ _ => 0⟩

/-- A driver instance whose bulk endpoint 1 has record 2 on the submit queue
and record 1 on the complete queue of its IN slot, the pipe of the slot being
open; record `p` has transfer `p`. -/
def kernel_bulk_closing : Kernel :=
  { kernel_boot with
    sc := { dying := false
            sc_endpoints := fun e d =>
              if e = 1 ∧ d = IN then ⟨some UE_BULK, some 1, 0, 0, [2], [1]⟩
              else ⟨none, none, 0, 0, [], []⟩ }
    kmem := fun p => { urb_bulk_read 4 with ucr_sce := (1, IN), xfer := p, ucr_context := p } }

/-! ## Basic facts about the state -/

@[simp] theorem sce_set_sce (k : Kernel) (e d : Nat) (v : ugen_endpoint) (e1 d1 : Nat) :
    (k.set_sce e d v).sce e1 d1 = if e1 = e ∧ d1 = d then v else k.sce e1 d1 := rfl

@[simp] theorem kmem_set_sce (k : Kernel) (e d : Nat) (v : ugen_endpoint) :
    (k.set_sce e d v).kmem = k.kmem := rfl

@[simp] theorem xfers_set_sce (k : Kernel) (e d : Nat) (v : ugen_endpoint) :
    (k.set_sce e d v).xfers = k.xfers := rfl

@[simp] theorem umem_set_sce (k : Kernel) (e d : Nat) (v : ugen_endpoint) :
    (k.set_sce e d v).umem = k.umem := rfl

@[simp] theorem trace_set_sce (k : Kernel) (e d : Nat) (v : ugen_endpoint) :
    (k.set_sce e d v).trace = k.trace := rfl

@[simp] theorem dying_set_sce (k : Kernel) (e d : Nat) (v : ugen_endpoint) :
    (k.set_sce e d v).sc.dying = k.sc.dying := rfl

@[simp] theorem sce_store (k : Kernel) (p : Nat) (r : usb_ctl_request) (e d : Nat) :
    (k.store p r).sce e d = k.sce e d := rfl

@[simp] theorem sc_store (k : Kernel) (p : Nat) (r : usb_ctl_request) :
    (k.store p r).sc = k.sc := rfl

@[simp] theorem kmem_store (k : Kernel) (p : Nat) (r : usb_ctl_request) (q : Nat) :
    (k.store p r).kmem q = if q = p then r else k.kmem q := rfl

@[simp] theorem xfers_store (k : Kernel) (p : Nat) (r : usb_ctl_request) :
    (k.store p r).xfers = k.xfers := rfl

@[simp] theorem umem_store (k : Kernel) (p : Nat) (r : usb_ctl_request) :
    (k.store p r).umem = k.umem := rfl

@[simp] theorem trace_store (k : Kernel) (p : Nat) (r : usb_ctl_request) :
    (k.store p r).trace = k.trace := rfl

@[simp] theorem sce_set_xfer (k : Kernel) (x : Nat) (v : usbd_xfer) (e d : Nat) :
    (k.set_xfer x v).sce e d = k.sce e d := rfl

@[simp] theorem sc_set_xfer (k : Kernel) (x : Nat) (v : usbd_xfer) :
    (k.set_xfer x v).sc = k.sc := rfl

@[simp] theorem kmem_set_xfer (k : Kernel) (x : Nat) (v : usbd_xfer) :
    (k.set_xfer x v).kmem = k.kmem := rfl

@[simp] theorem xfers_set_xfer (k : Kernel) (x : Nat) (v : usbd_xfer) (y : Nat) :
    (k.set_xfer x v).xfers y = if y = x then v else k.xfers y := rfl

@[simp] theorem umem_set_xfer (k : Kernel) (x : Nat) (v : usbd_xfer) :
    (k.set_xfer x v).umem = k.umem := rfl

@[simp] theorem trace_set_xfer (k : Kernel) (x : Nat) (v : usbd_xfer) :
    (k.set_xfer x v).trace = k.trace := rfl

@[simp] theorem sce_emit (k : Kernel) (ev : Event) (e d : Nat) :
    (k.emit ev).sce e d = k.sce e d := rfl

@[simp] theorem sc_emit (k : Kernel) (ev : Event) : (k.emit ev).sc = k.sc := rfl

@[simp] theorem kmem_emit (k : Kernel) (ev : Event) : (k.emit ev).kmem = k.kmem := rfl

@[simp] theorem xfers_emit (k : Kernel) (ev : Event) : (k.emit ev).xfers = k.xfers := rfl

@[simp] theorem umem_emit (k : Kernel) (ev : Event) : (k.emit ev).umem = k.umem := rfl

@[simp] theorem trace_emit (k : Kernel) (ev : Event) :
    (k.emit ev).trace = k.trace ++ [ev] := rfl

@[simp] theorem sce_release (k : Kernel) (x p : Nat) (e d : Nat) :
    (k.release x p).sce e d = k.sce e d := rfl

@[simp] theorem sc_release (k : Kernel) (x p : Nat) : (k.release x p).sc = k.sc := rfl

@[simp] theorem kmem_release (k : Kernel) (x p : Nat) : (k.release x p).kmem = k.kmem := rfl

@[simp] theorem trace_release (k : Kernel) (x p : Nat) :
    (k.release x p).trace = k.trace ++ [.usbd_free_xfer x, .free p] := by
  simp [Kernel.release]

/-! ## The reap, cancel and submit cases one at a time -/

/-- On an empty complete queue `USB_GET_COMPLETED` gives the io error and
changes nothing. -/
theorem get_completed_nil (k : Kernel) (endpt : Nat) (req : usb_ctl_request)
    (h : (k.sce endpt IN).complete_queue = []) :
    ugen_get_completed k endpt req = ( EIO, req, k) := by
  simp [ugen_get_completed, TAILQ_FIRST, h]

@[simp] theorem complete_copy_fst (k : Kernel) (p x : Nat) (len : Int) (rd : Bool) :
    (ugen_complete_copy k p x len rd).1 = 0 := by
  unfold ugen_complete_copy; split_ifs
  · split <;> rfl
  · rfl

@[simp] theorem complete_copy_sc (k : Kernel) (p x : Nat) (len : Int) (rd : Bool) :
    (ugen_complete_copy k p x len rd).2.sc = k.sc := by
  unfold ugen_complete_copy; split_ifs
  · split <;> rfl
  · rfl

@[simp] theorem complete_copy_trace (k : Kernel) (p x : Nat) (len : Int) (rd : Bool) :
    (ugen_complete_copy k p x len rd).2.trace = k.trace ++ [.usbd_free_xfer x] := by
  unfold ugen_complete_copy; split_ifs
  · split <;> rfl
  · rfl

theorem complete_copy_kmem (k : Kernel) (p x : Nat) (len : Int) (rd : Bool) (q : Nat) :
    (ugen_complete_copy k p x len rd).2.kmem q = k.kmem q ∨
    (q = p ∧ (ugen_complete_copy k p x len rd).2.kmem q =
      { k.kmem q with ucr_status := USBD_IOERROR }) := by
  unfold ugen_complete_copy; split_ifs
  · split
    · by_cases hq : q = p
      · right; simp [hq]
      · left; simp [hq]
    · left; rfl
  · left; rfl

theorem complete_copy_kmem_ne (k : Kernel) (p x : Nat) (len : Int) (rd : Bool) (q : Nat)
    (hq : q ≠ p) : (ugen_complete_copy k p x len rd).2.kmem q = k.kmem q := by
  rcases complete_copy_kmem k p x len rd q with h | ⟨h, _⟩
  · exact h
  · exact absurd h hq

@[simp] theorem complete_copy_context (k : Kernel) (p x : Nat) (len : Int) (rd : Bool) (q : Nat) :
    ((ugen_complete_copy k p x len rd).2.kmem q).ucr_context = (k.kmem q).ucr_context := by
  rcases complete_copy_kmem k p x len rd q with h | ⟨_, h⟩ <;> rw [h]

@[simp] theorem complete_copy_ucr_sce (k : Kernel) (p x : Nat) (len : Int) (rd : Bool) (q : Nat) :
    ((ugen_complete_copy k p x len rd).2.kmem q).ucr_sce = (k.kmem q).ucr_sce := by
  rcases complete_copy_kmem k p x len rd q with h | ⟨_, h⟩ <;> rw [h]

theorem complete_ctrl_fst (k : Kernel) (p : Nat) : (ugen_complete_ctrl k p).1 = 0 := by
  simp only [ugen_complete_ctrl]
  split_ifs <;> simp

theorem complete_ctrl_sc (k : Kernel) (p : Nat) : (ugen_complete_ctrl k p).2.sc = k.sc := by
  simp only [ugen_complete_ctrl]
  split_ifs <;> simp

theorem complete_ctrl_trace (k : Kernel) (p : Nat) :
    (ugen_complete_ctrl k p).2.trace = k.trace ++ [.usbd_free_xfer (k.kmem p).xfer] := by
  simp only [ugen_complete_ctrl]
  split_ifs <;> simp

theorem complete_ctrl_cancelled (k : Kernel) (p : Nat)
    (h : (k.kmem p).ucr_status = USBD_CANCELLED) :
    (ugen_complete_ctrl k p).2.kmem = k.kmem := by
  simp [ugen_complete_ctrl, h]

theorem complete_ctrl_kmem_ne (k : Kernel) (p q : Nat) (hq : q ≠ p) :
    (ugen_complete_ctrl k p).2.kmem q = k.kmem q := by
  simp only [ugen_complete_ctrl]
  split_ifs <;> simp [complete_copy_kmem_ne, hq]

theorem complete_ctrl_context (k : Kernel) (p q : Nat) :
    ((ugen_complete_ctrl k p).2.kmem q).ucr_context = (k.kmem q).ucr_context := by
  simp only [ugen_complete_ctrl]
  split_ifs <;> simp <;> split_ifs with h <;> simp [h]

theorem complete_ctrl_ucr_sce (k : Kernel) (p q : Nat) :
    ((ugen_complete_ctrl k p).2.kmem q).ucr_sce = (k.kmem q).ucr_sce := by
  simp only [ugen_complete_ctrl]
  split_ifs <;> simp <;> split_ifs with h <;> simp [h]

theorem emitted_append (k k1 : Kernel) (evs : List Event) (h : k1.trace = k.trace ++ evs) :
    emitted k k1 = evs := by
  simp [emitted, h]

theorem uiomove_write_error (umem : Nat → Option Nat) (addr n err : Nat)
    (h : uiomove_write umem addr n = .error err) : err ≠ 0 := by
  unfold uiomove_write at h
  split_ifs at h
  cases h; decide

/-- The buffer block emits no bus submission and leaves the softc and the
records alone. -/
theorem submit_buffer_ok (k : Kernel) (req : usb_ctl_request) (a x : Nat) (len : Int)
    (rd : Bool) (env : submit_env) (k1 : Kernel)
    (h : ugen_submit_buffer k req a x len rd env = .ok k1) :
    k1.sc = k.sc ∧ k1.kmem = k.kmem ∧
    ∃ evs, k1.trace = k.trace ++ evs ∧ ∀ y, Event.usbd_transfer y ∉ evs := by
  unfold ugen_submit_buffer at h
  split_ifs at h with h1 h2 h3
  · simp only [] at h
    split at h
    · cases h
    · cases h; exact ⟨rfl, rfl, [_], rfl, by simp⟩
  · cases h; exact ⟨rfl, rfl, [_], rfl, by simp⟩
  · cases h; exact ⟨rfl, rfl, [], by simp, by simp⟩

theorem submit_buffer_error (k : Kernel) (req : usb_ctl_request) (a x : Nat) (len : Int)
    (rd : Bool) (env : submit_env) (r : Nat × Kernel)
    (h : ugen_submit_buffer k req a x len rd env = .error r) :
    r.1 ≠ 0 ∧ r.2.sc = k.sc ∧ r.2.kmem = k.kmem ∧
    ∃ evs, r.2.trace = k.trace ++ evs ∧ ∀ y, Event.usbd_transfer y ∉ evs := by
  unfold ugen_submit_buffer at h
  split_ifs at h with h1 h2 h3
  · cases h; exact ⟨by simp, rfl, rfl, [.usbd_free_xfer x, .free a], by simp, by simp⟩
  · simp only [] at h
    split at h
    · rename_i err herr
      cases h
      exact ⟨uiomove_write_error _ _ _ _ herr, rfl, rfl,
        [.usbd_alloc_buffer x len.toNat, .usbd_free_xfer x, .free a], by simp, by simp⟩
    · cases h


theorem submit_ctrl_cases (k : Kernel) (req : usb_ctl_request) (env : submit_env) :
    ((ugen_submit_ctrl k req env).1 ≠ 0 ∧ (ugen_submit_ctrl k req env).2.sc = k.sc ∧
      (∀ q, env.kreq ≠ some q → (ugen_submit_ctrl k req env).2.kmem q = k.kmem q) ∧
      (∀ y, Event.usbd_transfer y ∈ emitted k (ugen_submit_ctrl k req env).2 →
        env.err ≠ USBD_IN_PROGRESS)) ∨
    (∃ a x, env.kreq = some a ∧ env.xfer = some x ∧ env.err = USBD_IN_PROGRESS ∧
      (ugen_submit_ctrl k req env).1 = 0 ∧
      (∀ q, (ugen_submit_ctrl k req env).2.kmem q =
        if q = a then { req with xfer := x } else k.kmem q) ∧
      (∀ e d, (ugen_submit_ctrl k req env).2.sce e d =
        if e = req.ucr_sce.1 ∧ d = req.ucr_sce.2 then
          { k.sce e d with submit_queue := (k.sce e d).submit_queue ++ [a] }
        else k.sce e d) ∧
      (ugen_submit_ctrl k req env).2.sc.dying = k.sc.dying ∧
      ((ugen_submit_ctrl k req env).2.xfers x).priv = a ∧
      Event.usbd_transfer x ∈ emitted k (ugen_submit_ctrl k req env).2) := by
  unfold ugen_submit_ctrl
  simp only []
  split_ifs with h1 h2
  · left; simp [emitted]
  · left; simp [emitted]
  · split
    · left; simp [emitted]
    · rename_i a ha
      have hne : ∀ q, env.kreq ≠ some q → q ≠ a := fun q hq hqa => hq (hqa ▸ ha)
      split
      · left
        refine ⟨by simp, rfl, ?_, ?_⟩
        · intro q hq; simp [hne q hq]
        · simp [emitted]
      · rename_i x hx
        split
        · rename_i r hr
          left
          obtain ⟨h1, h2, h3, evs, h4, h5⟩ := submit_buffer_error _ _ _ _ _ _ _ _ hr
          refine ⟨h1, by rw [h2]; rfl, ?_, ?_⟩
          · intro q hq; rw [h3]; simp [hne q hq]
          · intro y hy
            rw [emitted_append k r.2 (Event.malloc a :: Event.usbd_alloc_xfer x :: evs)
              (by rw [h4]; simp)] at hy
            simp at hy
            exact absurd hy (h5 y)
        · rename_i k1 hk1
          obtain ⟨h2, h3, evs, h4, h5⟩ := submit_buffer_ok _ _ _ _ _ _ _ _ hk1
          have hsce : ∀ e d, k1.sce e d = k.sce e d := fun e d => by
            simp only [Kernel.sce, h2]; rfl
          by_cases herr : env.err = USBD_IN_PROGRESS
          · right
            refine ⟨a, x, ha, hx, herr, ?_⟩
            simp only [ugen_submit_transfer, herr]
            refine ⟨by simp, ?_, ?_, ?_, ?_, ?_⟩
            · intro q; simp [h3]; split_ifs <;> simp
            · intro e d; simp [hsce]; split_ifs with hh <;> simp [hh, TAILQ_INSERT_TAIL]
            · simp [h2]
            · simp [usbd_setup_xfer]
            · rw [emitted_append k _ (Event.malloc a :: Event.usbd_alloc_xfer x :: (evs ++
                [Event.usbd_transfer x])) (by simp [h4])]
              simp
          · left
            simp only [ugen_submit_transfer]
            rw [if_pos herr]
            refine ⟨?_, by simp [h2], ?_, fun _ _ => herr⟩
            · simp; split_ifs <;> simp
            · intro q hq; simp [h3, hne q hq]
theorem submit_bulk_cases (k : Kernel) (req : usb_ctl_request) (env : submit_env) :
    ((ugen_submit_bulk k req env).1 ≠ 0 ∧ (ugen_submit_bulk k req env).2.sc = k.sc ∧
      (∀ q, env.kreq ≠ some q → (ugen_submit_bulk k req env).2.kmem q = k.kmem q) ∧
      (∀ y, Event.usbd_transfer y ∈ emitted k (ugen_submit_bulk k req env).2 →
        env.err ≠ USBD_IN_PROGRESS)) ∨
    (∃ a x, env.kreq = some a ∧ env.xfer = some x ∧ env.err = USBD_IN_PROGRESS ∧
      (ugen_submit_bulk k req env).1 = 0 ∧
      (∀ q, (ugen_submit_bulk k req env).2.kmem q =
        if q = a then { req with xfer := x } else k.kmem q) ∧
      (∀ e d, (ugen_submit_bulk k req env).2.sce e d =
        if e = req.ucr_sce.1 ∧ d = req.ucr_sce.2 then
          { k.sce e d with submit_queue := (k.sce e d).submit_queue ++ [a] }
        else k.sce e d) ∧
      (ugen_submit_bulk k req env).2.sc.dying = k.sc.dying ∧
      ((ugen_submit_bulk k req env).2.xfers x).priv = a ∧
      Event.usbd_transfer x ∈ emitted k (ugen_submit_bulk k req env).2) := by
  unfold ugen_submit_bulk
  simp only []
  split_ifs with h1
  · left; simp [emitted]
  · split
    · left; simp [emitted]
    · rename_i a ha
      have hne : ∀ q, env.kreq ≠ some q → q ≠ a := fun q hq hqa => hq (hqa ▸ ha)
      split
      · left
        refine ⟨by simp, rfl, ?_, ?_⟩
        · intro q hq; simp [hne q hq]
        · simp [emitted]
      · rename_i x hx
        split
        · rename_i r hr
          left
          obtain ⟨h1, h2, h3, evs, h4, h5⟩ := submit_buffer_error _ _ _ _ _ _ _ _ hr
          refine ⟨h1, by rw [h2]; rfl, ?_, ?_⟩
          · intro q hq; rw [h3]; simp [hne q hq]
          · intro y hy
            rw [emitted_append k r.2 (Event.malloc a :: Event.usbd_alloc_xfer x :: evs)
              (by rw [h4]; simp)] at hy
            simp at hy
            exact absurd hy (h5 y)
        · rename_i k1 hk1
          obtain ⟨h2, h3, evs, h4, h5⟩ := submit_buffer_ok _ _ _ _ _ _ _ _ hk1
          have hsce : ∀ e d, k1.sce e d = k.sce e d := fun e d => by
            simp only [Kernel.sce, h2]; rfl
          by_cases herr : env.err = USBD_IN_PROGRESS
          · right
            refine ⟨a, x, ha, hx, herr, ?_⟩
            simp only [ugen_submit_transfer, herr]
            refine ⟨by simp, ?_, ?_, ?_, ?_, ?_⟩
            · intro q; simp [h3]; split_ifs <;> simp
            · intro e d; simp [hsce]; split_ifs with hh <;> simp [hh, TAILQ_INSERT_TAIL]
            · simp [h2]
            · simp [usbd_setup_xfer]
            · rw [emitted_append k _ (Event.malloc a :: Event.usbd_alloc_xfer x :: (evs ++
                [Event.usbd_transfer x])) (by simp [h4])]
              simp
          · left
            simp only [ugen_submit_transfer]
            rw [if_pos herr]
            refine ⟨?_, by simp [h2], ?_, fun _ _ => herr⟩
            · simp; split_ifs <;> simp
            · intro q hq; simp [h3, hne q hq]

theorem ite_error {α : Type} (n : Nat) (a : α) :
    (if n ≠ 0 then (n, a) else (0, a)) = (n, a) := by
  split_ifs with h
  · rfl
  · simp at h; rw [h]

theorem do_request_cases (k : Kernel) (endpt : Nat) (req : usb_ctl_request) (flag : Nat)
    (env : submit_env) :
    ((ugen_do_request k endpt req flag env).1 ≠ 0 ∧
      (ugen_do_request k endpt req flag env).2.2.sc = k.sc ∧
      (∀ q, env.kreq ≠ some q → (ugen_do_request k endpt req flag env).2.2.kmem q = k.kmem q) ∧
      (∀ y, Event.usbd_transfer y ∈ emitted k (ugen_do_request k endpt req flag env).2.2 →
        env.err ≠ USBD_IN_PROGRESS)) ∨
    (∃ a x, env.kreq = some a ∧ env.xfer = some x ∧ env.err = USBD_IN_PROGRESS ∧
      (ugen_do_request k endpt req flag env).1 = 0 ∧
      (∀ q, (ugen_do_request k endpt req flag env).2.2.kmem q =
        if q = a then { req with ucr_sce := (endpt, IN), xfer := x } else k.kmem q) ∧
      (∀ e d, (ugen_do_request k endpt req flag env).2.2.sce e d =
        if e = endpt ∧ d = IN then
          { k.sce e d with submit_queue := (k.sce e d).submit_queue ++ [a] }
        else k.sce e d) ∧
      (ugen_do_request k endpt req flag env).2.2.sc.dying = k.sc.dying ∧
      ((ugen_do_request k endpt req flag env).2.2.xfers x).priv = a ∧
      Event.usbd_transfer x ∈ emitted k (ugen_do_request k endpt req flag env).2.2 ∧
      async_endpoint k endpt) := by
  unfold ugen_do_request
  simp only [ite_error]
  split_ifs with h0 hw
  · left; simp [emitted]
  · rcases submit_ctrl_cases k { req with ucr_sce := (endpt, IN) } env with
      ⟨h1, h2, h3, h4⟩ | ⟨a, x, ha, hx, he, h1, h2, h3, h4, h5, h6⟩
    · left; exact ⟨h1, h2, h3, h4⟩
    · right
      exact ⟨a, x, ha, hx, he, h1, h2, h3, h4, h5, h6, Or.inl h0⟩
  · split
    · left; simp [emitted]
    · rename_i attr hattr
      split_ifs with h7 h8
      · left; simp [emitted]
      · rcases submit_bulk_cases k { req with ucr_sce := (endpt, IN) } env with
          ⟨h1, h2, h3, h4⟩ | ⟨a, x, ha, hx, he, h1, h2, h3, h4, h5, h6⟩
        · left; exact ⟨h1, h2, h3, h4⟩
        · right
          exact ⟨a, x, ha, hx, he, h1, h2, h3, h4, h5, h6, Or.inr ⟨attr, hattr, h8⟩⟩
      · left; simp [emitted]

theorem complete_bulk_fst (k : Kernel) (p : Nat) : (ugen_complete_bulk k p).1 = 0 := by
  simp only [ugen_complete_bulk]
  split_ifs <;> simp

theorem complete_bulk_sc (k : Kernel) (p : Nat) : (ugen_complete_bulk k p).2.sc = k.sc := by
  simp only [ugen_complete_bulk]
  split_ifs <;> simp

theorem complete_bulk_trace (k : Kernel) (p : Nat) :
    (ugen_complete_bulk k p).2.trace = k.trace ++ [.usbd_free_xfer (k.kmem p).xfer] := by
  simp only [ugen_complete_bulk]
  split_ifs <;> simp

theorem complete_bulk_cancelled (k : Kernel) (p : Nat)
    (h : (k.kmem p).ucr_status = USBD_CANCELLED) :
    (ugen_complete_bulk k p).2.kmem = k.kmem := by
  simp [ugen_complete_bulk, h]

theorem complete_bulk_kmem_ne (k : Kernel) (p q : Nat) (hq : q ≠ p) :
    (ugen_complete_bulk k p).2.kmem q = k.kmem q := by
  simp only [ugen_complete_bulk]
  split_ifs <;> simp [complete_copy_kmem_ne, hq]

theorem complete_bulk_context (k : Kernel) (p q : Nat) :
    ((ugen_complete_bulk k p).2.kmem q).ucr_context = (k.kmem q).ucr_context := by
  simp only [ugen_complete_bulk]
  split_ifs <;> simp <;> split_ifs with h <;> simp [h]

theorem complete_bulk_ucr_sce (k : Kernel) (p q : Nat) :
    ((ugen_complete_bulk k p).2.kmem q).ucr_sce = (k.kmem q).ucr_sce := by
  simp only [ugen_complete_bulk]
  split_ifs <;> simp <;> split_ifs with h <;> simp [h]

/-- What `USB_GET_COMPLETED` does on a complete queue with head `b`: the head
is unlinked whatever the outcome, records keep their context and endpoint,
only the record `b` may change, a cancelled record is handed back as it is,
and the call succeeds exactly on an endpoint that serves the command. -/
theorem get_completed_cons (k : Kernel) (endpt : Nat) (req : usb_ctl_request) (b : Nat)
    (rest : List Nat) (h : (k.sce endpt IN).complete_queue = b :: rest) :
    (∀ e d, (ugen_get_completed k endpt req).2.2.sce e d =
      if e = endpt ∧ d = IN then { k.sce e d with complete_queue := rest } else k.sce e d) ∧
    (ugen_get_completed k endpt req).2.2.sc.dying = k.sc.dying ∧
    (∀ q, ((ugen_get_completed k endpt req).2.2.kmem q).ucr_context = (k.kmem q).ucr_context) ∧
    (∀ q, ((ugen_get_completed k endpt req).2.2.kmem q).ucr_sce = (k.kmem q).ucr_sce) ∧
    (∀ q, q ≠ b → (ugen_get_completed k endpt req).2.2.kmem q = k.kmem q) ∧
    ((k.kmem b).ucr_status = USBD_CANCELLED →
      (ugen_get_completed k endpt req).2.2.kmem = k.kmem) ∧
    ((ugen_get_completed k endpt req).1 = 0 ↔ async_endpoint k endpt) ∧
    ((ugen_get_completed k endpt req).1 = 0 →
      (ugen_get_completed k endpt req).2.1 = (ugen_get_completed k endpt req).2.2.kmem b) := by
  have hsce : ∀ (K : Kernel), K.sc = (k.set_sce endpt IN
      { k.sce endpt IN with complete_queue := rest }).sc →
      ∀ e d, K.sce e d =
        if e = endpt ∧ d = IN then { k.sce e d with complete_queue := rest } else k.sce e d := by
    intro K hK e d
    simp only [Kernel.sce, hK]
    simp only [Kernel.set_sce, Kernel.sce]
    split_ifs with hh
    · rw [hh.1, hh.2]
    · rfl
  unfold ugen_get_completed async_endpoint
  simp only [TAILQ_FIRST, h, List.head?_cons, TAILQ_REMOVE, List.erase_cons_head,
    complete_ctrl_fst, complete_bulk_fst, ne_eq, not_true_eq_false, if_false]
  split_ifs with h0
  · refine ⟨hsce _ (by simp [complete_ctrl_sc]), by simp [complete_ctrl_sc], ?_, ?_, ?_, ?_, ?_, ?_⟩
    · intro q; simp [complete_ctrl_context]
    · intro q; simp [complete_ctrl_ucr_sce]
    · intro q hq; simp [complete_ctrl_kmem_ne, hq]
    · intro hc; simp [complete_ctrl_cancelled, hc]
    · simp [h0]
    · simp
  · split
    · rename_i hnone
      refine ⟨hsce _ rfl, rfl, fun _ => rfl, fun _ => rfl, fun _ _ => rfl, fun _ => rfl, ?_, ?_⟩
      · simp [h0, hnone]
      · simp
    · rename_i attr hattr
      split_ifs with h7 h8
      · refine ⟨hsce _ rfl, rfl, fun _ => rfl, fun _ => rfl, fun _ _ => rfl, fun _ => rfl, ?_, ?_⟩
        · simp [h0, hattr]
          rcases h7 with h7 | h7 <;> rw [h7] <;> decide
        · simp
      · refine ⟨hsce _ (by simp [complete_bulk_sc]), by simp [complete_bulk_sc], ?_, ?_, ?_, ?_, ?_, ?_⟩
        · intro q; simp [complete_bulk_context]
        · intro q; simp [complete_bulk_ucr_sce]
        · intro q hq; simp [complete_bulk_kmem_ne, hq]
        · intro hc; simp [complete_bulk_cancelled, hc]
        · simp [h0, hattr, h8]
        · simp
      · refine ⟨hsce _ rfl, rfl, fun _ => rfl, fun _ => rfl, fun _ _ => rfl, fun _ => rfl, ?_, ?_⟩
        · simp [h0, hattr, h8]
        · simp

theorem foreach_none (kmem : Nat → usb_ctl_request) (q : List Nat) (ctx : Nat)
    (h : ∀ p ∈ q, (kmem p).ucr_context ≠ ctx) : TAILQ_FOREACH_context kmem q ctx = none := by
  simp only [TAILQ_FOREACH_context, List.find?_eq_none]
  intro p hp; simpa using h p hp

theorem foreach_first (kmem : Nat → usb_ctl_request) (l1 l2 : List Nat) (p ctx : Nat)
    (h1 : ∀ q ∈ l1, (kmem q).ucr_context ≠ ctx) (h2 : (kmem p).ucr_context = ctx) :
    TAILQ_FOREACH_context kmem (l1 ++ p :: l2) ctx = some p := by
  induction l1 with
  | nil => simp [TAILQ_FOREACH_context, h2]
  | cons c l ih =>
    have hc : (kmem c).ucr_context ≠ ctx := h1 c (List.mem_cons_self _ _)
    have := ih (fun q hq => h1 q (List.mem_cons_of_mem _ hq))
    simp only [TAILQ_FOREACH_context] at this ⊢
    simp [List.find?_cons, hc, this]

theorem foreach_some (kmem : Nat → usb_ctl_request) (q : List Nat) (p ctx : Nat)
    (h : TAILQ_FOREACH_context kmem q ctx = some p) :
    p ∈ q ∧ (kmem p).ucr_context = ctx := by
  simp only [TAILQ_FOREACH_context] at h
  exact ⟨List.mem_of_find?_eq_some h, by simpa using List.find?_some h⟩

theorem do_ioctl_request (k : Kernel) (endpt : Nat) (req : usb_ctl_request)
    (flag : Nat) (env : submit_env) (h : k.sc.dying = false) :
    ugen_do_ioctl k endpt .USB_DO_REQUEST req flag env = ugen_do_request k endpt req flag env := by
  simp [ugen_do_ioctl, h]

theorem do_ioctl_completed (k : Kernel) (endpt : Nat) (req : usb_ctl_request)
    (flag : Nat) (env : submit_env) (h : k.sc.dying = false) :
    ugen_do_ioctl k endpt .USB_GET_COMPLETED req flag env = ugen_get_completed k endpt req := by
  simp [ugen_do_ioctl, h]

theorem do_ioctl_cancel (k : Kernel) (endpt : Nat) (req : usb_ctl_request)
    (flag : Nat) (env : submit_env) (h : k.sc.dying = false) :
    ugen_do_ioctl k endpt .USB_CANCEL req flag env = ugen_cancel k endpt req := by
  simp [ugen_do_ioctl, h]

theorem do_ioctl_dying (k : Kernel) (endpt : Nat) (cmd : ioctl_cmd) (req : usb_ctl_request)
    (flag : Nat) (env : submit_env) (h : k.sc.dying = true) :
    ugen_do_ioctl k endpt cmd req flag env = ( EIO, req, k) := by
  simp [ugen_do_ioctl, h]

/-- C6: `USB_GET_COMPLETED` on an endpoint whose complete queue is empty
returns the io error at once and leaves the whole state, the submit queue and
the caller's request block included, as it was, whatever the submit queue
holds. -/
theorem get_completed_empty_queue (k : Kernel) (endpt : Nat) (req : usb_ctl_request)
    (flag : Nat) (env : submit_env) (h : (k.sce endpt IN).complete_queue = []) :
    ugen_do_ioctl k endpt .USB_GET_COMPLETED req flag env = ( EIO, req, k) := by
  unfold ugen_do_ioctl
  split_ifs
  · rfl
  · exact get_completed_nil k endpt req h

/-- C5: a `USB_GET_COMPLETED` that succeeds removes exactly the head of the
complete queue: the queue was `b :: rest` and is `rest` afterwards, the
submit queue and every other endpoint slot are unchanged, and the request
block handed to the caller is the record `b`, carrying the context `b` had. -/
theorem get_completed_pops_head (k : Kernel) (endpt : Nat) (req : usb_ctl_request)
    (flag : Nat) (env : submit_env)
    (h : (ugen_do_ioctl k endpt .USB_GET_COMPLETED req flag env).1 = 0) :
    ∃ b rest, (k.sce endpt IN).complete_queue = b :: rest ∧
      ((ugen_do_ioctl k endpt .USB_GET_COMPLETED req flag env).2.2.sce endpt IN).complete_queue
        = rest ∧
      ((ugen_do_ioctl k endpt .USB_GET_COMPLETED req flag env).2.2.sce endpt IN).submit_queue
        = (k.sce endpt IN).submit_queue ∧
      (∀ e d, ¬ (e = endpt ∧ d = IN) →
        (ugen_do_ioctl k endpt .USB_GET_COMPLETED req flag env).2.2.sce e d = k.sce e d) ∧
      (ugen_do_ioctl k endpt .USB_GET_COMPLETED req flag env).2.1 =
        (ugen_do_ioctl k endpt .USB_GET_COMPLETED req flag env).2.2.kmem b ∧
      (ugen_do_ioctl k endpt .USB_GET_COMPLETED req flag env).2.1.ucr_context =
        (k.kmem b).ucr_context := by
  by_cases hd : k.sc.dying = true
  · rw [do_ioctl_dying _ _ _ _ _ _ hd] at h; simp at h
  · have hd : k.sc.dying = false := by simpa using hd
    rw [do_ioctl_completed _ _ _ _ _ hd] at h ⊢
    cases hq : (k.sce endpt IN).complete_queue with
    | nil => rw [get_completed_nil k endpt req hq] at h; simp at h
    | cons b rest =>
      obtain ⟨h1, _, h3, _, _, _, _, h8⟩ := get_completed_cons k endpt req b rest hq
      refine ⟨b, rest, rfl, by simp [h1], by simp [h1], ?_, h8 h, ?_⟩
      · intro e d hed; simp [h1, hed]
      · rw [h8 h, h3]

/-- C7: `USB_CANCEL` with a context that no record on the submit queue and no
record on the complete queue of the endpoint carries returns `EINVAL` and
leaves the whole state as it was: no transfer is aborted, the queues and the
status of every record are unchanged.  This is the `USB_CANCEL` case itself,
and `ugen_do_ioctl` on every device that is not dying. -/
theorem cancel_unknown_context (k : Kernel) (endpt : Nat) (req : usb_ctl_request)
    (flag : Nat) (env : submit_env)
    (hs : ∀ p ∈ (k.sce endpt IN).submit_queue, (k.kmem p).ucr_context ≠ req.ucr_context)
    (hc : ∀ p ∈ (k.sce endpt IN).complete_queue, (k.kmem p).ucr_context ≠ req.ucr_context) :
    ugen_cancel k endpt req = (EINVAL, req, k) ∧
    (k.sc.dying = false →
      ugen_do_ioctl k endpt .USB_CANCEL req flag env = (EINVAL, req, k)) := by
  have h : ugen_cancel k endpt req = (EINVAL, req, k) := by
    simp [ugen_cancel, foreach_none _ _ _ hs, foreach_none _ _ _ hc]
  exact ⟨h, fun hd => by rw [do_ioctl_cancel _ _ _ _ _ hd, h]⟩

/-- C7, at a concrete input: cancelling context 9 when only context 7 is
queued. -/
theorem cancel_unknown_context_witness :
    ugen_cancel kernel_completed 0 { urb_get_status with ucr_context := 9 } =
      (EINVAL, { urb_get_status with ucr_context := 9 }, kernel_completed) ∧
    ugen_do_ioctl kernel_completed 0 .USB_CANCEL { urb_get_status with ucr_context := 9 } 0
      (env_ok 2 2) = (EINVAL, { urb_get_status with ucr_context := 9 }, kernel_completed) :=
  ⟨(cancel_unknown_context kernel_completed 0 { urb_get_status with ucr_context := 9 } 0
    (env_ok 2 2) (by decide) (by decide)).1,
   (cancel_unknown_context kernel_completed 0 { urb_get_status with ucr_context := 9 } 0
    (env_ok 2 2) (by decide) (by decide)).2 rfl⟩

/-- C8: `USB_CANCEL` with a context carried by no record of the submit queue
and first carried, on the complete queue, by the record `p` returns success
and stores `USBD_CANCELLED` in the status of `p`: the resulting state is the
old one with that single field of that single record changed, so `p` keeps
its place, both queues are as before and nothing is logged (no abort). -/
theorem cancel_completed_marks (k : Kernel) (endpt : Nat) (req : usb_ctl_request)
    (flag : Nat) (env : submit_env) (l1 l2 : List Nat) (p : Nat)
    (hs : ∀ q ∈ (k.sce endpt IN).submit_queue, (k.kmem q).ucr_context ≠ req.ucr_context)
    (hq : (k.sce endpt IN).complete_queue = l1 ++ p :: l2)
    (h1 : ∀ q ∈ l1, (k.kmem q).ucr_context ≠ req.ucr_context)
    (hp : (k.kmem p).ucr_context = req.ucr_context) :
    ugen_cancel k endpt req =
      (0, req, k.store p { k.kmem p with ucr_status := USBD_CANCELLED }) ∧
    (k.sc.dying = false →
      ugen_do_ioctl k endpt .USB_CANCEL req flag env =
        (0, req, k.store p { k.kmem p with ucr_status := USBD_CANCELLED })) := by
  have h : ugen_cancel k endpt req =
      (0, req, k.store p { k.kmem p with ucr_status := USBD_CANCELLED }) := by
    simp [ugen_cancel, foreach_none _ _ _ hs, hq, foreach_first _ _ _ _ _ h1 hp]
  exact ⟨h, fun hd => by rw [do_ioctl_cancel _ _ _ _ _ hd, h]⟩

/-- C8, at a concrete input: the completed record 1 is cancelled by its
context 7. -/
theorem cancel_completed_marks_witness :
    ugen_cancel kernel_completed 0 urb_get_status =
      (0, urb_get_status, kernel_completed.store 1
        { kernel_completed.kmem 1 with ucr_status := USBD_CANCELLED }) ∧
    ugen_do_ioctl kernel_completed 0 .USB_CANCEL urb_get_status 0 (env_ok 2 2) =
      (0, urb_get_status, kernel_completed.store 1
        { kernel_completed.kmem 1 with ucr_status := USBD_CANCELLED }) :=
  ⟨(cancel_completed_marks kernel_completed 0 urb_get_status 0 (env_ok 2 2) [] [] 1
    (by decide) (by decide) (by decide) (by decide)).1,
   (cancel_completed_marks kernel_completed 0 urb_get_status 0 (env_ok 2 2) [] [] 1
    (by decide) (by decide) (by decide) (by decide)).2 rfl⟩

/-- C9: `USB_CANCEL` with a context first carried, on the submit queue, by
the record `p` returns success and its only effect is one call
`usbd_abort_transfer` on the transfer of `p`: the softc with both queues, the
records with their status, and the earlier log are unchanged, nothing is
freed, and the complete queue is not looked at, whatever it holds. -/
theorem cancel_submitted_aborts (k : Kernel) (endpt : Nat) (req : usb_ctl_request)
    (flag : Nat) (env : submit_env) (l1 l2 : List Nat) (p : Nat)
    (hq : (k.sce endpt IN).submit_queue = l1 ++ p :: l2)
    (h1 : ∀ q ∈ l1, (k.kmem q).ucr_context ≠ req.ucr_context)
    (hp : (k.kmem p).ucr_context = req.ucr_context) :
    ugen_cancel k endpt req = (0, req, k.emit (.usbd_abort_transfer (k.kmem p).xfer)) ∧
    (k.sc.dying = false →
      ugen_do_ioctl k endpt .USB_CANCEL req flag env =
        (0, req, k.emit (.usbd_abort_transfer (k.kmem p).xfer))) := by
  have h : ugen_cancel k endpt req =
      (0, req, k.emit (.usbd_abort_transfer (k.kmem p).xfer)) := by
    simp [ugen_cancel, hq, foreach_first _ _ _ _ _ h1 hp]
  exact ⟨h, fun hd => by rw [do_ioctl_cancel _ _ _ _ _ hd, h]⟩

/-- C9, at a concrete input: the submitted record 1 is cancelled by its
context 7. -/
theorem cancel_submitted_aborts_witness :
    ugen_cancel kernel_submitted 0 urb_get_status =
      (0, urb_get_status, kernel_submitted.emit
        (.usbd_abort_transfer (kernel_submitted.kmem 1).xfer)) ∧
    ugen_do_ioctl kernel_submitted 0 .USB_CANCEL urb_get_status 0 (env_ok 2 2) =
      (0, urb_get_status, kernel_submitted.emit
        (.usbd_abort_transfer (kernel_submitted.kmem 1).xfer)) :=
  ⟨(cancel_submitted_aborts kernel_submitted 0 urb_get_status 0 (env_ok 2 2) [] [] 1
    (by decide) (by decide) (by decide)).1,
   (cancel_submitted_aborts kernel_submitted 0 urb_get_status 0 (env_ok 2 2) [] [] 1
    (by decide) (by decide) (by decide)).2 rfl⟩

/-- C10: a `USB_DO_REQUEST` that hands a transfer to the bus and gets
`USBD_IN_PROGRESS` back returns 0 and queues exactly one record, the one at
the address `malloc` returned: the submit queue is the old one followed by
it, the record is the caller's request (with `ucr_sce` and `xfer` filled in by
the driver), it is the private data of the transfer, and the complete queue,
every other endpoint slot and every other record are unchanged. -/
theorem do_request_in_progress (k : Kernel) (endpt : Nat) (req : usb_ctl_request)
    (flag : Nat) (env : submit_env) (y : Nat)
    (hbus : Event.usbd_transfer y ∈
      emitted k (ugen_do_ioctl k endpt .USB_DO_REQUEST req flag env).2.2)
    (herr : env.err = USBD_IN_PROGRESS) :
    (ugen_do_ioctl k endpt .USB_DO_REQUEST req flag env).1 = 0 ∧
    ∃ a x, env.kreq = some a ∧ env.xfer = some x ∧
      ((ugen_do_ioctl k endpt .USB_DO_REQUEST req flag env).2.2.sce endpt IN).submit_queue =
        (k.sce endpt IN).submit_queue ++ [a] ∧
      ((ugen_do_ioctl k endpt .USB_DO_REQUEST req flag env).2.2.sce endpt IN).complete_queue =
        (k.sce endpt IN).complete_queue ∧
      (ugen_do_ioctl k endpt .USB_DO_REQUEST req flag env).2.2.kmem a =
        { req with ucr_sce := (endpt, IN), xfer := x } ∧
      ((ugen_do_ioctl k endpt .USB_DO_REQUEST req flag env).2.2.kmem a).ucr_context =
        req.ucr_context ∧
      ((ugen_do_ioctl k endpt .USB_DO_REQUEST req flag env).2.2.xfers x).priv = a ∧
      (∀ e d, ¬ (e = endpt ∧ d = IN) →
        (ugen_do_ioctl k endpt .USB_DO_REQUEST req flag env).2.2.sce e d = k.sce e d) ∧
      (∀ q, q ≠ a →
        (ugen_do_ioctl k endpt .USB_DO_REQUEST req flag env).2.2.kmem q = k.kmem q) := by
  by_cases hd : k.sc.dying = true
  · rw [do_ioctl_dying _ _ _ _ _ _ hd] at hbus; simp [emitted] at hbus
  · have hd : k.sc.dying = false := by simpa using hd
    rw [do_ioctl_request _ _ _ _ _ hd] at hbus ⊢
    rcases do_request_cases k endpt req flag env with
      ⟨_, _, _, h4⟩ | ⟨a, x, ha, hx, _, h1, h2, h3, _, h5, _, _⟩
    · exact absurd herr (h4 y hbus)
    · refine ⟨h1, a, x, ha, hx, by simp [h3], by simp [h3], by simp [h2], by simp [h2], h5,
        ?_, ?_⟩
      · intro e d hed; simp [h3, hed]
      · intro q hq; simp [h2, hq]

/-- C10, at a concrete input: the request of the test program on the freshly
opened control endpoint. -/
theorem do_request_in_progress_witness :
    (ugen_do_ioctl kernel_boot 0 .USB_DO_REQUEST urb_get_status FWRITE (env_ok 1 1)).1 = 0 ∧
    ∃ a x, (env_ok 1 1).kreq = some a ∧ (env_ok 1 1).xfer = some x ∧
      ((ugen_do_ioctl kernel_boot 0 .USB_DO_REQUEST urb_get_status FWRITE
        (env_ok 1 1)).2.2.sce 0 IN).submit_queue = (kernel_boot.sce 0 IN).submit_queue ++ [a] ∧
      ((ugen_do_ioctl kernel_boot 0 .USB_DO_REQUEST urb_get_status FWRITE
        (env_ok 1 1)).2.2.sce 0 IN).complete_queue = (kernel_boot.sce 0 IN).complete_queue ∧
      (ugen_do_ioctl kernel_boot 0 .USB_DO_REQUEST urb_get_status FWRITE (env_ok 1 1)).2.2.kmem a =
        { urb_get_status with ucr_sce := (0, IN), xfer := x } ∧
      ((ugen_do_ioctl kernel_boot 0 .USB_DO_REQUEST urb_get_status FWRITE
        (env_ok 1 1)).2.2.kmem a).ucr_context = urb_get_status.ucr_context ∧
      ((ugen_do_ioctl kernel_boot 0 .USB_DO_REQUEST urb_get_status FWRITE
        (env_ok 1 1)).2.2.xfers x).priv = a ∧
      (∀ e d, ¬ (e = 0 ∧ d = IN) →
        (ugen_do_ioctl kernel_boot 0 .USB_DO_REQUEST urb_get_status FWRITE
          (env_ok 1 1)).2.2.sce e d = kernel_boot.sce e d) ∧
      (∀ q, q ≠ a →
        (ugen_do_ioctl kernel_boot 0 .USB_DO_REQUEST urb_get_status FWRITE
          (env_ok 1 1)).2.2.kmem q = kernel_boot.kmem q) :=
  do_request_in_progress kernel_boot 0 urb_get_status FWRITE (env_ok 1 1) 1
    (by decide) (by decide)

/-- C6, at a concrete input: reaping while the only request is still on the
submit queue. -/
theorem get_completed_empty_queue_witness :
    ugen_do_ioctl kernel_submitted 0 .USB_GET_COMPLETED urb_get_status 0 (env_ok 2 2) =
      ( EIO, urb_get_status, kernel_submitted) :=
  get_completed_empty_queue kernel_submitted 0 urb_get_status 0 (env_ok 2 2) (by decide)

/-- C5, at a concrete input: reaping the completed record 1. -/
theorem get_completed_pops_head_witness :
    ∃ b rest, (kernel_completed.sce 0 IN).complete_queue = b :: rest ∧
      ((ugen_do_ioctl kernel_completed 0 .USB_GET_COMPLETED urb_get_status 0
        (env_ok 2 2)).2.2.sce 0 IN).complete_queue = rest ∧
      ((ugen_do_ioctl kernel_completed 0 .USB_GET_COMPLETED urb_get_status 0
        (env_ok 2 2)).2.2.sce 0 IN).submit_queue = (kernel_completed.sce 0 IN).submit_queue ∧
      (∀ e d, ¬ (e = 0 ∧ d = IN) →
        (ugen_do_ioctl kernel_completed 0 .USB_GET_COMPLETED urb_get_status 0
          (env_ok 2 2)).2.2.sce e d = kernel_completed.sce e d) ∧
      (ugen_do_ioctl kernel_completed 0 .USB_GET_COMPLETED urb_get_status 0 (env_ok 2 2)).2.1 =
        (ugen_do_ioctl kernel_completed 0 .USB_GET_COMPLETED urb_get_status 0
          (env_ok 2 2)).2.2.kmem b ∧
      (ugen_do_ioctl kernel_completed 0 .USB_GET_COMPLETED urb_get_status 0
        (env_ok 2 2)).2.1.ucr_context = (kernel_completed.kmem b).ucr_context :=
  get_completed_pops_head kernel_completed 0 urb_get_status 0 (env_ok 2 2) (by decide)

theorem callback_sce (k : Kernel) (x p : Nat) (s : usbd_status) (e d : Nat) :
    (ugen_async_callback k x p s).sce e d =
      if e = (k.kmem p).ucr_sce.1 ∧ d = (k.kmem p).ucr_sce.2 then
        { k.sce e d with
          submit_queue := (k.sce e d).submit_queue.erase p
          complete_queue := (k.sce e d).complete_queue ++ [p] }
      else k.sce e d := by
  unfold ugen_async_callback
  by_cases hs : s = USBD_CANCELLED <;>
    simp only [hs, if_true, if_false, sce_emit, sce_set_sce, sce_store, TAILQ_REMOVE,
      TAILQ_INSERT_TAIL, and_self, if_true] <;>
    split_ifs with h <;> simp [h]

theorem callback_kmem (k : Kernel) (x p : Nat) (s : usbd_status) (q : Nat) :
    (ugen_async_callback k x p s).kmem q =
      if q = p ∧ s = USBD_CANCELLED then { k.kmem p with ucr_status := USBD_CANCELLED }
      else k.kmem q := by
  unfold ugen_async_callback
  by_cases hs : s = USBD_CANCELLED <;> simp [hs]

theorem callback_dying (k : Kernel) (x p : Nat) (s : usbd_status) :
    (ugen_async_callback k x p s).sc.dying = k.sc.dying := by
  unfold ugen_async_callback
  by_cases hs : s = USBD_CANCELLED <;> simp [hs]

theorem callback_context (k : Kernel) (x p : Nat) (s : usbd_status) (q : Nat) :
    ((ugen_async_callback k x p s).kmem q).ucr_context = (k.kmem q).ucr_context := by
  rw [callback_kmem]; split_ifs with h
  · rw [h.1]
  · rfl

theorem callback_ucr_sce (k : Kernel) (x p : Nat) (s : usbd_status) (q : Nat) :
    ((ugen_async_callback k x p s).kmem q).ucr_sce = (k.kmem q).ucr_sce := by
  rw [callback_kmem]; split_ifs with h
  · rw [h.1]
  · rfl

theorem async_endpoint_congr (k k1 : Kernel) (endpt : Nat)
    (h : (k1.sce endpt IN).edesc = (k.sce endpt IN).edesc) :
    async_endpoint k1 endpt ↔ async_endpoint k endpt := by
  simp [async_endpoint, h]

/-- Draining: on a live device and an endpoint that serves the command, as
many reaps as there are records ahead all succeed and leave the rest of the
complete queue; a record marked cancelled is not touched by them. -/
theorem reap_n_drain (endpt : Nat) (r : usb_ctl_request) (flag : Nat) (env : submit_env)
    (a : Nat) (A : usb_ctl_request) (hA : A.ucr_status = USBD_CANCELLED) :
    ∀ (l m : List Nat) (k : Kernel), k.sc.dying = false → async_endpoint k endpt →
      (k.sce endpt IN).complete_queue = l ++ m → k.kmem a = A →
      (∀ x ∈ (reap_n endpt r flag env l.length k).1, x.1 = 0) ∧
      (reap_n endpt r flag env l.length k).2.sc.dying = false ∧
      async_endpoint (reap_n endpt r flag env l.length k).2 endpt ∧
      ((reap_n endpt r flag env l.length k).2.sce endpt IN).complete_queue = m ∧
      (reap_n endpt r flag env l.length k).2.kmem a = A := by
  intro l
  induction l with
  | nil => intro m k hd hok hq ha; simpa [reap_n] using ⟨hd, hok, hq, ha⟩
  | cons b l ih =>
    intro m k hd hok hq ha
    obtain ⟨h1, h2, _, _, h5, h6, h7, _⟩ :=
      get_completed_cons k endpt r b (l ++ m) (by simpa using hq)
    simp only [List.length_cons, reap_n, do_ioctl_completed _ _ _ _ _ hd]
    have hd1 : (ugen_get_completed k endpt r).2.2.sc.dying = false := by rw [h2, hd]
    have hok1 : async_endpoint (ugen_get_completed k endpt r).2.2 endpt :=
      (async_endpoint_congr _ _ _ (by simp [h1])).2 hok
    have hq1 : ((ugen_get_completed k endpt r).2.2.sce endpt IN).complete_queue = l ++ m := by
      simp [h1]
    have ha1 : (ugen_get_completed k endpt r).2.2.kmem a = A := by
      by_cases hab : a = b
      · rw [h6 (by rw [← hab, ha, hA]), ha]
      · rw [h5 a hab, ha]
    obtain ⟨i1, i2, i3, i4, i5⟩ := ih m _ hd1 hok1 hq1 ha1
    refine ⟨?_, i2, i3, i4, i5⟩
    intro x hx
    rcases List.mem_cons.1 hx with hx | hx
    · rw [hx]; exact h7.2 hok
    · exact i1 x hx

/-- A record marked cancelled at the tail of the complete queue is handed
back, unchanged, by the reap that follows the reaps of the records ahead. -/
theorem reap_cancelled_tail (endpt : Nat) (r : usb_ctl_request) (flag : Nat) (env : submit_env)
    (a : Nat) (l : List Nat) (k : Kernel) (hd : k.sc.dying = false)
    (hok : async_endpoint k endpt) (hq : (k.sce endpt IN).complete_queue = l ++ [a])
    (ha : (k.kmem a).ucr_status = USBD_CANCELLED) :
    (∀ x ∈ (reap_n endpt r flag env l.length k).1, x.1 = 0) ∧
    (ugen_do_ioctl (reap_n endpt r flag env l.length k).2 endpt .USB_GET_COMPLETED
      r flag env).1 = 0 ∧
    (ugen_do_ioctl (reap_n endpt r flag env l.length k).2 endpt .USB_GET_COMPLETED
      r flag env).2.1 = k.kmem a := by
  obtain ⟨i1, i2, i3, i4, i5⟩ := reap_n_drain endpt r flag env a (k.kmem a) ha l [a] k hd hok hq rfl
  obtain ⟨_, _, _, _, _, h6, h7, h8⟩ :=
    get_completed_cons (reap_n endpt r flag env l.length k).2 endpt r a [] i4
  rw [do_ioctl_completed _ _ _ _ _ i2]
  have h0 := h7.2 i3
  refine ⟨i1, h0, ?_⟩
  rw [h8 h0, h6 (by rw [i5, ha]), i5]

theorem race_after_submit (k : Kernel) (endpt : Nat) (req : usb_ctl_request) (flag : Nat)
    (env : submit_env) (a : Nat) (order : Option usbd_status)
    (creq : usb_ctl_request) (flagc : Nat) (envc : submit_env)
    (hsub : (ugen_do_ioctl k endpt .USB_DO_REQUEST req flag env).1 = 0)
    (ha : env.kreq = some a)
    (hctx : creq.ucr_context = req.ucr_context)
    (hfind : cancel_finds (ugen_do_ioctl k endpt .USB_DO_REQUEST req flag env).2.2 endpt a
      req.ucr_context order) :
    (cancel_race (ugen_do_ioctl k endpt .USB_DO_REQUEST req flag env).2.2 endpt a creq flagc envc
      order).1 = 0 ∧
    (cancel_race (ugen_do_ioctl k endpt .USB_DO_REQUEST req flag env).2.2 endpt a creq flagc envc
      order).2.sc.dying = false ∧
    async_endpoint (cancel_race (ugen_do_ioctl k endpt .USB_DO_REQUEST req flag env).2.2 endpt a
      creq flagc envc order).2 endpt ∧
    ((cancel_race (ugen_do_ioctl k endpt .USB_DO_REQUEST req flag env).2.2 endpt a creq flagc envc
      order).2.sce endpt IN).complete_queue = (k.sce endpt IN).complete_queue ++ [a] ∧
    ∃ x, env.xfer = some x ∧
      (cancel_race (ugen_do_ioctl k endpt .USB_DO_REQUEST req flag env).2.2 endpt a creq flagc
        envc order).2.kmem a =
      { req with ucr_sce := (endpt, IN), xfer := x, ucr_status := USBD_CANCELLED } := by
  have hd : k.sc.dying = false := by
    by_contra hd
    rw [do_ioctl_dying _ _ _ _ _ _ (by simpa using hd)] at hsub
    simp at hsub
  rw [do_ioctl_request _ _ _ _ _ hd] at hsub hfind ⊢
  rcases do_request_cases k endpt req flag env with
    ⟨h1, _⟩ | ⟨a', x, ha', hx, _, _, h2, h3, h4, _, _, h7⟩
  · exact absurd hsub h1
  · obtain rfl : a' = a := by rw [ha] at ha'; exact (Option.some.inj ha').symm
    generalize ugen_do_request k endpt req flag env = R at hfind h2 h3 h4 ⊢
    have hd1 : R.2.2.sc.dying = false := by rw [h4, hd]
    have hok1 : async_endpoint R.2.2 endpt :=
      (async_endpoint_congr _ _ _ (by simp [h3])).2 h7
    cases order with
    | none =>
      simp only [cancel_finds] at hfind
      simp only [cancel_race, do_ioctl_cancel _ _ _ _ _ hd1]
      have hc : ugen_cancel R.2.2 endpt creq =
          (0, creq, R.2.2.emit (.usbd_abort_transfer (R.2.2.kmem a').xfer)) := by
        simp [ugen_cancel, hctx, hfind]
      rw [hc]
      refine ⟨rfl, ?_, ?_, ?_, x, hx, ?_⟩
      · rw [callback_dying]; exact hd1
      · refine (async_endpoint_congr _ _ _ ?_).2 hok1
        rw [callback_sce]; split_ifs <;> simp
      · rw [callback_sce]; simp [h2, h3]
      · rw [callback_kmem]; simp [h2]
    | some s =>
      simp only [cancel_finds] at hfind
      simp only [cancel_race, do_ioctl_cancel _ _ _ _ _
        (show (ugen_async_callback R.2.2 (R.2.2.kmem a').xfer a' s).sc.dying = false by
          rw [callback_dying]; exact hd1)]
      have hc : ugen_cancel (ugen_async_callback R.2.2 (R.2.2.kmem a').xfer a' s) endpt creq =
          (0, creq, (ugen_async_callback R.2.2 (R.2.2.kmem a').xfer a' s).store a'
            { (ugen_async_callback R.2.2 (R.2.2.kmem a').xfer a' s).kmem a' with
              ucr_status := USBD_CANCELLED }) := by
        simp [ugen_cancel, hctx, hfind.1, hfind.2]
      rw [hc]
      refine ⟨rfl, ?_, ?_, ?_, x, hx, ?_⟩
      · simp [callback_dying, hd1]
      · refine (async_endpoint_congr _ _ _ ?_).2 hok1
        simp only [sce_store]
        rw [callback_sce]; split_ifs <;> simp
      · simp only [sce_store]; rw [callback_sce]; simp [h2, h3]
      · simp only [kmem_store, if_true, callback_kmem, h2]
        split_ifs <;> rfl


theorem cancel_frame (k : Kernel) (endpt : Nat) (req : usb_ctl_request) :
    (ugen_cancel k endpt req).2.2.sc = k.sc ∧
    (∀ q, ((ugen_cancel k endpt req).2.2.kmem q).ucr_context = (k.kmem q).ucr_context) ∧
    (∀ q, ((ugen_cancel k endpt req).2.2.kmem q).ucr_sce = (k.kmem q).ucr_sce) := by
  unfold ugen_cancel
  simp only []
  split
  · split
    · exact ⟨rfl, fun _ => rfl, fun _ => rfl⟩
    · refine ⟨rfl, ?_, ?_⟩ <;> intro q <;> simp <;> split_ifs with h <;> simp [h]
  · exact ⟨rfl, fun _ => rfl, fun _ => rfl⟩

theorem sce_of_sc (k k1 : Kernel) (h : k1.sc = k.sc) (e d : Nat) : k1.sce e d = k.sce e d := by
  simp [Kernel.sce, h]

/-- No step changes the liveness of the device or an endpoint descriptor. -/
theorem step_static (k : Kernel) (l : Label) :
    (step k l).sc.dying = k.sc.dying ∧
    ∀ e d, ((step k l).sce e d).edesc = (k.sce e d).edesc := by
  cases l with
  | ioctl endpt cmd req flag env =>
    simp only [step]
    by_cases hd : k.sc.dying = true
    · rw [do_ioctl_dying _ _ _ _ _ _ hd]; exact ⟨rfl, fun _ _ => rfl⟩
    · have hd : k.sc.dying = false := by simpa using hd
      cases cmd with
      | USB_DO_REQUEST =>
        rw [do_ioctl_request _ _ _ _ _ hd]
        rcases do_request_cases k endpt req flag env with
          ⟨_, h2, _, _⟩ | ⟨a, x, _, _, _, _, _, h3, h4, _, _, _⟩
        · exact ⟨by rw [h2], fun e d => by rw [sce_of_sc _ _ h2]⟩
        · refine ⟨h4, fun e d => ?_⟩
          rw [h3]; split_ifs <;> rfl
      | USB_GET_COMPLETED =>
        rw [do_ioctl_completed _ _ _ _ _ hd]
        cases hq : (k.sce endpt IN).complete_queue with
        | nil => rw [get_completed_nil k endpt req hq]; exact ⟨rfl, fun _ _ => rfl⟩
        | cons b rest =>
          obtain ⟨h1, h2, _⟩ := get_completed_cons k endpt req b rest hq
          refine ⟨h2, fun e d => ?_⟩
          rw [h1]; split_ifs <;> rfl
      | USB_CANCEL =>
        rw [do_ioctl_cancel _ _ _ _ _ hd]
        obtain ⟨h1, _⟩ := cancel_frame k endpt req
        exact ⟨by rw [h1], fun e d => by rw [sce_of_sc _ _ h1]⟩
  | callback x p s =>
    simp only [step]
    refine ⟨callback_dying _ _ _ _, fun e d => ?_⟩
    rw [callback_sce]; split_ifs <;> rfl
  | bus x X => exact ⟨rfl, fun _ _ => rfl⟩

/-- A guarded step keeps the context and the endpoint of every queued
record. -/
theorem step_ids (k : Kernel) (l : Label) (hg : Guard k l) (q : Nat) (hq : queued k q) :
    ((step k l).kmem q).ucr_context = (k.kmem q).ucr_context ∧
    ((step k l).kmem q).ucr_sce = (k.kmem q).ucr_sce := by
  cases l with
  | ioctl endpt cmd req flag env =>
    simp only [step]
    by_cases hd : k.sc.dying = true
    · rw [do_ioctl_dying _ _ _ _ _ _ hd]; exact ⟨rfl, rfl⟩
    · have hd : k.sc.dying = false := by simpa using hd
      cases cmd with
      | USB_DO_REQUEST =>
        rw [do_ioctl_request _ _ _ _ _ hd]
        have hne : env.kreq ≠ some q := by
          intro h
          obtain ⟨e, d, hq⟩ := hq
          have := hg q h e d
          tauto
        rcases do_request_cases k endpt req flag env with
          ⟨_, _, h3, _⟩ | ⟨a, x, ha, _, _, _, h2, _, _, _, _, _⟩
        · rw [h3 q hne]; exact ⟨rfl, rfl⟩
        · have : q ≠ a := fun h => hne (h ▸ ha)
          rw [h2, if_neg this]; exact ⟨rfl, rfl⟩
      | USB_GET_COMPLETED =>
        rw [do_ioctl_completed _ _ _ _ _ hd]
        cases hc : (k.sce endpt IN).complete_queue with
        | nil => rw [get_completed_nil k endpt req hc]; exact ⟨rfl, rfl⟩
        | cons b rest =>
          obtain ⟨_, _, h3, h4, _⟩ := get_completed_cons k endpt req b rest hc
          exact ⟨h3 q, h4 q⟩
      | USB_CANCEL =>
        rw [do_ioctl_cancel _ _ _ _ _ hd]
        obtain ⟨_, h2, h3⟩ := cancel_frame k endpt req
        exact ⟨h2 q, h3 q⟩
  | callback x p s => exact ⟨callback_context k x p s q, callback_ucr_sce k x p s q⟩
  | bus x X => exact ⟨rfl, rfl⟩


/-- How a guarded step acts on the queues: it leaves every slot alone, or it
is an accepted submit linking a fresh record at the tail of a submit queue,
or the callback moving a record to the tail of the complete queue, or a reap
on a live device unlinking the head of a complete queue. -/
theorem step_cases (k : Kernel) (l : Label) (hg : Guard k l) :
    ((∀ e d, (step k l).sce e d = k.sce e d) ∧ created k l = none ∧ reaped k l = none) ∨
    (∃ endpt req flag env a, l = .ioctl endpt .USB_DO_REQUEST req flag env ∧
      (ugen_do_ioctl k endpt .USB_DO_REQUEST req flag env).1 = 0 ∧
      env.kreq = some a ∧ ¬ queued k a ∧
      (∀ e d, (step k l).sce e d =
        if e = endpt ∧ d = IN then
          { k.sce e d with submit_queue := (k.sce e d).submit_queue ++ [a] }
        else k.sce e d) ∧
      ((step k l).kmem a).ucr_sce = (endpt, IN) ∧
      ((step k l).kmem a).ucr_context = req.ucr_context ∧
      async_endpoint k endpt) ∨
    (∃ x p s, l = .callback x p s ∧
      p ∈ (k.sce (k.kmem p).ucr_sce.1 (k.kmem p).ucr_sce.2).submit_queue ∧
      ∀ e d, (step k l).sce e d =
        if e = (k.kmem p).ucr_sce.1 ∧ d = (k.kmem p).ucr_sce.2 then
          { k.sce e d with
            submit_queue := (k.sce e d).submit_queue.erase p
            complete_queue := (k.sce e d).complete_queue ++ [p] }
        else k.sce e d) ∨
    (∃ endpt req flag env b rest, l = .ioctl endpt .USB_GET_COMPLETED req flag env ∧
      k.sc.dying = false ∧
      (k.sce endpt IN).complete_queue = b :: rest ∧
      ((ugen_do_ioctl k endpt .USB_GET_COMPLETED req flag env).1 = 0 ↔ async_endpoint k endpt) ∧
      ∀ e d, (step k l).sce e d =
        if e = endpt ∧ d = IN then { k.sce e d with complete_queue := rest } else k.sce e d) := by
  cases l with
  | ioctl endpt cmd req flag env =>
    by_cases hd : k.sc.dying = true
    · left
      cases cmd <;>
        simp [step, created, reaped, do_ioctl_dying _ _ _ _ _ _ hd]
    · have hd : k.sc.dying = false := by simpa using hd
      cases cmd with
      | USB_DO_REQUEST =>
        rcases do_request_cases k endpt req flag env with
          ⟨h1, h2, _, _⟩ | ⟨a, x, ha, _, _, h1, h2, h3, _, _, _, h7⟩
        · left
          refine ⟨fun e d => ?_, ?_, rfl⟩
          · simp only [step, do_ioctl_request _ _ _ _ _ hd]; exact sce_of_sc _ _ h2 e d
          · simp [created, do_ioctl_request _ _ _ _ _ hd, h1]
        · right; left
          refine ⟨endpt, req, flag, env, a, rfl, ?_, ha, ?_, ?_, ?_, ?_, h7⟩
          · rw [do_ioctl_request _ _ _ _ _ hd]; exact h1
          · rintro ⟨e, d, hq⟩
            have := hg a ha e d
            tauto
          · intro e d; simp only [step, do_ioctl_request _ _ _ _ _ hd]; exact h3 e d
          · simp only [step, do_ioctl_request _ _ _ _ _ hd]; rw [h2]; simp
          · simp only [step, do_ioctl_request _ _ _ _ _ hd]; rw [h2]; simp
      | USB_GET_COMPLETED =>
        cases hc : (k.sce endpt IN).complete_queue with
        | nil =>
          left
          simp [step, created, reaped, do_ioctl_completed _ _ _ _ _ hd,
            get_completed_nil k endpt req hc]
        | cons b rest =>
          right; right; right
          obtain ⟨h1, _, _, _, _, _, h7, _⟩ := get_completed_cons k endpt req b rest hc
          refine ⟨endpt, req, flag, env, b, rest, rfl, hd, hc, ?_, ?_⟩
          · rw [do_ioctl_completed _ _ _ _ _ hd]; exact h7
          · intro e d; simp only [step, do_ioctl_completed _ _ _ _ _ hd]; exact h1 e d
      | USB_CANCEL =>
        left
        obtain ⟨h1, _⟩ := cancel_frame k endpt req
        refine ⟨fun e d => ?_, rfl, rfl⟩
        simp only [step, do_ioctl_cancel _ _ _ _ _ hd]; exact sce_of_sc _ _ h1 e d
  | callback x p s =>
    right; right; left
    exact ⟨x, p, s, rfl, hg, fun e d => callback_sce k x p s e d⟩
  | bus x X => left; exact ⟨fun _ _ => rfl, rfl, rfl⟩

theorem ctxs_congr (k k1 : Kernel) (l : List Nat)
    (h : ∀ q ∈ l, (k1.kmem q).ucr_context = (k.kmem q).ucr_context) : ctxs k1 l = ctxs k l := by
  simp only [ctxs]
  exact List.map_congr_left h

theorem ctxs_append (k : Kernel) (l m : List Nat) : ctxs k (l ++ m) = ctxs k l ++ ctxs k m := by
  simp [ctxs]

theorem queued_complete (k : Kernel) (e d q : Nat) (h : q ∈ (k.sce e d).complete_queue) :
    queued k q := ⟨e, d, Or.inr h⟩

theorem queued_submit (k : Kernel) (e d q : Nat) (h : q ∈ (k.sce e d).submit_queue) :
    queued k q := ⟨e, d, Or.inl h⟩

/-- A guarded step other than a reap on endpoint `e` extends the contexts on
the complete queue of `e` by the context of the request whose callback fired,
if any. -/
theorem ctxs_step (k : Kernel) (l : Label) (e : Nat) (hg : Guard k l)
    (hr : is_reap e l = false) :
    ctxs (step k l) ((step k l).sce e IN).complete_queue =
      ctxs k (k.sce e IN).complete_queue ++ fired e k [l] := by
  have hids : ∀ q ∈ (k.sce e IN).complete_queue,
      ((step k l).kmem q).ucr_context = (k.kmem q).ucr_context :=
    fun q hq => (step_ids k l hg q (queued_complete k e IN q hq)).1
  rcases step_cases k l hg with
    ⟨h1, _, _⟩ | ⟨endpt, req, flag, env, a, hl, _, _, _, h1, _⟩ | ⟨x, p, s, hl, _, h1⟩ |
    ⟨endpt, req, flag, env, b, rest, hl, _, _, _, h1⟩
  · rw [h1, ctxs_congr _ _ _ hids]
    cases l with
    | callback x p s =>
      have := h1 (k.kmem p).ucr_sce.1 (k.kmem p).ucr_sce.2
      rw [step, callback_sce, if_pos ⟨rfl, rfl⟩] at this
      have h2 := congrArg (fun v => v.complete_queue.length) this
      simp only [List.length_append, List.length_singleton] at h2
      omega
    | _ => simp [fired]
  · have : ((step k l).sce e IN).complete_queue = (k.sce e IN).complete_queue := by
      rw [h1]; split_ifs <;> rfl
    rw [this, ctxs_congr _ _ _ hids, hl]; simp [fired]
  · subst hl
    rw [h1]
    by_cases hp : (k.kmem p).ucr_sce = (e, IN)
    · have h31 : (k.kmem p).ucr_sce.1 = e := by rw [hp]
      have h32 : (k.kmem p).ucr_sce.2 = IN := by rw [hp]
      rw [h31, h32, if_pos ⟨rfl, rfl⟩]
      simp only [fired, hp, if_true, List.append_nil]
      rw [ctxs_append, ctxs_congr _ _ _ hids]
      simp [ctxs, step, callback_context]
    · have h3 : ¬ (e = (k.kmem p).ucr_sce.1 ∧ IN = (k.kmem p).ucr_sce.2) := by
        intro h; apply hp; exact Prod.ext h.1.symm h.2.symm
      simp only [h3, if_false, fired, hp, List.append_nil]
      exact ctxs_congr _ _ _ hids
  · subst hl
    have hne : endpt ≠ e := by simpa [is_reap] using hr
    rw [h1, if_neg (fun h => hne h.1.symm), ctxs_congr _ _ _ hids]
    simp [fired]

theorem fired_cons (e : Nat) (k : Kernel) (l : Label) (ls : List Label) :
    fired e k (l :: ls) = fired e k [l] ++ fired e (step k l) ls := by
  simp [fired]

/-- After a guarded sequence of steps without a reap on endpoint `e`, the
complete queue of `e` holds, in order, the contexts it held before followed by
those of the requests whose callback fired. -/
theorem ctxs_run (e : Nat) (ls : List Label) :
    ∀ k, Guarded k ls → (∀ l ∈ ls, is_reap e l = false) →
      ctxs (run k ls) ((run k ls).sce e IN).complete_queue =
        ctxs k (k.sce e IN).complete_queue ++ fired e k ls := by
  induction ls with
  | nil => intro k _ _; simp [run, fired]
  | cons l ls ih =>
    intro k hg hr
    rw [run, ih (step k l) hg.2 (fun m hm => hr m (List.mem_cons_of_mem _ hm)),
      ctxs_step k l e hg.1 (hr l (List.mem_cons_self _ _)), fired_cons e k l ls,
      List.append_assoc]

/-- Successive reaps that all succeed return the contexts at the head of the
complete queue, in queue order. -/
theorem reap_n_ctxs (e : Nat) (r : usb_ctl_request) (flag : Nat) (env : submit_env) :
    ∀ (n : Nat) (k : Kernel), (∀ x ∈ (reap_n e r flag env n k).1, x.1 = 0) →
      (reap_n e r flag env n k).1.map (fun x => x.2.ucr_context) =
        (ctxs k (k.sce e IN).complete_queue).take n := by
  intro n
  induction n with
  | zero => intro k _; simp [reap_n]
  | succ n ih =>
    intro k h
    simp only [reap_n, List.mem_cons, forall_eq_or_imp] at h
    obtain ⟨h0, hrest⟩ := h
    have hd : k.sc.dying = false := by
      by_contra hd
      rw [do_ioctl_dying _ _ _ _ _ _ (by simpa using hd)] at h0
      simp at h0
    rw [do_ioctl_completed _ _ _ _ _ hd] at h0 hrest
    simp only [reap_n, do_ioctl_completed _ _ _ _ _ hd, List.map_cons]
    cases hc : (k.sce e IN).complete_queue with
    | nil => rw [get_completed_nil k e r hc] at h0; simp at h0
    | cons b rest =>
      obtain ⟨h1, _, h3, _, _, _, _, h8⟩ := get_completed_cons k e r b rest hc
      rw [ih _ hrest, h8 h0, h3, h1]
      simp only [and_self, if_true, ctxs, List.map_cons, List.take_succ_cons]
      congr 1
      exact congrArg (List.take n) (List.map_congr_left (fun q _ => h3 q))

theorem async_endpoint_step (k : Kernel) (l : Label) (e : Nat) :
    async_endpoint (step k l) e ↔ async_endpoint k e :=
  async_endpoint_congr _ _ _ ((step_static k l).2 e IN)

/-- The queue discipline is kept by every guarded step. -/
theorem inv_step (k : Kernel) (l : Label) (hi : Inv k) (hg : Guard k l) : Inv (step k l) := by
  have hids : ∀ e d, ∀ q ∈ (k.sce e d).submit_queue ++ (k.sce e d).complete_queue,
      ((step k l).kmem q).ucr_sce = (k.kmem q).ucr_sce := by
    intro e d q hq
    rcases List.mem_append.1 hq with h | h
    · exact (step_ids k l hg q (queued_submit k e d q h)).2
    · exact (step_ids k l hg q (queued_complete k e d q h)).2
  rcases step_cases k l hg with
    ⟨h1, _, _⟩ | ⟨endpt, req, flag, env, a, _, _, _, hnq, h1, h2, _, hok⟩ | ⟨x, p, s, _, hp, h1⟩ |
    ⟨endpt, req, flag, env, b, rest, _, _, hc, _, h1⟩
  · intro e d
    obtain ⟨i1, i2, i3⟩ := hi e d
    rw [h1]
    exact ⟨i1, fun q hq => by rw [hids e d q hq]; exact i2 q hq,
      fun hne => ⟨(i3 hne).1, (async_endpoint_step k l e).2 (i3 hne).2⟩⟩
  · intro e d
    obtain ⟨i1, i2, i3⟩ := hi e d
    rw [h1]
    by_cases hh : e = endpt ∧ d = IN
    · obtain ⟨rfl, rfl⟩ := hh
      simp only [and_self, if_true]
      have ha : a ∉ (k.sce e IN).submit_queue ++ (k.sce e IN).complete_queue := by
        intro h
        rcases List.mem_append.1 h with h | h
        · exact hnq (queued_submit k e IN a h)
        · exact hnq (queued_complete k e IN a h)
      refine ⟨?_, ?_, fun _ => ⟨trivial, (async_endpoint_step k l e).2 hok⟩⟩
      · have hperm : ((k.sce e IN).submit_queue ++ [a] ++ (k.sce e IN).complete_queue).Perm
            (a :: ((k.sce e IN).submit_queue ++ (k.sce e IN).complete_queue)) := by
          rw [List.append_assoc]
          exact List.perm_middle
        exact hperm.nodup_iff.2 (List.nodup_cons.2 ⟨ha, i1⟩)
      · intro q hq
        by_cases hqa : q = a
        · rw [hqa]; exact h2
        · have hq' : q ∈ (k.sce e IN).submit_queue ++ (k.sce e IN).complete_queue := by
            simp only [List.mem_append, List.mem_singleton] at hq ⊢
            tauto
          rw [hids e IN q hq']; exact i2 q hq'
    · simp only [hh, if_false]
      exact ⟨i1, fun q hq => by rw [hids e d q hq]; exact i2 q hq,
        fun hne => ⟨(i3 hne).1, (async_endpoint_step k l e).2 (i3 hne).2⟩⟩
  · intro e d
    obtain ⟨i1, i2, i3⟩ := hi e d
    rw [h1]
    by_cases hh : e = (k.kmem p).ucr_sce.1 ∧ d = (k.kmem p).ucr_sce.2
    · obtain ⟨rfl, rfl⟩ := hh
      simp only [and_self, if_true]
      have hperm : (((k.sce (k.kmem p).ucr_sce.1 (k.kmem p).ucr_sce.2).submit_queue.erase p) ++
          ((k.sce (k.kmem p).ucr_sce.1 (k.kmem p).ucr_sce.2).complete_queue ++ [p])).Perm
          ((k.sce (k.kmem p).ucr_sce.1 (k.kmem p).ucr_sce.2).submit_queue ++
            (k.sce (k.kmem p).ucr_sce.1 (k.kmem p).ucr_sce.2).complete_queue) := by
        have h3 := List.perm_cons_erase hp
        have h4 : ((k.sce (k.kmem p).ucr_sce.1 (k.kmem p).ucr_sce.2).submit_queue.erase p ++
            ((k.sce (k.kmem p).ucr_sce.1 (k.kmem p).ucr_sce.2).complete_queue ++ [p])).Perm
            (p :: ((k.sce (k.kmem p).ucr_sce.1 (k.kmem p).ucr_sce.2).submit_queue.erase p ++
              (k.sce (k.kmem p).ucr_sce.1 (k.kmem p).ucr_sce.2).complete_queue)) := by
          rw [← List.append_assoc]
          exact List.perm_append_singleton _ _
        exact h4.trans ((List.Perm.append_right _ h3).symm)
      refine ⟨hperm.nodup_iff.2 i1, ?_, fun _ => ?_⟩
      · intro q hq
        have hq' := hperm.mem_iff.1 hq
        rw [hids _ _ q hq']; exact i2 q hq'
      · have hne : (k.sce (k.kmem p).ucr_sce.1 (k.kmem p).ucr_sce.2).submit_queue ++
            (k.sce (k.kmem p).ucr_sce.1 (k.kmem p).ucr_sce.2).complete_queue ≠ [] := by
          intro h
          have := List.mem_append_left
            (k.sce (k.kmem p).ucr_sce.1 (k.kmem p).ucr_sce.2).complete_queue hp
          rw [h] at this
          exact absurd this (List.not_mem_nil _)
        exact ⟨(i3 hne).1, (async_endpoint_step k l _).2 (i3 hne).2⟩
    · simp only [hh, if_false]
      exact ⟨i1, fun q hq => by rw [hids e d q hq]; exact i2 q hq,
        fun hne => ⟨(i3 hne).1, (async_endpoint_step k l e).2 (i3 hne).2⟩⟩
  · intro e d
    obtain ⟨i1, i2, i3⟩ := hi e d
    rw [h1]
    by_cases hh : e = endpt ∧ d = IN
    · obtain ⟨rfl, rfl⟩ := hh
      simp only [and_self, if_true]
      rw [hc] at i1 i2 i3
      have hsub : ∀ q, q ∈ (k.sce e IN).submit_queue ++ rest →
          q ∈ (k.sce e IN).submit_queue ++ b :: rest := by
        intro q hq
        simp only [List.mem_append, List.mem_cons] at hq ⊢
        tauto
      refine ⟨?_, ?_, fun _ => ?_⟩
      · exact (List.Sublist.nodup
          (List.Sublist.append_left (List.sublist_cons_self b rest) _) i1)
      · intro q hq
        have hq' : q ∈ (k.sce e IN).submit_queue ++ (k.sce e IN).complete_queue := by
          rw [hc]; exact hsub q hq
        rw [hids e IN q hq']; exact i2 q (hsub q hq)
      · have hne : (k.sce e IN).submit_queue ++ b :: rest ≠ [] := by simp
        exact ⟨trivial, (async_endpoint_step k l e).2 (i3 hne).2⟩
    · simp only [hh, if_false]
      exact ⟨i1, fun q hq => by rw [hids e d q hq]; exact i2 q hq,
        fun hne => ⟨(i3 hne).1, (async_endpoint_step k l e).2 (i3 hne).2⟩⟩

theorem inv_fresh (k : Kernel) (h : Fresh k) : Inv k := by
  intro e d
  obtain ⟨h1, h2⟩ := h e d
  simp [h1, h2]

theorem reachable_inv (k : Kernel) (h : Reachable Guard k) : Inv k := by
  induction h with
  | init k hf => exact inv_fresh k hf
  | step k l _ hg ih => exact inv_step k l ih hg

/-- On a driver instance without endpoint descriptors only the control
endpoint queues records. -/
theorem queued_control_only (k : Kernel) (hi : Inv k)
    (hb : ∀ e d, (k.sce e d).edesc = none) (p : Nat) (hq : queued k p) :
    p ∈ (k.sce 0 IN).submit_queue ++ (k.sce 0 IN).complete_queue := by
  obtain ⟨e, d, hq⟩ := hq
  have hm : p ∈ (k.sce e d).submit_queue ++ (k.sce e d).complete_queue :=
    List.mem_append.2 hq
  obtain ⟨_, _, i3⟩ := hi e d
  obtain ⟨hd, hok⟩ := i3 (List.ne_nil_of_mem hm)
  rcases hok with h0 | ⟨a, ha, _⟩
  · rw [hd, h0] at hm; exact hm
  · rw [hb e IN] at ha; cases ha

theorem guard_of_local (k : Kernel) (l : Label) (hi : Inv k)
    (hb : ∀ e d, (k.sce e d).edesc = none) (h : guard_local k l = true) : Guard k l := by
  cases l with
  | ioctl endpt cmd req flag env =>
    cases cmd with
    | USB_DO_REQUEST =>
      intro p hp e d
      simp only [guard_local, hp, decide_eq_true_eq] at h
      constructor
      · intro hq; exact h (queued_control_only k hi hb p (queued_submit k e d p hq))
      · intro hq; exact h (queued_control_only k hi hb p (queued_complete k e d p hq))
    | USB_GET_COMPLETED => trivial
    | USB_CANCEL => trivial
  | callback x p s => simpa [guard_local, Guard] using h
  | bus x X => trivial

theorem guarded_of_local (ls : List Label) :
    ∀ k, Inv k → (∀ e d, (k.sce e d).edesc = none) → guarded_local k ls = true →
      Guarded k ls := by
  induction ls with
  | nil => intro k _ _ _; trivial
  | cons l ls ih =>
    intro k hi hb h
    simp only [guarded_local, Bool.and_eq_true] at h
    have hg := guard_of_local k l hi hb h.1
    exact ⟨hg, ih (step k l) (inv_step k l hi hg)
      (fun e d => by rw [(step_static k l).2 e d]; exact hb e d) h.2⟩

theorem reachable_run (ls : List Label) :
    ∀ k, Reachable Guard k → Guarded k ls → Reachable Guard (run k ls) := by
  induction ls with
  | nil => intro k h _; exact h
  | cons l ls ih => intro k h hg; exact ih _ (Reachable.step k l h hg.1) hg.2

theorem fresh_boot : Fresh kernel_boot := fun _ _ => ⟨rfl, rfl⟩

theorem guarded_boot (ls : List Label) (h : guarded_local kernel_boot ls = true) :
    Guarded kernel_boot ls :=
  guarded_of_local ls kernel_boot (inv_fresh _ fresh_boot) (fun _ _ => rfl) h

/-- C2: on one endpoint `e`, after any guarded sequence of steps without a
reap on `e` (submits, callbacks, cancels and reaps elsewhere, interleaved in
any way), `n` successive `USB_GET_COMPLETED` calls that succeed return, in
order, the contexts the complete queue held at the start followed by the
contexts of the requests in the order their callback fired; and a `USB_CANCEL`
leaves the submit queue and the complete queue of every slot as they were. -/
theorem completion_order_fifo (k0 : Kernel) (e : Nat) (ls : List Label) (n : Nat)
    (r : usb_ctl_request) (flag : Nat) (env : submit_env)
    (kc : Kernel) (endptc : Nat) (creq : usb_ctl_request) (flagc : Nat) (envc : submit_env)
    (ec dc : Nat)
    (hg : Guarded k0 ls) (hnr : ∀ l ∈ ls, is_reap e l = false)
    (hok : ∀ x ∈ (reap_n e r flag env n (run k0 ls)).1, x.1 = 0) :
    (reap_n e r flag env n (run k0 ls)).1.map (fun x => x.2.ucr_context) =
      (ctxs k0 (k0.sce e IN).complete_queue ++ fired e k0 ls).take n ∧
    ((ugen_do_ioctl kc endptc .USB_CANCEL creq flagc envc).2.2.sce ec dc).submit_queue =
      (kc.sce ec dc).submit_queue ∧
    ((ugen_do_ioctl kc endptc .USB_CANCEL creq flagc envc).2.2.sce ec dc).complete_queue =
      (kc.sce ec dc).complete_queue := by
  refine ⟨?_, ?_⟩
  · rw [reap_n_ctxs e r flag env n _ hok, ctxs_run e ls k0 hg hnr]
  · have := (step_cases kc (.ioctl endptc .USB_CANCEL creq flagc envc) trivial)
    rcases this with ⟨h1, _, _⟩ | ⟨_, _, _, _, _, hl, _⟩ | ⟨_, _, _, hl, _⟩ |
      ⟨_, _, _, _, _, _, hl, _⟩
    · have := h1 ec dc
      simp only [step] at this
      rw [this]; exact ⟨rfl, rfl⟩
    · cases hl
    · cases hl
    · cases hl

/-- C2, at a concrete input: contexts 1, 2, 3 are submitted on the control
endpoint, 2 is cancelled, the callbacks fire for 2, 3, 1, and three reaps
return 2, 3, 1. -/
theorem completion_order_fifo_witness :
    (reap_n 0 urb_get_status 0 (env_ok 0 0) 3 (run kernel_boot fifo_steps)).1.map
      (fun x => x.2.ucr_context) = [2, 3, 1] ∧
    fired 0 kernel_boot fifo_steps = [2, 3, 1] ∧
    ((ugen_do_ioctl kernel_submitted 0 .USB_CANCEL urb_get_status 0 (env_ok 0 0)).2.2.sce 0
      IN).submit_queue = (kernel_submitted.sce 0 IN).submit_queue ∧
    ((ugen_do_ioctl kernel_submitted 0 .USB_CANCEL urb_get_status 0 (env_ok 0 0)).2.2.sce 0
      IN).complete_queue = (kernel_submitted.sce 0 IN).complete_queue :=
  ⟨(completion_order_fifo kernel_boot 0 fifo_steps 3 urb_get_status 0 (env_ok 0 0)
      kernel_submitted 0 urb_get_status 0 (env_ok 0 0) 0 IN
      (guarded_boot _ (by decide)) (by decide) (by decide)).1.trans (by decide),
   by decide,
   (completion_order_fifo kernel_boot 0 fifo_steps 3 urb_get_status 0 (env_ok 0 0)
      kernel_submitted 0 urb_get_status 0 (env_ok 0 0) 0 IN
      (guarded_boot _ (by decide)) (by decide) (by decide)).2⟩

theorem reachable_weaken (k : Kernel) (h : Reachable GuardU k) : Reachable Guard k := by
  induction h with
  | init k hf => exact Reachable.init k hf
  | step k l _ hg ih => exact Reachable.step k l ih hg.1

/-- When submitters keep contexts apart, the contexts on the two queues of a
slot, taken together, are pairwise distinct, and a step keeps it so. -/
theorem ctxs_nodup_step (k : Kernel) (l : Label) (hg : GuardU k l)
    (hi : ∀ e d, (ctxs k ((k.sce e d).submit_queue ++ (k.sce e d).complete_queue)).Nodup) :
    ∀ e d, (ctxs (step k l)
      (((step k l).sce e d).submit_queue ++ ((step k l).sce e d).complete_queue)).Nodup := by
  have hids : ∀ e d, ∀ q ∈ (k.sce e d).submit_queue ++ (k.sce e d).complete_queue,
      ((step k l).kmem q).ucr_context = (k.kmem q).ucr_context := by
    intro e d q hq
    rcases List.mem_append.1 hq with h | h
    · exact (step_ids k l hg.1 q (queued_submit k e d q h)).1
    · exact (step_ids k l hg.1 q (queued_complete k e d q h)).1
  have hsame : ∀ e d, (step k l).sce e d = k.sce e d →
      (ctxs (step k l)
        (((step k l).sce e d).submit_queue ++ ((step k l).sce e d).complete_queue)).Nodup := by
    intro e d h
    rw [h, ctxs_congr _ _ _ (hids e d)]; exact hi e d
  rcases step_cases k l hg.1 with
    ⟨h1, _, _⟩ | ⟨endpt, req, flag, env, a, hl, h0, _, _, h1, _, h2, _⟩ | ⟨x, p, s, _, hp, h1⟩ |
    ⟨endpt, req, flag, env, b, rest, _, _, hc, _, h1⟩
  · exact fun e d => hsame e d (h1 e d)
  · intro e d
    by_cases hh : e = endpt ∧ d = IN
    · obtain ⟨rfl, rfl⟩ := hh
      rw [h1]
      simp only [and_self, if_true]
      have hu := hg.2
      rw [hl] at hu
      have hfresh := hu h0
      have hperm : (ctxs (step k l)
          ((k.sce e IN).submit_queue ++ [a] ++ (k.sce e IN).complete_queue)).Perm
          (req.ucr_context ::
            ctxs k ((k.sce e IN).submit_queue ++ (k.sce e IN).complete_queue)) := by
        rw [← ctxs_congr _ _ _ (hids e IN)]
        simp only [ctxs, List.map_append, List.map_cons, List.map_nil, h2, List.append_assoc,
          List.singleton_append]
        exact List.perm_middle
      exact hperm.nodup_iff.2 (List.nodup_cons.2 ⟨hfresh, hi e IN⟩)
    · exact hsame e d (by rw [h1, if_neg hh])
  · intro e d
    by_cases hh : e = (k.kmem p).ucr_sce.1 ∧ d = (k.kmem p).ucr_sce.2
    · obtain ⟨rfl, rfl⟩ := hh
      rw [h1]
      simp only [and_self, if_true]
      have hperm : (((k.sce (k.kmem p).ucr_sce.1 (k.kmem p).ucr_sce.2).submit_queue.erase p) ++
          ((k.sce (k.kmem p).ucr_sce.1 (k.kmem p).ucr_sce.2).complete_queue ++ [p])).Perm
          ((k.sce (k.kmem p).ucr_sce.1 (k.kmem p).ucr_sce.2).submit_queue ++
            (k.sce (k.kmem p).ucr_sce.1 (k.kmem p).ucr_sce.2).complete_queue) := by
        have h3 := List.perm_cons_erase hp
        have h4 : ((k.sce (k.kmem p).ucr_sce.1 (k.kmem p).ucr_sce.2).submit_queue.erase p ++
            ((k.sce (k.kmem p).ucr_sce.1 (k.kmem p).ucr_sce.2).complete_queue ++ [p])).Perm
            (p :: ((k.sce (k.kmem p).ucr_sce.1 (k.kmem p).ucr_sce.2).submit_queue.erase p ++
              (k.sce (k.kmem p).ucr_sce.1 (k.kmem p).ucr_sce.2).complete_queue)) := by
          rw [← List.append_assoc]
          exact List.perm_append_singleton _ _
        exact h4.trans ((List.Perm.append_right _ h3).symm)
      have h5 : (ctxs (step k l) _).Perm (ctxs (step k l) _) := List.Perm.map _ hperm
      rw [h5.nodup_iff, ctxs_congr _ _ _ (hids _ _)]
      exact hi _ _
    · exact hsame e d (by rw [h1, if_neg hh])
  · intro e d
    by_cases hh : e = endpt ∧ d = IN
    · obtain ⟨rfl, rfl⟩ := hh
      rw [h1]
      simp only [and_self, if_true]
      have h6 := hi e IN
      rw [hc, ← ctxs_congr _ _ _ (by rw [← hc]; exact hids e IN)] at h6
      exact List.Sublist.nodup (List.Sublist.map _
        (List.Sublist.append_left (List.sublist_cons_self b rest) _)) h6
    · exact hsame e d (by rw [h1, if_neg hh])

theorem reachable_ctxs_nodup (k : Kernel) (h : Reachable GuardU k) :
    ∀ e d, (ctxs k ((k.sce e d).submit_queue ++ (k.sce e d).complete_queue)).Nodup := by
  induction h with
  | init k hf =>
    intro e d
    obtain ⟨h1, h2⟩ := hf e d
    simp [h1, h2, ctxs]
  | step k l _ hg ih => exact ctxs_nodup_step k l hg ih

/-- C3, as stated, fails: two requests submitted with the same context 7, the
first of which has completed, leave context 7 on the submit queue and on the
complete queue of the control endpoint at once, in a reachable state. -/
theorem context_disjointness_counterexample :
    Reachable Guard (run kernel_boot duplicate_steps) ∧
    7 ∈ ctxs (run kernel_boot duplicate_steps)
      ((run kernel_boot duplicate_steps).sce 0 IN).submit_queue ∧
    7 ∈ ctxs (run kernel_boot duplicate_steps)
      ((run kernel_boot duplicate_steps).sce 0 IN).complete_queue :=
  ⟨reachable_run _ _ (Reachable.init _ fresh_boot) (guarded_boot _ (by decide)),
   by decide, by decide⟩

/-- C3, amended: in every state reachable by steps in which each accepted
`USB_DO_REQUEST` carries a context that no record then on either queue of its
endpoint carries, no context is both on the submit queue and on the complete
queue of an endpoint slot. -/
theorem context_disjointness_distinct (k : Kernel) (e d c : Nat)
    (h : Reachable GuardU k) :
    ¬ (c ∈ ctxs k (k.sce e d).submit_queue ∧ c ∈ ctxs k (k.sce e d).complete_queue) := by
  have hn := reachable_ctxs_nodup k h e d
  rw [ctxs_append] at hn
  rintro ⟨h1, h2⟩
  exact (List.nodup_append.1 hn).2.2 h1 h2

theorem reachable_distinct : Reachable GuardU (run kernel_boot distinct_steps) := by
  have hb : ∀ ls e d, ((run kernel_boot ls).sce e d).edesc = none := by
    intro ls
    suffices h : ∀ k, (∀ e d, (k.sce e d).edesc = none) →
        ∀ e d, ((run k ls).sce e d).edesc = none from h kernel_boot (fun _ _ => rfl)
    induction ls with
    | nil => intro k hk; exact hk
    | cons l ls ih =>
      intro k hk
      exact ih (step k l) (fun e d => by rw [(step_static k l).2 e d]; exact hk e d)
  have r0 : Reachable GuardU (run kernel_boot []) := Reachable.init _ fresh_boot
  have r1 : Reachable GuardU (run kernel_boot [submit_step 1 7]) :=
    Reachable.step _ (submit_step 1 7) r0
      ⟨guard_of_local _ _ (reachable_inv _ (reachable_weaken _ r0)) (hb []) (by decide),
       fun _ => by decide⟩
  have r2 : Reachable GuardU (run kernel_boot [submit_step 1 7, submit_step 2 8]) :=
    Reachable.step _ (submit_step 2 8) r1
      ⟨guard_of_local _ _ (reachable_inv _ (reachable_weaken _ r1)) (hb [submit_step 1 7])
        (by decide), fun _ => by decide⟩
  exact Reachable.step _ (.callback 1 1 USBD_NORMAL_COMPLETION) r2
      ⟨guard_of_local _ _ (reachable_inv _ (reachable_weaken _ r2))
        (hb [submit_step 1 7, submit_step 2 8]) (by decide), trivial⟩

/-- C3, amended, at a concrete input: contexts 7 and 8 are submitted and 7
completes. -/
theorem context_disjointness_distinct_witness :
    Reachable GuardU (run kernel_boot distinct_steps) ∧
    ctxs (run kernel_boot distinct_steps)
      ((run kernel_boot distinct_steps).sce 0 IN).submit_queue = [8] ∧
    ctxs (run kernel_boot distinct_steps)
      ((run kernel_boot distinct_steps).sce 0 IN).complete_queue = [7] ∧
    ¬ (7 ∈ ctxs (run kernel_boot distinct_steps)
        ((run kernel_boot distinct_steps).sce 0 IN).submit_queue ∧
       7 ∈ ctxs (run kernel_boot distinct_steps)
        ((run kernel_boot distinct_steps).sce 0 IN).complete_queue) :=
  ⟨reachable_distinct, by decide, by decide,
   context_disjointness_distinct _ 0 IN 7 reachable_distinct⟩

/-- Along a run the queue discipline holds and the two queues of an endpoint
hold, between them, exactly the records created and not yet reaped. -/
theorem run_outstanding (k : Kernel) (g : Nat → List Nat) (h : Run k g) :
    Inv k ∧
    ∀ e, ((k.sce e IN).submit_queue ++ (k.sce e IN).complete_queue).Perm (g e) := by
  induction h with
  | init k hf =>
    refine ⟨inv_fresh k hf, fun e => ?_⟩
    obtain ⟨h1, h2⟩ := hf e IN
    simp [h1, h2]
  | step k g l _ hg ih =>
    obtain ⟨hi, hp⟩ := ih
    refine ⟨inv_step k l hi hg, fun e => ?_⟩
    rcases step_cases k l hg with
      ⟨h1, hc, hr⟩ | ⟨endpt, req, flag, env, a, hl, h0, ha, _, h1, _, _, _⟩ |
      ⟨x, p, s, hl, hpm, h1⟩ | ⟨endpt, req, flag, env, b, rest, hl, _, hc, hok, h1⟩
    · simp only [outstanding_step, hc, hr, h1]
      exact hp e
    · subst hl
      have hc : created k (.ioctl endpt .USB_DO_REQUEST req flag env) = some (endpt, a) := by
        simp [created, h0, ha]
      have hr : reaped k (.ioctl endpt .USB_DO_REQUEST req flag env) = none := rfl
      simp only [outstanding_step, hc, hr, h1]
      by_cases hh : endpt = e
      · subst hh
        simp only [and_self, if_true]
        have : ((k.sce endpt IN).submit_queue ++ [a] ++ (k.sce endpt IN).complete_queue).Perm
            (((k.sce endpt IN).submit_queue ++ (k.sce endpt IN).complete_queue) ++ [a]) := by
          rw [List.append_assoc, List.append_assoc]
          exact List.Perm.append_left _ List.perm_append_comm
        exact this.trans (List.Perm.append_right _ (hp endpt))
      · have hh' : ¬ e = endpt := fun h => hh h.symm
        simp only [hh, hh', false_and, if_false]
        exact hp e
    · subst hl
      have hc : created k (.callback x p s) = none := rfl
      have hr : reaped k (.callback x p s) = none := rfl
      simp only [outstanding_step, hc, hr, h1]
      by_cases hh : e = (k.kmem p).ucr_sce.1 ∧ IN = (k.kmem p).ucr_sce.2
      · obtain ⟨he, hd⟩ := hh
        subst he
        rw [if_pos ⟨rfl, hd⟩]
        rw [← hd] at hpm
        have h3 := List.perm_cons_erase hpm
        have h4 : ((k.sce (k.kmem p).ucr_sce.1 IN).submit_queue.erase p ++
            ((k.sce (k.kmem p).ucr_sce.1 IN).complete_queue ++ [p])).Perm
            (p :: ((k.sce (k.kmem p).ucr_sce.1 IN).submit_queue.erase p ++
              (k.sce (k.kmem p).ucr_sce.1 IN).complete_queue)) := by
          rw [← List.append_assoc]
          exact List.perm_append_singleton _ _
        exact (h4.trans ((List.Perm.append_right _ h3).symm)).trans (hp _)
      · simp only [hh, if_false]
        exact hp e
    · subst hl
      have hasync : async_endpoint k endpt := by
        obtain ⟨_, _, i3⟩ := hi endpt IN
        exact (i3 (by rw [hc]; simp)).2
      have hc' : created k (.ioctl endpt .USB_GET_COMPLETED req flag env) = none := rfl
      have hr : reaped k (.ioctl endpt .USB_GET_COMPLETED req flag env) = some (endpt, b) := by
        simp [reaped, hok.2 hasync, hc, TAILQ_FIRST]
      simp only [outstanding_step, hc', hr, h1]
      by_cases hh : endpt = e
      · subst hh
        simp only [and_self, if_true]
        have hnd := (hi endpt IN).1
        rw [hc] at hnd
        have hb : b ∉ (k.sce endpt IN).submit_queue := by
          intro hb
          exact (List.nodup_append.1 hnd).2.2 hb (List.mem_cons_self _ _)
        have h5 := (hp endpt).erase b
        rw [hc, List.erase_append_right _ hb, List.erase_cons_head] at h5
        exact h5
      · have hh' : ¬ e = endpt := fun h => hh h.symm
        simp only [hh, hh', false_and, if_false]
        exact hp e

/-- C4: in every state reached from freshly opened endpoints by guarded steps
(`malloc` hands out unused memory, the callback fires on a record that is on
the submit queue), with `g e` the records of endpoint `e` created by an
accepted submit and not yet reaped: each such record is linked exactly once
across the submit queue and the complete queue, nothing else is linked, and at
the next step a record on the complete queue is never put back on the submit
queue, a record on the submit queue stays there or passes to the complete
queue, and a record leaves the complete queue only by being reaped. -/
theorem record_placement (k : Kernel) (g : Nat → List Nat) (e : Nat) (l : Label)
    (h : Run k g) (hg : Guard k l) :
    (∀ p ∈ g e,
      ((k.sce e IN).submit_queue ++ (k.sce e IN).complete_queue).count p = 1) ∧
    (∀ p ∈ (k.sce e IN).submit_queue ++ (k.sce e IN).complete_queue, p ∈ g e) ∧
    (∀ p ∈ (k.sce e IN).complete_queue, p ∉ ((step k l).sce e IN).submit_queue) ∧
    (∀ p ∈ (k.sce e IN).submit_queue,
      p ∈ ((step k l).sce e IN).submit_queue ∨ p ∈ ((step k l).sce e IN).complete_queue) ∧
    (∀ p ∈ (k.sce e IN).complete_queue,
      p ∈ ((step k l).sce e IN).complete_queue ∨ reaped k l = some (e, p)) := by
  obtain ⟨hi, hp⟩ := run_outstanding k g h
  obtain ⟨hnd, _, hne⟩ := hi e IN
  have hdisj : ∀ p ∈ (k.sce e IN).complete_queue, p ∉ (k.sce e IN).submit_queue :=
    fun p hc hs => (List.nodup_append.1 hnd).2.2 hs hc
  refine ⟨fun p hpg => List.count_eq_one_of_mem hnd ((hp e).mem_iff.2 hpg),
    fun p hpq => (hp e).mem_iff.1 hpq, ?_⟩
  rcases step_cases k l hg with
    ⟨h1, _, _⟩ | ⟨endpt, req, flag, env, a, _, _, _, hnq, h1, _, _, _⟩ |
    ⟨x, p0, s, _, _, h1⟩ | ⟨endpt, req, flag, env, b, rest, hl, _, hc, hok, h1⟩
  · rw [h1]
    exact ⟨hdisj, fun p hs => Or.inl hs, fun p hc => Or.inl hc⟩
  · rw [h1]
    by_cases he : e = endpt
    · subst he
      rw [if_pos ⟨rfl, rfl⟩]
      refine ⟨fun p hc hs => ?_, fun p hs => Or.inl (List.mem_append_left _ hs),
        fun p hc => Or.inl hc⟩
      rcases List.mem_append.1 hs with hs | hs
      · exact hdisj p hc hs
      · rw [List.mem_singleton.1 hs] at hc
        exact hnq (queued_complete k e IN a hc)
    · rw [if_neg (fun h => he h.1)]
      exact ⟨hdisj, fun p hs => Or.inl hs, fun p hc => Or.inl hc⟩
  · rw [h1]
    by_cases hh : e = (k.kmem p0).ucr_sce.1 ∧ IN = (k.kmem p0).ucr_sce.2
    · rw [if_pos hh]
      refine ⟨fun p hc hs => hdisj p hc (List.mem_of_mem_erase hs), fun p hs => ?_,
        fun p hc => Or.inl (List.mem_append_left _ hc)⟩
      by_cases hpp : p = p0
      · right; rw [hpp]; simp
      · left; exact (List.mem_erase_of_ne hpp).2 hs
    · rw [if_neg hh]
      exact ⟨hdisj, fun p hs => Or.inl hs, fun p hc => Or.inl hc⟩
  · rw [h1]
    by_cases he : e = endpt
    · subst he
      rw [if_pos ⟨rfl, rfl⟩]
      refine ⟨hdisj, fun p hs => Or.inl hs, fun p hpc => ?_⟩
      rw [hc] at hpc
      rcases List.mem_cons.1 hpc with hpb | hpr
      · right
        have hasync : async_endpoint k e := (hne (by rw [hc]; simp)).2
        rw [hl, hpb]
        simp [reaped, hok.2 hasync, hc, TAILQ_FIRST]
      · left; exact hpr
    · rw [if_neg (fun h => he h.1)]
      exact ⟨hdisj, fun p hs => Or.inl hs, fun p hc => Or.inl hc⟩

theorem run_of_guarded (ls : List Label) :
    ∀ k g, Run k g → Guarded k ls → Run (run k ls) (outstanding_run k g ls) := by
  induction ls with
  | nil => intro k g h _; exact h
  | cons l ls ih => intro k g h hg; exact ih _ _ (Run.step k g l h hg.1) hg.2

/-- C4, at a concrete input: after contexts 7 and 8 were submitted as records
1 and 2 and record 1 completed, at a reap on the control endpoint. -/
theorem record_placement_witness :
    Run (run kernel_boot distinct_steps)
      (outstanding_run kernel_boot (fun _ => []) distinct_steps) ∧
    outstanding_run kernel_boot (fun _ => []) distinct_steps 0 = [1, 2] ∧
    ((run kernel_boot distinct_steps).sce 0 IN).submit_queue = [2] ∧
    ((run kernel_boot distinct_steps).sce 0 IN).complete_queue = [1] ∧
    (∀ p ∈ outstanding_run kernel_boot (fun _ => []) distinct_steps 0,
      (((run kernel_boot distinct_steps).sce 0 IN).submit_queue ++
        ((run kernel_boot distinct_steps).sce 0 IN).complete_queue).count p = 1) ∧
    reaped (run kernel_boot distinct_steps)
      (.ioctl 0 .USB_GET_COMPLETED urb_get_status 0 (env_ok 0 0)) = some (0, 1) :=
  ⟨run_of_guarded _ _ _ (Run.init _ fresh_boot) (guarded_boot _ (by decide)),
   by decide, by decide, by decide,
   (record_placement (run kernel_boot distinct_steps)
      (outstanding_run kernel_boot (fun _ => []) distinct_steps) 0
      (.ioctl 0 .USB_GET_COMPLETED urb_get_status 0 (env_ok 0 0))
      (run_of_guarded _ _ _ (Run.init _ fresh_boot) (guarded_boot _ (by decide))) trivial).1,
   by decide⟩

theorem submit_errno_ne_zero (err : usbd_status) : submit_errno err ≠ 0 := by
  unfold submit_errno; split_ifs <;> decide

theorem submit_buffer_events (k : Kernel) (req : usb_ctl_request) (a x : Nat) (len : Int)
    (rd : Bool) (env : submit_env) (k1 : Kernel)
    (h : ugen_submit_buffer k req a x len rd env = .ok k1) :
    k1.sc = k.sc ∧ k1.kmem = k.kmem ∧ k1.umem = k.umem ∧
    ∃ evs, k1.trace = k.trace ++ evs ∧ ∀ ev ∈ evs, ∃ n, ev = Event.usbd_alloc_buffer x n := by
  unfold ugen_submit_buffer at h
  split_ifs at h with h1 h2 h3
  · simp only [] at h
    split at h
    · cases h
    · cases h; exact ⟨rfl, rfl, rfl, [.usbd_alloc_buffer x len.toNat], rfl, by simp⟩
  · cases h; exact ⟨rfl, rfl, rfl, [.usbd_alloc_buffer x len.toNat], rfl, by simp⟩
  · cases h; exact ⟨rfl, rfl, rfl, [], by simp, by simp⟩

theorem submit_transfer_refused (k : Kernel) (sce : Nat × Nat) (a x : Nat) (env : submit_env)
    (herr : env.err ≠ USBD_IN_PROGRESS) :
    (ugen_submit_transfer k sce a x env).1 =
submit_errno env.err ∧
    (ugen_submit_transfer k sce a x env).2.sc = k.sc ∧
    (ugen_submit_transfer k sce a x env).2.trace = k.trace ++
      [.usbd_transfer x, .usbd_clear_endpoint_stall (k.sce sce.1 sce.2).pipeh,
       .usbd_free_xfer x, .free a] := by
  simp only [ugen_submit_transfer]
  rw [if_pos herr]
  simp [submit_errno]

/-- When the bus does not take the transfer in progress, `ugen_submit_ctrl`
either never reached the bus or made exactly the calls listed. -/
theorem submit_ctrl_refused (k : Kernel) (req : usb_ctl_request) (env : submit_env)
    (herr : env.err ≠ USBD_IN_PROGRESS) :
    (∀ y, Event.usbd_transfer y ∉ emitted k (ugen_submit_ctrl k req env).2) ∨
    ∃ a x evs, env.kreq = some a ∧ env.xfer = some x ∧
      (∀ ev ∈ evs, ∃ n, ev = Event.usbd_alloc_buffer x n) ∧
      (ugen_submit_ctrl k req env).1 =
submit_errno env.err ∧
      (ugen_submit_ctrl k req env).2.sc = k.sc ∧
      emitted k (ugen_submit_ctrl k req env).2 =
        .malloc a :: .usbd_alloc_xfer x :: (evs ++
          [.usbd_transfer x,
           .usbd_clear_endpoint_stall (k.sce req.ucr_sce.1 req.ucr_sce.2).pipeh,
           .usbd_free_xfer x, .free a]) := by
  unfold ugen_submit_ctrl
  simp only []
  split_ifs with h1 h2
  · left; simp [emitted]
  · left; simp [emitted]
  · split
    · left; simp [emitted]
    · rename_i a ha
      split
      · left; simp [emitted]
      · rename_i x hx
        split
        · rename_i r hr
          left
          obtain ⟨_, _, _, evs, h4, h5⟩ := submit_buffer_error _ _ _ _ _ _ _ _ hr
          intro y hy
          rw [emitted_append k r.2 (Event.malloc a :: Event.usbd_alloc_xfer x :: evs)
            (by rw [h4]; simp)] at hy
          simp at hy
          exact absurd hy (h5 y)
        · rename_i k1 hk1
          obtain ⟨h2, _, _, evs, h4, h5⟩ := submit_buffer_events _ _ _ _ _ _ _ _ hk1
          right
          obtain ⟨t1, t2, t3⟩ := submit_transfer_refused
            (k1.set_xfer x (usbd_setup_xfer (k1.xfers x) a (k1.kmem a).ucr_timeout
              (Int.toNat (UGETW req.ucr_request.wLength : Nat))
              ((if (k1.kmem a).ucr_flags &&& USBD_SHORT_XFER_OK ≠ 0 then USBD_SHORT_XFER_OK
                else 0) ||| USBD_NO_COPY))) req.ucr_sce a x env herr
          refine ⟨a, x, evs, ha, hx, h5, t1, ?_, ?_⟩
          · rw [t2]; simp [h2]
          · apply emitted_append
            rw [t3]
            have hs : (k1.sce req.ucr_sce.1 req.ucr_sce.2).pipeh =
                (k.sce req.ucr_sce.1 req.ucr_sce.2).pipeh := by
              simp only [Kernel.sce, h2]; rfl
            simp [h4, hs]
/-- When the bus does not take the transfer in progress, `ugen_submit_bulk`
either never reached the bus or made exactly the calls listed. -/
theorem submit_bulk_refused (k : Kernel) (req : usb_ctl_request) (env : submit_env)
    (herr : env.err ≠ USBD_IN_PROGRESS) :
    (∀ y, Event.usbd_transfer y ∉ emitted k (ugen_submit_bulk k req env).2) ∨
    ∃ a x evs, env.kreq = some a ∧ env.xfer = some x ∧
      (∀ ev ∈ evs, ∃ n, ev = Event.usbd_alloc_buffer x n) ∧
      (ugen_submit_bulk k req env).1 =
submit_errno env.err ∧
      (ugen_submit_bulk k req env).2.sc = k.sc ∧
      emitted k (ugen_submit_bulk k req env).2 =
        .malloc a :: .usbd_alloc_xfer x :: (evs ++
          [.usbd_transfer x,
           .usbd_clear_endpoint_stall (k.sce req.ucr_sce.1 req.ucr_sce.2).pipeh,
           .usbd_free_xfer x, .free a]) := by
  unfold ugen_submit_bulk
  simp only []
  split_ifs with h1
  · left; simp [emitted]
  · split
    · left; simp [emitted]
    · rename_i a ha
      split
      · left; simp [emitted]
      · rename_i x hx
        split
        · rename_i r hr
          left
          obtain ⟨_, _, _, evs, h4, h5⟩ := submit_buffer_error _ _ _ _ _ _ _ _ hr
          intro y hy
          rw [emitted_append k r.2 (Event.malloc a :: Event.usbd_alloc_xfer x :: evs)
            (by rw [h4]; simp)] at hy
          simp at hy
          exact absurd hy (h5 y)
        · rename_i k1 hk1
          obtain ⟨h2, _, _, evs, h4, h5⟩ := submit_buffer_events _ _ _ _ _ _ _ _ hk1
          right
          obtain ⟨t1, t2, t3⟩ := submit_transfer_refused
            (k1.set_xfer x (usbd_setup_xfer (k1.xfers x) a (k1.kmem a).ucr_timeout
              (Int.toNat req.ucr_actlen)
              ((if (k1.kmem a).ucr_flags &&& USBD_SHORT_XFER_OK ≠ 0 then
                  (if (k1.kmem a).ucr_flags &&& USBD_FORCE_SHORT_XFER ≠ 0 then
                    USBD_FORCE_SHORT_XFER else 0) ||| USBD_SHORT_XFER_OK
                else (if (k1.kmem a).ucr_flags &&& USBD_FORCE_SHORT_XFER ≠ 0 then
                    USBD_FORCE_SHORT_XFER else 0)) ||| USBD_NO_COPY))) req.ucr_sce a x env herr
          refine ⟨a, x, evs, ha, hx, h5, t1, ?_, ?_⟩
          · rw [t2]; simp [h2]
          · apply emitted_append
            rw [t3]
            have hs : (k1.sce req.ucr_sce.1 req.ucr_sce.2).pipeh =
                (k.sce req.ucr_sce.1 req.ucr_sce.2).pipeh := by
              simp only [Kernel.sce, h2]; rfl
            simp [h4, hs]

/-- What a bus submission refused inside `USB_DO_REQUEST` (control or bulk)
leaves: the ioctl returns the non-zero error derived from the status (`EINTR`
for interrupted, `ETIMEDOUT` for timeout, the io error otherwise), the
transfer object and the kernel copy of the request are each released exactly
once and nothing else is released, `usbd_clear_endpoint_stall` is called with
whatever the field `pipeh` of the IN slot holds, a pipe or nothing, and no
endpoint slot, hence no queue, is changed. -/
theorem do_request_bus_refuses (k : Kernel) (endpt : Nat) (req : usb_ctl_request)
    (flag : Nat) (env : submit_env) (y : Nat)
    (hbus : Event.usbd_transfer y ∈
      emitted k (ugen_do_ioctl k endpt .USB_DO_REQUEST req flag env).2.2)
    (herr : env.err ≠ USBD_IN_PROGRESS) :
    (ugen_do_ioctl k endpt .USB_DO_REQUEST req flag env).1 = submit_errno env.err ∧
    (ugen_do_ioctl k endpt .USB_DO_REQUEST req flag env).1 ≠ 0 ∧
    (env.err = USBD_INTERRUPTED →
      (ugen_do_ioctl k endpt .USB_DO_REQUEST req flag env).1 = EINTR) ∧
    (env.err = USBD_TIMEOUT →
      (ugen_do_ioctl k endpt .USB_DO_REQUEST req flag env).1 = ETIMEDOUT) ∧
    (env.err ≠ USBD_INTERRUPTED → env.err ≠ USBD_TIMEOUT →
      (ugen_do_ioctl k endpt .USB_DO_REQUEST req flag env).1 = EIO) ∧
    (∃ a x, env.kreq = some a ∧ env.xfer = some x ∧
      (emitted k (ugen_do_ioctl k endpt .USB_DO_REQUEST req flag env).2.2).count
        (.usbd_free_xfer x) = 1 ∧
      (emitted k (ugen_do_ioctl k endpt .USB_DO_REQUEST req flag env).2.2).count
        (.free a) = 1 ∧
      (∀ z, Event.usbd_free_xfer z ∈
        emitted k (ugen_do_ioctl k endpt .USB_DO_REQUEST req flag env).2.2 → z = x) ∧
      (∀ z, Event.free z ∈
        emitted k (ugen_do_ioctl k endpt .USB_DO_REQUEST req flag env).2.2 → z = a) ∧
      Event.usbd_clear_endpoint_stall (k.sce endpt IN).pipeh ∈
        emitted k (ugen_do_ioctl k endpt .USB_DO_REQUEST req flag env).2.2) ∧
    (∀ e d, (ugen_do_ioctl k endpt .USB_DO_REQUEST req flag env).2.2.sce e d = k.sce e d) := by
  have key : ∃ a x evs, env.kreq = some a ∧ env.xfer = some x ∧
      (∀ ev ∈ evs, ∃ n, ev = Event.usbd_alloc_buffer x n) ∧
      (ugen_do_ioctl k endpt .USB_DO_REQUEST req flag env).1 = submit_errno env.err ∧
      (ugen_do_ioctl k endpt .USB_DO_REQUEST req flag env).2.2.sc = k.sc ∧
      emitted k (ugen_do_ioctl k endpt .USB_DO_REQUEST req flag env).2.2 =
        .malloc a :: .usbd_alloc_xfer x :: (evs ++
          [.usbd_transfer x, .usbd_clear_endpoint_stall (k.sce endpt IN).pipeh,
           .usbd_free_xfer x, .free a]) := by
    by_cases hd : k.sc.dying = true
    · rw [do_ioctl_dying _ _ _ _ _ _ hd] at hbus; simp [emitted] at hbus
    · have hd : k.sc.dying = false := by simpa using hd
      rw [do_ioctl_request _ _ _ _ _ hd] at hbus ⊢
      unfold ugen_do_request at hbus ⊢
      simp only [ite_error] at hbus ⊢
      split_ifs at hbus ⊢ with h0 hw
      · simp [emitted] at hbus
      · rcases submit_ctrl_refused k { req with ucr_sce := (endpt, IN) } env herr with
          h | h
        · exact absurd hbus (h y)
        · exact h
      · cases hE : (k.sce endpt IN).edesc with
        | none => simp [hE, emitted] at hbus
        | some attr =>
          simp only [hE] at hbus ⊢
          split_ifs at hbus ⊢ with h7 h8
          · simp [emitted] at hbus
          · rcases submit_bulk_refused k { req with ucr_sce := (endpt, IN) } env herr with
              h | h
            · exact absurd hbus (h y)
            · exact h
          · simp [emitted] at hbus
  obtain ⟨a, x, evs, ha, hx, hev, h1, h2, h3⟩ := key
  have hc1 : ∀ ev, (∀ n, ev ≠ Event.usbd_alloc_buffer x n) → evs.count ev = 0 := by
    intro ev hne
    rw [List.count_eq_zero]
    intro hm
    obtain ⟨n, hn⟩ := hev ev hm
    exact hne n hn
  have hm1 : ∀ ev, (∀ n, ev ≠ Event.usbd_alloc_buffer x n) → ev ∉ evs := by
    intro ev hne hm
    obtain ⟨n, hn⟩ := hev ev hm
    exact hne n hn
  refine ⟨h1, by rw [h1]; exact submit_errno_ne_zero _, ?_, ?_, ?_, ⟨a, x, ha, hx, ?_, ?_, ?_, ?_, ?_⟩,
    fun e d => sce_of_sc _ _ h2 e d⟩
  · intro h; rw [h1, h]; rfl
  · intro h; rw [h1, h]; rfl
  · intro hi ht; rw [h1]; simp [submit_errno, hi, ht]
  · rw [h3]
    simp [List.count_cons, List.count_append, hc1 (.usbd_free_xfer x) (by simp)]
  · rw [h3]
    simp [List.count_cons, List.count_append, hc1 (.free a) (by simp)]
  · intro z hz
    rw [h3] at hz
    simp at hz
    rcases hz with hz | hz
    · exact absurd hz (hm1 _ (by simp))
    · exact hz
  · intro z hz
    rw [h3] at hz
    simp at hz
    rcases hz with hz | hz
    · exact absurd hz (hm1 _ (by simp))
    · exact hz
  · rw [h3]; simp

theorem UGETW_lt (w : uWord) : UGETW w < 65536 := by
  unfold UGETW
  have h1 : w.lo % 256 < 2 ^ 16 := lt_of_lt_of_le (Nat.mod_lt _ (by decide)) (by decide)
  have h2 : (w.hi % 256) <<< 8 < 2 ^ 16 := by
    rw [Nat.shiftLeft_eq]
    have := Nat.mod_lt w.hi (show 0 < 256 by decide)
    omega
  exact Nat.or_lt_two_pow h1 h2

theorem uiomove_write_efault (umem : Nat → Option Nat) (addr n err : Nat)
    (h : uiomove_write umem addr n = .error err) : err = EFAULT := by
  unfold uiomove_write at h
  split_ifs at h
  cases h; rfl

theorem submit_buffer_error_code (k : Kernel) (req : usb_ctl_request) (a x : Nat) (len : Int)
    (rd : Bool) (env : submit_env) (r : Nat × Kernel)
    (h : ugen_submit_buffer k req a x len rd env = .error r) :
    r.1 = ENOMEM ∨ r.1 = EFAULT := by
  unfold ugen_submit_buffer at h
  split_ifs at h with h1 h2 h3
  · cases h; left; rfl
  · simp only [] at h
    split at h
    · rename_i err herr
      cases h
      right; exact uiomove_write_efault _ _ _ _ herr
    · cases h

theorem submit_transfer_code (k : Kernel) (sce : Nat × Nat) (a x : Nat) (env : submit_env) :
    (ugen_submit_transfer k sce a x env).1 ≠ EINVAL := by
  simp only [ugen_submit_transfer]
  split_ifs <;> simp

/-- C12: a control request that is a device write of `SET_ADDRESS`, a device
write of `SET_CONFIG` or an interface write of `SET_INTERFACE` is rejected by
`ugen_submit_ctrl` with `EINVAL` whatever its other fields are, with the state
untouched: nothing is allocated, no transfer is submitted, both queues are as
before.  So is `USB_DO_REQUEST` on the control endpoint of a device that is
not dying through a descriptor open for writing. -/
theorem forbidden_request_rejected (k : Kernel) (req : usb_ctl_request) (flag : Nat)
    (env : submit_env) (hf : bus_integrity_write req.ucr_request) :
    ugen_submit_ctrl k req env = (EINVAL, k) ∧
    (k.sc.dying = false → flag &&& FWRITE ≠ 0 →
      ugen_do_ioctl k USB_CONTROL_ENDPOINT .USB_DO_REQUEST req flag env =
        (EINVAL, { req with ucr_sce := (USB_CONTROL_ENDPOINT, IN) }, k)) := by
  unfold bus_integrity_write at hf
  have h : ∀ r : usb_ctl_request, r.ucr_request = req.ucr_request →
      ugen_submit_ctrl k r env = (EINVAL, k) := by
    intro r hr
    unfold ugen_submit_ctrl
    simp only []
    rw [if_pos (by rw [hr]; exact hf)]
  refine ⟨h req rfl, fun hd hw => ?_⟩
  rw [do_ioctl_request _ _ _ _ _ hd]
  unfold ugen_do_request
  simp only [ite_error, if_true]
  have h0 := h { req with ucr_sce := (USB_CONTROL_ENDPOINT, IN) } rfl
  rw [if_neg hw, h0]

/-- C12, at a concrete input: a `SET_ADDRESS` write on the freshly opened
control endpoint. -/
theorem forbidden_request_rejected_witness :
    ugen_submit_ctrl kernel_boot urb_set_address (env_ok 1 1) = (EINVAL, kernel_boot) ∧
    ugen_do_ioctl kernel_boot USB_CONTROL_ENDPOINT .USB_DO_REQUEST urb_set_address FWRITE
      (env_ok 1 1) =
        (EINVAL, { urb_set_address with ucr_sce := (USB_CONTROL_ENDPOINT, IN) }, kernel_boot) :=
  ⟨(forbidden_request_rejected kernel_boot urb_set_address FWRITE (env_ok 1 1)
      (Or.inl ⟨rfl, rfl⟩)).1,
   (forbidden_request_rejected kernel_boot urb_set_address FWRITE (env_ok 1 1)
      (Or.inl ⟨rfl, rfl⟩)).2 rfl (by decide)⟩

/-- C13: a control request that is not a bus-integrity write is rejected by
`ugen_submit_ctrl` with `EINVAL` exactly when its decoded `wLength`, a value
below 65536, exceeds 32767, and the rejection leaves the state untouched
(nothing allocated, no queue changed): 32768 and above are rejected, 0 to
32767 pass the length check. -/
theorem control_length_validation (k : Kernel) (req : usb_ctl_request) (env : submit_env)
    (hf : ¬ bus_integrity_write req.ucr_request) :
    ((ugen_submit_ctrl k req env).1 = EINVAL ↔ 32767 < UGETW req.ucr_request.wLength) ∧
    (32767 < UGETW req.ucr_request.wLength → ugen_submit_ctrl k req env = (EINVAL, k)) ∧
    (UGETW req.ucr_request.wLength ≤ 32767 →
      (ugen_submit_ctrl k req env).1 ≠ EINVAL) ∧
    UGETW req.ucr_request.wLength < 65536 := by
  unfold bus_integrity_write at hf
  have hrej : 32767 < UGETW req.ucr_request.wLength →
      ugen_submit_ctrl k req env = (EINVAL, k) := by
    intro hl
    unfold ugen_submit_ctrl
    simp only []
    rw [if_neg hf, if_pos (Or.inr (by exact_mod_cast hl))]
  have hpass : UGETW req.ucr_request.wLength ≤ 32767 →
      (ugen_submit_ctrl k req env).1 ≠ EINVAL := by
    intro hl
    unfold ugen_submit_ctrl
    simp only []
    have hlen : ¬ (((UGETW req.ucr_request.wLength : Nat) : Int) < 0 ∨
        ((UGETW req.ucr_request.wLength : Nat) : Int) > 32767) := by
      push_neg
      exact ⟨by positivity, by exact_mod_cast hl⟩
    rw [if_neg hf, if_neg hlen]
    split
    · simp
    · split
      · simp
      · split
        · rename_i r hr
          rcases submit_buffer_error_code _ _ _ _ _ _ _ _ hr with h | h <;> rw [h] <;> decide
        · exact submit_transfer_code _ _ _ _ _
  refine ⟨⟨fun h => ?_, fun h => by rw [hrej h]⟩, hrej, hpass, UGETW_lt _⟩
  by_contra hl
  exact hpass (by omega) h

/-- C13, at concrete inputs: `wLength` 32768 is rejected, 32767 and 0 are not. -/
theorem control_length_validation_witness :
    ugen_submit_ctrl kernel_boot (urb_with_length 0 128) (env_ok 1 1) = (EINVAL, kernel_boot) ∧
    (ugen_submit_ctrl kernel_boot (urb_with_length 255 127) (env_ok 1 1)).1 ≠ EINVAL ∧
    (ugen_submit_ctrl kernel_boot (urb_with_length 0 0) (env_ok 1 1)).1 ≠ EINVAL :=
  ⟨(control_length_validation kernel_boot (urb_with_length 0 128) (env_ok 1 1)
      (by unfold bus_integrity_write; decide)).2.1 (by decide),
   (control_length_validation kernel_boot (urb_with_length 255 127) (env_ok 1 1)
      (by unfold bus_integrity_write; decide)).2.2.1 (by decide),
   (control_length_validation kernel_boot (urb_with_length 0 0) (env_ok 1 1)
      (by unfold bus_integrity_write; decide)).2.2.1 (by decide)⟩

/-- The effects of a refused submission at a concrete input: the bus answers
the request of the test program with `USBD_STALLED`. -/
theorem do_request_bus_refuses_witness :
    (ugen_do_ioctl kernel_boot 0 .USB_DO_REQUEST urb_get_status FWRITE
      (env_err 1 1 USBD_STALLED)).1 = EIO ∧
    emitted kernel_boot (ugen_do_ioctl kernel_boot 0 .USB_DO_REQUEST urb_get_status FWRITE
      (env_err 1 1 USBD_STALLED)).2.2 =
      [.malloc 1, .usbd_alloc_xfer 1, .usbd_alloc_buffer 1 2, .usbd_transfer 1,
       .usbd_clear_endpoint_stall none, .usbd_free_xfer 1, .free 1] ∧
    (∀ e d, (ugen_do_ioctl kernel_boot 0 .USB_DO_REQUEST urb_get_status FWRITE
      (env_err 1 1 USBD_STALLED)).2.2.sce e d = kernel_boot.sce e d) :=
  ⟨(do_request_bus_refuses kernel_boot 0 urb_get_status FWRITE (env_err 1 1 USBD_STALLED) 1
      (by decide) (by decide)).1.trans (by decide),
   by decide,
   (do_request_bus_refuses kernel_boot 0 urb_get_status FWRITE (env_err 1 1 USBD_STALLED) 1
      (by decide) (by decide)).2.2.2.2.2.2⟩

/-- C14, as stated, fails: a bulk `USB_DO_REQUEST` with requested length 0 on
a bulk endpoint is not rejected; it is handed to the bus, returns 0 and is
queued on the submit queue. -/
theorem bulk_zero_length_counterexample :
    (urb_bulk_read 0).ucr_actlen = 0 ∧
    (ugen_do_ioctl kernel_bulk 1 .USB_DO_REQUEST (urb_bulk_read 0) FWRITE (env_ok 1 1)).1 = 0 ∧
    Event.usbd_transfer 1 ∈ emitted kernel_bulk
      (ugen_do_ioctl kernel_bulk 1 .USB_DO_REQUEST (urb_bulk_read 0) FWRITE (env_ok 1 1)).2.2 ∧
    ((ugen_do_ioctl kernel_bulk 1 .USB_DO_REQUEST (urb_bulk_read 0) FWRITE
      (env_ok 1 1)).2.2.sce 1 IN).submit_queue = [1] := by
  decide

/-- C14, amended: `ugen_submit_bulk` rejects a request with `EINVAL` exactly
when its requested length `ucr_actlen` is negative, and then the state is
untouched (no transfer submitted, submit queue unchanged); a requested length
of 0 passes this check. -/
theorem bulk_length_validation (k : Kernel) (req : usb_ctl_request) (env : submit_env) :
    ((ugen_submit_bulk k req env).1 = EINVAL ↔ req.ucr_actlen < 0) ∧
    (req.ucr_actlen < 0 → ugen_submit_bulk k req env = (EINVAL, k)) ∧
    (req.ucr_actlen = 0 → (ugen_submit_bulk k req env).1 ≠ EINVAL) := by
  have hrej : req.ucr_actlen < 0 → ugen_submit_bulk k req env = (EINVAL, k) := by
    intro hl
    unfold ugen_submit_bulk
    simp only []
    rw [if_pos hl]
  have hpass : ¬ req.ucr_actlen < 0 → (ugen_submit_bulk k req env).1 ≠ EINVAL := by
    intro hl
    unfold ugen_submit_bulk
    simp only []
    rw [if_neg hl]
    split
    · simp
    · split
      · simp
      · split
        · rename_i r hr
          rcases submit_buffer_error_code _ _ _ _ _ _ _ _ hr with h | h <;> rw [h] <;> decide
        · exact submit_transfer_code _ _ _ _ _
  refine ⟨⟨fun h => ?_, fun h => by rw [hrej h]⟩, hrej, fun h => hpass (by omega)⟩
  by_contra hl
  exact hpass hl h

theorem complete_copy_skip (k : Kernel) (p x : Nat) (len : Int) (rd : Bool)
    (h : ¬ (len ≠ 0 ∧ rd = true)) :
    ugen_complete_copy k p x len rd = (0, k.emit (.usbd_free_xfer x)) := by
  unfold ugen_complete_copy; rw [if_neg h]

theorem complete_copy_ok (k : Kernel) (p x : Nat) (len : Int) (rd : Bool)
    (um : Nat → Option Nat) (h1 : len ≠ 0) (h2 : rd = true)
    (h : uiomove_read k.umem (k.xfers x).dmabuf (k.kmem p).ucr_data (to_size_t len) = .ok um) :
    ugen_complete_copy k p x len rd = (0, { k with umem := um }.emit (.usbd_free_xfer x)) := by
  unfold ugen_complete_copy; rw [if_pos ⟨h1, h2⟩, h]

theorem complete_copy_fault (k : Kernel) (p x : Nat) (len : Int) (rd : Bool)
    (err : Nat) (h1 : len ≠ 0) (h2 : rd = true)
    (h : uiomove_read k.umem (k.xfers x).dmabuf (k.kmem p).ucr_data (to_size_t len) =
      .error err) :
    ugen_complete_copy k p x len rd =
      (0, (k.store p { k.kmem p with ucr_status := USBD_IOERROR }).emit (.usbd_free_xfer x)) := by
  unfold ugen_complete_copy; rw [if_pos ⟨h1, h2⟩, h]

/-- What a reap hands back for a record that is not marked cancelled, by the
status of its transfer and the outcome of the copy to the user buffer. -/
theorem complete_result (c : Kernel → Nat → Nat × Kernel) (dl : Kernel → Nat → Int)
    (rd : Kernel → Nat → Bool)
    (hc : ∀ k b, (k.kmem b).ucr_status ≠ USBD_CANCELLED →
      c k b =
        if (k.xfers (k.kmem b).xfer).status = USBD_NORMAL_COMPLETION then
          ugen_complete_copy
            ((k.store b { k.kmem b with ucr_status := (k.xfers (k.kmem b).xfer).status }).store b
              { k.kmem b with ucr_status := (k.xfers (k.kmem b).xfer).status,
                              ucr_actlen := clamp_len (dl k b) (k.xfers (k.kmem b).xfer).actlen })
            b (k.kmem b).xfer (clamp_len (dl k b) (k.xfers (k.kmem b).xfer).actlen) (rd k b)
        else (0, (k.store b { k.kmem b with
          ucr_status := (k.xfers (k.kmem b).xfer).status }).emit
            (.usbd_free_xfer (k.kmem b).xfer)))
    (k : Kernel) (b : Nat) (hs : (k.kmem b).ucr_status ≠ USBD_CANCELLED) :
    ((k.xfers (k.kmem b).xfer).status ≠ USBD_NORMAL_COMPLETION →
      (c k b).2.kmem b = { k.kmem b with ucr_status := (k.xfers (k.kmem b).xfer).status } ∧
      (c k b).2.umem = k.umem) ∧
    ((k.xfers (k.kmem b).xfer).status = USBD_NORMAL_COMPLETION →
      (¬ (clamp_len (dl k b) (k.xfers (k.kmem b).xfer).actlen ≠ 0 ∧ rd k b = true) →
        (c k b).2.kmem b = { k.kmem b with
          ucr_status := USBD_NORMAL_COMPLETION,
          ucr_actlen := clamp_len (dl k b) (k.xfers (k.kmem b).xfer).actlen } ∧
        (c k b).2.umem = k.umem) ∧
      (clamp_len (dl k b) (k.xfers (k.kmem b).xfer).actlen ≠ 0 → rd k b = true →
        ∀ um, uiomove_read k.umem (k.xfers (k.kmem b).xfer).dmabuf (k.kmem b).ucr_data
            (to_size_t (clamp_len (dl k b) (k.xfers (k.kmem b).xfer).actlen)) = .ok um →
        (c k b).2.kmem b = { k.kmem b with
          ucr_status := USBD_NORMAL_COMPLETION,
          ucr_actlen := clamp_len (dl k b) (k.xfers (k.kmem b).xfer).actlen } ∧
        (c k b).2.umem = um) ∧
      (clamp_len (dl k b) (k.xfers (k.kmem b).xfer).actlen ≠ 0 → rd k b = true →
        ∀ err, uiomove_read k.umem (k.xfers (k.kmem b).xfer).dmabuf (k.kmem b).ucr_data
            (to_size_t (clamp_len (dl k b) (k.xfers (k.kmem b).xfer).actlen)) = .error err →
        (c k b).2.kmem b = { k.kmem b with
          ucr_status := USBD_IOERROR,
          ucr_actlen := clamp_len (dl k b) (k.xfers (k.kmem b).xfer).actlen } ∧
        (c k b).2.umem = k.umem)) := by
  rw [hc k b hs]
  refine ⟨fun hx => ?_, fun hx => ⟨fun hn => ?_, fun h1 h2 um hu => ?_, fun h1 h2 err hu => ?_⟩⟩
  · rw [if_neg hx]; simp
  · rw [if_pos hx, complete_copy_skip _ _ _ _ _ hn]; simp [hx]
  · rw [if_pos hx, complete_copy_ok _ _ _ _ _ um h1 h2 (by simpa using hu)]; simp [hx]
  · rw [if_pos hx, complete_copy_fault _ _ _ _ _ err h1 h2 (by simpa using hu)]; simp [hx]

theorem complete_ctrl_unfold (k : Kernel) (b : Nat)
    (hs : (k.kmem b).ucr_status ≠ USBD_CANCELLED) :
    ugen_complete_ctrl k b =
      if (k.xfers (k.kmem b).xfer).status = USBD_NORMAL_COMPLETION then
        ugen_complete_copy
          ((k.store b { k.kmem b with ucr_status := (k.xfers (k.kmem b).xfer).status }).store b
            { k.kmem b with ucr_status := (k.xfers (k.kmem b).xfer).status,
                            ucr_actlen := clamp_len (declared_length k 0 b)
                              (k.xfers (k.kmem b).xfer).actlen })
          b (k.kmem b).xfer (clamp_len (declared_length k 0 b) (k.xfers (k.kmem b).xfer).actlen)
          (read_request k 0 b)
      else (0, (k.store b { k.kmem b with
        ucr_status := (k.xfers (k.kmem b).xfer).status }).emit
          (.usbd_free_xfer (k.kmem b).xfer)) := by
  simp only [ugen_complete_ctrl, if_neg hs, declared_length, read_request]
  simp

theorem complete_bulk_unfold (k : Kernel) (endpt b : Nat) (h0 : endpt ≠ USB_CONTROL_ENDPOINT)
    (hs : (k.kmem b).ucr_status ≠ USBD_CANCELLED) :
    ugen_complete_bulk k b =
      if (k.xfers (k.kmem b).xfer).status = USBD_NORMAL_COMPLETION then
        ugen_complete_copy
          ((k.store b { k.kmem b with ucr_status := (k.xfers (k.kmem b).xfer).status }).store b
            { k.kmem b with ucr_status := (k.xfers (k.kmem b).xfer).status,
                            ucr_actlen := clamp_len (declared_length k endpt b)
                              (k.xfers (k.kmem b).xfer).actlen })
          b (k.kmem b).xfer
          (clamp_len (declared_length k endpt b) (k.xfers (k.kmem b).xfer).actlen)
          (read_request k endpt b)
      else (0, (k.store b { k.kmem b with
        ucr_status := (k.xfers (k.kmem b).xfer).status }).emit
          (.usbd_free_xfer (k.kmem b).xfer)) := by
  simp only [ugen_complete_bulk, if_neg hs, declared_length, read_request, if_neg h0]
  simp

/-- A reap, under the conditions `reaps`, is the completion function of the
endpoint run on the head of the complete queue, after which the record is
copied out and freed. -/
theorem get_completed_reaps (k : Kernel) (endpt b : Nat) (req : usb_ctl_request) (flag : Nat)
    (env : submit_env) (h : reaps k endpt b) :
    ∃ K0 : Kernel, K0.kmem = k.kmem ∧ K0.xfers = k.xfers ∧ K0.umem = k.umem ∧
      K0.trace = k.trace ∧
      (∀ e d, K0.sce e d = if e = endpt ∧ d = IN then
        { k.sce e d with complete_queue := (k.sce e d).complete_queue.tail } else k.sce e d) ∧
      ((endpt = USB_CONTROL_ENDPOINT ∧
        ugen_do_ioctl k endpt .USB_GET_COMPLETED req flag env =
          (0, (ugen_complete_ctrl K0 b).2.kmem b,
            (ugen_complete_ctrl K0 b).2.emit (.free b))) ∨
       (endpt ≠ USB_CONTROL_ENDPOINT ∧
        ugen_do_ioctl k endpt .USB_GET_COMPLETED req flag env =
          (0, (ugen_complete_bulk K0 b).2.kmem b,
            (ugen_complete_bulk K0 b).2.emit (.free b)))) := by
  obtain ⟨hd, hq, hok⟩ := h
  rw [do_ioctl_completed _ _ _ _ _ hd]
  cases hc : (k.sce endpt IN).complete_queue with
  | nil => simp [TAILQ_FIRST, hc] at hq
  | cons b' rest =>
    have hb : b' = b := by simpa [TAILQ_FIRST, hc] using hq
    subst hb
    refine ⟨k.set_sce endpt IN { k.sce endpt IN with complete_queue := rest }, rfl, rfl, rfl,
      rfl, ?_, ?_⟩
    · intro e d
      simp only [sce_set_sce]
      split_ifs with h1
      · rw [h1.1, h1.2, hc]; rfl
      · rfl
    · unfold ugen_get_completed
      simp only [TAILQ_FIRST, hc, List.head?_cons, TAILQ_REMOVE, List.erase_cons_head,
        complete_ctrl_fst, complete_bulk_fst, ne_eq, not_true_eq_false, if_false]
      by_cases h0 : endpt = USB_CONTROL_ENDPOINT
      · left; exact ⟨h0, by rw [if_pos h0]⟩
      · right
        refine ⟨h0, ?_⟩
        rw [if_neg h0]
        rcases hok with h | ⟨attr, hattr, hbulk⟩
        · exact absurd h h0
        · simp only [hattr]
          have h7 : ¬ (attr &&& UE_XFERTYPE = UE_INTERRUPT ∨ attr &&& UE_XFERTYPE = UE_ISOCHRONOUS) := by
            rw [hbulk]; decide
          rw [if_neg h7, if_pos hbulk]

/-- What `USB_GET_COMPLETED` hands back when it reaps a record that is not
marked cancelled: the call succeeds, the block handed back is the record as
the completion function left it, and status, actual length and user memory
are as listed, by the status of the transfer and the outcome of the copy. -/
theorem reap_result (k : Kernel) (endpt b : Nat) (req : usb_ctl_request) (flag : Nat)
    (env : submit_env) (h : reaps k endpt b)
    (hs : (k.kmem b).ucr_status ≠ USBD_CANCELLED) :
    (ugen_do_ioctl k endpt .USB_GET_COMPLETED req flag env).1 = 0 ∧
    ((k.xfers (k.kmem b).xfer).status ≠ USBD_NORMAL_COMPLETION →
      (ugen_do_ioctl k endpt .USB_GET_COMPLETED req flag env).2.1 =
        { k.kmem b with ucr_status := (k.xfers (k.kmem b).xfer).status } ∧
      (ugen_do_ioctl k endpt .USB_GET_COMPLETED req flag env).2.2.umem = k.umem) ∧
    ((k.xfers (k.kmem b).xfer).status = USBD_NORMAL_COMPLETION →
      (¬ (clamp_len (declared_length k endpt b) (k.xfers (k.kmem b).xfer).actlen ≠ 0 ∧
          read_request k endpt b = true) →
        (ugen_do_ioctl k endpt .USB_GET_COMPLETED req flag env).2.1 = { k.kmem b with
          ucr_status := USBD_NORMAL_COMPLETION,
          ucr_actlen := clamp_len (declared_length k endpt b)
            (k.xfers (k.kmem b).xfer).actlen } ∧
        (ugen_do_ioctl k endpt .USB_GET_COMPLETED req flag env).2.2.umem = k.umem) ∧
      (clamp_len (declared_length k endpt b) (k.xfers (k.kmem b).xfer).actlen ≠ 0 →
        read_request k endpt b = true →
        ∀ um, uiomove_read k.umem (k.xfers (k.kmem b).xfer).dmabuf (k.kmem b).ucr_data
            (to_size_t (clamp_len (declared_length k endpt b)
              (k.xfers (k.kmem b).xfer).actlen)) = .ok um →
        (ugen_do_ioctl k endpt .USB_GET_COMPLETED req flag env).2.1 = { k.kmem b with
          ucr_status := USBD_NORMAL_COMPLETION,
          ucr_actlen := clamp_len (declared_length k endpt b)
            (k.xfers (k.kmem b).xfer).actlen } ∧
        (ugen_do_ioctl k endpt .USB_GET_COMPLETED req flag env).2.2.umem = um) ∧
      (clamp_len (declared_length k endpt b) (k.xfers (k.kmem b).xfer).actlen ≠ 0 →
        read_request k endpt b = true →
        ∀ err, uiomove_read k.umem (k.xfers (k.kmem b).xfer).dmabuf (k.kmem b).ucr_data
            (to_size_t (clamp_len (declared_length k endpt b)
              (k.xfers (k.kmem b).xfer).actlen)) = .error err →
        (ugen_do_ioctl k endpt .USB_GET_COMPLETED req flag env).2.1 = { k.kmem b with
          ucr_status := USBD_IOERROR,
          ucr_actlen := clamp_len (declared_length k endpt b)
            (k.xfers (k.kmem b).xfer).actlen } ∧
        (ugen_do_ioctl k endpt .USB_GET_COMPLETED req flag env).2.2.umem = k.umem)) := by
  obtain ⟨K0, h1, h2, h3, _, _, hcase⟩ := get_completed_reaps k endpt b req flag env h
  have hs0 : (K0.kmem b).ucr_status ≠ USBD_CANCELLED := by rw [h1]; exact hs
  have hdl : declared_length K0 endpt b = declared_length k endpt b := by
    simp [declared_length, h1]
  have hrd : read_request K0 endpt b = read_request k endpt b := by
    simp [read_request, h1]
  rcases hcase with ⟨h0, hR⟩ | ⟨h0, hR⟩
  · have key := complete_result ugen_complete_ctrl (fun k b => declared_length k 0 b)
      (fun k b => read_request k 0 b) (fun k b hs => complete_ctrl_unfold k b hs) K0 b hs0
    subst h0
    simp only [hdl, hrd, h1, h2, h3, USB_CONTROL_ENDPOINT] at key
    rw [hR]
    simpa using key
  · have key := complete_result ugen_complete_bulk (fun k b => declared_length k endpt b)
      (fun k b => read_request k endpt b)
      (fun k b hs => complete_bulk_unfold k endpt b h0 hs) K0 b hs0
    simp only [hdl, hrd, h1, h2, h3] at key
    rw [hR]
    simpa using key

theorem clamp_len_min (len : Int) (actlen : Nat) (h0 : 0 ≤ len) (h1 : len < 2147483648)
    (h2 : actlen < 4294967296) : clamp_len len actlen = min len (actlen : Int) := by
  unfold clamp_len to_u32 to_int
  have e1 : len % 4294967296 = len := Int.emod_eq_of_lt h0 (by omega)
  have e2 : actlen % 4294967296 = actlen := Nat.mod_eq_of_lt h2
  rw [e1, e2]
  split_ifs with h3 h4 <;> omega

theorem declared_length_range (k : Kernel) (endpt b : Nat)
    (hl : endpt ≠ USB_CONTROL_ENDPOINT →
      0 ≤ (k.kmem b).ucr_actlen ∧ (k.kmem b).ucr_actlen < 2147483648) :
    0 ≤ declared_length k endpt b ∧ declared_length k endpt b < 2147483648 := by
  unfold declared_length
  split_ifs with h
  · have := UGETW_lt (k.kmem b).ucr_request.wLength
    omega
  · exact hl h

theorem to_size_t_of_nonneg (i : Int) (h0 : 0 ≤ i) (h1 : i < 18446744073709551616) :
    to_size_t i = i.toNat := by
  unfold to_size_t
  rw [Int.emod_eq_of_lt h0 h1]

theorem uiomove_read_cases (umem : Nat → Option Nat) (buf : List Nat) (addr n : Nat) :
    (user_range_ok umem addr n = true ∧
      uiomove_read umem buf addr n =
        .ok (fun p => if addr ≤ p ∧ p < addr + n then some (buf.getD (p - addr) 0)
          else umem p)) ∨
    (user_range_ok umem addr n = false ∧ uiomove_read umem buf addr n = .error EFAULT) := by
  unfold uiomove_read
  cases h : user_range_ok umem addr n <;> simp

/-- C15, counterexample: the request `urb_get_status`, a read of two bytes,
is accepted on the control endpoint for a process whose buffer is not mapped,
and the device delivers two bytes with normal completion; the record is not
marked cancelled and its transfer has status normal completion, yet the
status `USB_GET_COMPLETED` returns is `USBD_IOERROR`, not normal
completion. -/
theorem reap_status_counterexample :
    reaps (kernel_delivered kernel_unmapped) 0 1 ∧
    ((kernel_delivered kernel_unmapped).kmem 1).ucr_status ≠ USBD_CANCELLED ∧
    ((kernel_delivered kernel_unmapped).xfers
      ((kernel_delivered kernel_unmapped).kmem 1).xfer).status = USBD_NORMAL_COMPLETION ∧
    (ugen_do_ioctl (kernel_delivered kernel_unmapped) 0 .USB_GET_COMPLETED urb_get_status 0
      (env_ok 0 0)).1 = 0 ∧
    (reaped_request (kernel_delivered kernel_unmapped) 0 urb_get_status 0
      (env_ok 0 0)).ucr_status = USBD_IOERROR ∧
    (reaped_request (kernel_delivered kernel_unmapped) 0 urb_get_status 0
      (env_ok 0 0)).ucr_status ≠ USBD_NORMAL_COMPLETION :=
  ⟨⟨by decide, by decide, Or.inl rfl⟩, by decide, by decide, by decide, by decide, by decide⟩

/-- C15, amended: when `USB_GET_COMPLETED` reaps a record that is not marked
cancelled and whose transfer finished with normal completion (the byte count
of the transfer within `u_int32_t`, the submitted `ucr_actlen` of a bulk
record non-negative and within `int`), the call returns 0 and the `ucr_actlen`
handed back is the minimum of the declared length and the byte count of the
transfer, for reads and for writes; the status handed back is normal
completion, except that it is `USBD_IOERROR` when the request is a read, that
minimum is not zero and the user buffer of that many bytes cannot be
accessed. -/
theorem reap_actlen_min (k : Kernel) (endpt b : Nat) (req : usb_ctl_request) (flag : Nat)
    (env : submit_env) (h : reaps k endpt b)
    (hs : (k.kmem b).ucr_status ≠ USBD_CANCELLED)
    (hx : (k.xfers (k.kmem b).xfer).status = USBD_NORMAL_COMPLETION)
    (hr : (k.xfers (k.kmem b).xfer).actlen < 4294967296)
    (hl : endpt ≠ USB_CONTROL_ENDPOINT →
      0 ≤ (k.kmem b).ucr_actlen ∧ (k.kmem b).ucr_actlen < 2147483648) :
    (ugen_do_ioctl k endpt .USB_GET_COMPLETED req flag env).1 = 0 ∧
    (reaped_request k endpt req flag env).ucr_actlen =
      min (declared_length k endpt b) ((k.xfers (k.kmem b).xfer).actlen : Int) ∧
    (reaped_request k endpt req flag env).ucr_status =
      if read_request k endpt b = true ∧
          min (declared_length k endpt b) ((k.xfers (k.kmem b).xfer).actlen : Int) ≠ 0 ∧
          user_range_ok k.umem (k.kmem b).ucr_data
            (min (declared_length k endpt b)
              ((k.xfers (k.kmem b).xfer).actlen : Int)).toNat = false
      then USBD_IOERROR else USBD_NORMAL_COMPLETION := by
  obtain ⟨r1, _, r3⟩ := reap_result k endpt b req flag env h hs
  obtain ⟨d0, d1⟩ := declared_length_range k endpt b hl
  obtain ⟨c1, c2, c3⟩ := r3 hx
  rw [clamp_len_min _ _ d0 d1 hr] at c1 c2 c3
  have hm0 : 0 ≤ min (declared_length k endpt b) ((k.xfers (k.kmem b).xfer).actlen : Int) := by
    omega
  rw [to_size_t_of_nonneg _ hm0 (by omega)] at c2 c3
  refine ⟨r1, ?_⟩
  unfold reaped_request
  by_cases hn : min (declared_length k endpt b) ((k.xfers (k.kmem b).xfer).actlen : Int) ≠ 0 ∧
      read_request k endpt b = true
  · rcases uiomove_read_cases k.umem (k.xfers (k.kmem b).xfer).dmabuf (k.kmem b).ucr_data
      (min (declared_length k endpt b) ((k.xfers (k.kmem b).xfer).actlen : Int)).toNat with
      ⟨u1, u2⟩ | ⟨u1, u2⟩
    · rw [(c2 hn.1 hn.2 _ u2).1]
      exact ⟨rfl, by simp [u1]⟩
    · rw [(c3 hn.1 hn.2 _ u2).1]
      exact ⟨rfl, by rw [if_pos ⟨hn.2, hn.1, u1⟩]⟩
  · rw [(c1 hn).1]
    refine ⟨rfl, ?_⟩
    rw [if_neg]
    intro hc
    exact hn ⟨hc.2.1, hc.1⟩

/-- C15, amended, on an instance: a bulk read of four bytes on endpoint 1
whose transfer finished normally after three bytes is handed back with
`ucr_actlen` 3 and status normal completion. -/
theorem reap_actlen_min_witness :
    reaps (kernel_bulk_finished USBD_NORMAL_COMPLETION 3 [9, 8, 7, 0]) 1 1 ∧
    (reaped_request (kernel_bulk_finished USBD_NORMAL_COMPLETION 3 [9, 8, 7, 0]) 1
      urb_get_status 0 (env_ok 0 0)).ucr_actlen =
      min (declared_length (kernel_bulk_finished USBD_NORMAL_COMPLETION 3 [9, 8, 7, 0]) 1 1)
        (((kernel_bulk_finished USBD_NORMAL_COMPLETION 3 [9, 8, 7, 0]).xfers
          ((kernel_bulk_finished USBD_NORMAL_COMPLETION 3 [9, 8, 7, 0]).kmem 1).xfer).actlen
            : Int) ∧
    (3 : Int) = min (declared_length (kernel_bulk_finished USBD_NORMAL_COMPLETION 3
      [9, 8, 7, 0]) 1 1)
        (((kernel_bulk_finished USBD_NORMAL_COMPLETION 3 [9, 8, 7, 0]).xfers
          ((kernel_bulk_finished USBD_NORMAL_COMPLETION 3 [9, 8, 7, 0]).kmem 1).xfer).actlen
            : Int) :=
  ⟨⟨by decide, by decide, Or.inr ⟨UE_BULK, by decide, by decide⟩⟩,
   (reap_actlen_min (kernel_bulk_finished USBD_NORMAL_COMPLETION 3 [9, 8, 7, 0]) 1 1
      urb_get_status 0 (env_ok 0 0)
      ⟨by decide, by decide, Or.inr ⟨UE_BULK, by decide, by decide⟩⟩
      (by decide) (by decide) (by decide) (fun _ => ⟨by decide, by decide⟩)).2.1,
   by decide⟩

/-- C16: when `USB_GET_COMPLETED` reaps a record that is not marked cancelled
and whose transfer finished with normal completion, then with `n` the
`ucr_actlen` handed back (as the `size_t` the copy is made with): for a read
whose user buffer of `n` bytes can be accessed, byte `i < n` of the user
buffer at the data pointer of the request is byte `i` of the DMA buffer of the
transfer and every user byte outside those `n` is as before; for a write the
user memory is as before.  Within the ranges of the C types (byte count of
the transfer within `u_int32_t`, submitted `ucr_actlen` of a bulk record
non-negative and within `int`) `n` is the `ucr_actlen` handed back itself. -/
theorem reap_copies_out (k : Kernel) (endpt b : Nat) (req : usb_ctl_request) (flag : Nat)
    (env : submit_env) (h : reaps k endpt b)
    (hs : (k.kmem b).ucr_status ≠ USBD_CANCELLED)
    (hx : (k.xfers (k.kmem b).xfer).status = USBD_NORMAL_COMPLETION) :
    (reaped_request k endpt req flag env).ucr_data = (k.kmem b).ucr_data ∧
    (read_request k endpt b = true →
      user_range_ok k.umem (reaped_request k endpt req flag env).ucr_data
        (to_size_t (reaped_request k endpt req flag env).ucr_actlen) = true →
      (reaped_request k endpt req flag env).ucr_status = USBD_NORMAL_COMPLETION ∧
      (∀ i, i < to_size_t (reaped_request k endpt req flag env).ucr_actlen →
        (reaped_state k endpt req flag env).umem
            ((reaped_request k endpt req flag env).ucr_data + i) =
          some ((k.xfers (k.kmem b).xfer).dmabuf.getD i 0)) ∧
      (∀ p, p < (reaped_request k endpt req flag env).ucr_data ∨
          (reaped_request k endpt req flag env).ucr_data +
            to_size_t (reaped_request k endpt req flag env).ucr_actlen ≤ p →
        (reaped_state k endpt req flag env).umem p = k.umem p)) ∧
    (read_request k endpt b = false →
      (reaped_state k endpt req flag env).umem = k.umem) ∧
    ((k.xfers (k.kmem b).xfer).actlen < 4294967296 →
      (endpt ≠ USB_CONTROL_ENDPOINT →
        0 ≤ (k.kmem b).ucr_actlen ∧ (k.kmem b).ucr_actlen < 2147483648) →
      (to_size_t (reaped_request k endpt req flag env).ucr_actlen : Int) =
        (reaped_request k endpt req flag env).ucr_actlen) := by
  obtain ⟨_, _, r3⟩ := reap_result k endpt b req flag env h hs
  obtain ⟨c1, c2, c3⟩ := r3 hx
  unfold reaped_request reaped_state
  have hrange : (k.xfers (k.kmem b).xfer).actlen < 4294967296 →
      (endpt ≠ USB_CONTROL_ENDPOINT →
        0 ≤ (k.kmem b).ucr_actlen ∧ (k.kmem b).ucr_actlen < 2147483648) →
      (to_size_t (clamp_len (declared_length k endpt b) (k.xfers (k.kmem b).xfer).actlen) : Int)
        = clamp_len (declared_length k endpt b) (k.xfers (k.kmem b).xfer).actlen := by
    intro hr hl
    obtain ⟨d0, d1⟩ := declared_length_range k endpt b hl
    rw [clamp_len_min _ _ d0 d1 hr, to_size_t_of_nonneg _ (by omega) (by omega)]
    omega
  generalize clamp_len (declared_length k endpt b) (k.xfers (k.kmem b).xfer).actlen = len
    at c1 c2 c3 hrange
  have hlen : (ugen_do_ioctl k endpt .USB_GET_COMPLETED req flag env).2.1.ucr_actlen = len ∧
      (ugen_do_ioctl k endpt .USB_GET_COMPLETED req flag env).2.1.ucr_data =
        (k.kmem b).ucr_data := by
    by_cases hn : len ≠ 0 ∧ read_request k endpt b = true
    · rcases uiomove_read_cases k.umem (k.xfers (k.kmem b).xfer).dmabuf (k.kmem b).ucr_data
        (to_size_t len) with ⟨_, u2⟩ | ⟨_, u2⟩
      · rw [(c2 hn.1 hn.2 _ u2).1]; exact ⟨rfl, rfl⟩
      · rw [(c3 hn.1 hn.2 _ u2).1]; exact ⟨rfl, rfl⟩
    · rw [(c1 hn).1]; exact ⟨rfl, rfl⟩
  rw [hlen.1, hlen.2]
  refine ⟨rfl, fun hrd hok => ?_, fun hrd => ?_, fun hr hl => ?_⟩
  · by_cases h0 : len = 0
    · have hn : ¬ (len ≠ 0 ∧ read_request k endpt b = true) := fun hc => hc.1 h0
      rw [(c1 hn).2, (c1 hn).1]
      subst h0
      refine ⟨rfl, fun i hi => ?_, fun p _ => rfl⟩
      simp [to_size_t] at hi
    · rcases uiomove_read_cases k.umem (k.xfers (k.kmem b).xfer).dmabuf (k.kmem b).ucr_data
        (to_size_t len) with ⟨_, u2⟩ | ⟨u1, _⟩
      · rw [(c2 h0 hrd _ u2).2, (c2 h0 hrd _ u2).1]
        refine ⟨rfl, fun i hi => ?_, fun p hp => ?_⟩
        · simp [hi]
        · beta_reduce; rw [if_neg]; omega
      · rw [u1] at hok; exact absurd hok (by simp)
  · have hn : ¬ (len ≠ 0 ∧ read_request k endpt b = true) := fun hc => by
      rw [hrd] at hc; exact absurd hc.2 (by simp)
    exact (c1 hn).2
  · exact hrange hr hl

/-- C16 on an instance: the two bytes 1, 0 delivered for `urb_get_status` are at
the user addresses 100 and 101 after the reap, and address 102 is as before. -/
theorem reap_copies_out_witness :
    reaps (kernel_delivered kernel_boot) 0 1 ∧
    read_request (kernel_delivered kernel_boot) 0 1 = true ∧
    (reaped_request (kernel_delivered kernel_boot) 0 urb_get_status 0 (env_ok 0 0)).ucr_actlen
      = 2 ∧
    (reaped_state (kernel_delivered kernel_boot) 0 urb_get_status 0 (env_ok 0 0)).umem 100 =
      some 1 ∧
    (reaped_state (kernel_delivered kernel_boot) 0 urb_get_status 0 (env_ok 0 0)).umem 101 =
      some 0 ∧
    (reaped_state (kernel_delivered kernel_boot) 0 urb_get_status 0 (env_ok 0 0)).umem 102 =
      (kernel_delivered kernel_boot).umem 102 :=
  ⟨⟨by decide, by decide, Or.inl rfl⟩, by decide, by decide,
   ((reap_copies_out (kernel_delivered kernel_boot) 0 1 urb_get_status 0 (env_ok 0 0)
      ⟨by decide, by decide, Or.inl rfl⟩ (by decide) (by decide)).2.1
        (by decide) (by decide)).2.1 0 (by decide),
   ((reap_copies_out (kernel_delivered kernel_boot) 0 1 urb_get_status 0 (env_ok 0 0)
      ⟨by decide, by decide, Or.inl rfl⟩ (by decide) (by decide)).2.1
        (by decide) (by decide)).2.1 1 (by decide),
   ((reap_copies_out (kernel_delivered kernel_boot) 0 1 urb_get_status 0 (env_ok 0 0)
      ⟨by decide, by decide, Or.inl rfl⟩ (by decide) (by decide)).2.1
        (by decide) (by decide)).2.2 102 (Or.inr (by decide))⟩

/-- C17: when `USB_GET_COMPLETED` reaps a record that is not marked cancelled
and whose transfer finished with a status other than normal completion, the
call returns 0, the status handed back is that status of the transfer, the
user memory is as before, the `ucr_actlen` handed back is the one of the
record, which nothing has written since the submission, and so is every other
field. -/
theorem reap_failed_transfer (k : Kernel) (endpt b : Nat) (req : usb_ctl_request)
    (flag : Nat) (env : submit_env) (h : reaps k endpt b)
    (hs : (k.kmem b).ucr_status ≠ USBD_CANCELLED)
    (hx : (k.xfers (k.kmem b).xfer).status ≠ USBD_NORMAL_COMPLETION) :
    (ugen_do_ioctl k endpt .USB_GET_COMPLETED req flag env).1 = 0 ∧
    (reaped_request k endpt req flag env).ucr_status = (k.xfers (k.kmem b).xfer).status ∧
    (reaped_state k endpt req flag env).umem = k.umem ∧
    (reaped_request k endpt req flag env).ucr_actlen = (k.kmem b).ucr_actlen ∧
    reaped_request k endpt req flag env =
      { k.kmem b with ucr_status := (k.xfers (k.kmem b).xfer).status } := by
  obtain ⟨r1, r2, _⟩ := reap_result k endpt b req flag env h hs
  obtain ⟨c1, c2⟩ := r2 hx
  unfold reaped_request reaped_state
  rw [c1]
  exact ⟨r1, rfl, c2, rfl, rfl⟩

/-- C17 on an instance: a bulk read of four bytes on endpoint 1 whose transfer
stalled is handed back with status `USBD_STALLED` and `ucr_actlen` 4, the
submitted value. -/
theorem reap_failed_transfer_witness :
    (ugen_do_ioctl kernel_bulk 1 .USB_DO_REQUEST (urb_bulk_read 4) 0 (env_ok 1 1)).1 = 0 ∧
    reaps (kernel_bulk_finished USBD_STALLED 0 []) 1 1 ∧
    (reaped_request (kernel_bulk_finished USBD_STALLED 0 []) 1 urb_get_status 0
      (env_ok 0 0)).ucr_status = USBD_STALLED ∧
    (reaped_request (kernel_bulk_finished USBD_STALLED 0 []) 1 urb_get_status 0
      (env_ok 0 0)).ucr_actlen = (urb_bulk_read 4).ucr_actlen :=
  ⟨by decide, ⟨by decide, by decide, Or.inr ⟨UE_BULK, by decide, by decide⟩⟩,
   (reap_failed_transfer (kernel_bulk_finished USBD_STALLED 0 []) 1 1 urb_get_status 0
      (env_ok 0 0) ⟨by decide, by decide, Or.inr ⟨UE_BULK, by decide, by decide⟩⟩
      (by decide) (by decide)).2.1,
   (reap_failed_transfer (kernel_bulk_finished USBD_STALLED 0 []) 1 1 urb_get_status 0
      (env_ok 0 0) ⟨by decide, by decide, Or.inr ⟨UE_BULK, by decide, by decide⟩⟩
      (by decide) (by decide)).2.2.2.1⟩

@[simp] theorem umem_release (k : Kernel) (x p : Nat) : (k.release x p).umem = k.umem := rfl

@[simp] theorem xfers_release (k : Kernel) (x p : Nat) : (k.release x p).xfers = k.xfers := rfl

theorem submit_transfer_umem (k : Kernel) (sce : Nat × Nat) (a x : Nat) (env : submit_env) :
    (ugen_submit_transfer k sce a x env).2.umem = k.umem := by
  unfold ugen_submit_transfer
  simp only []
  split_ifs <;> simp

theorem submit_buffer_umem (k : Kernel) (req : usb_ctl_request) (a x : Nat) (len : Int)
    (rd : Bool) (env : submit_env) :
    match ugen_submit_buffer k req a x len rd env with
    | .error r => r.2.umem = k.umem
    | .ok k1 => k1.umem = k.umem := by
  unfold ugen_submit_buffer
  simp only []
  split_ifs
  · simp
  · simp only [umem_emit, umem_set_xfer]
    cases hu : uiomove_write k.umem req.ucr_data len.toNat <;> simp
  · simp
  · simp

theorem submit_ctrl_umem (k : Kernel) (req : usb_ctl_request) (env : submit_env) :
    (ugen_submit_ctrl k req env).2.umem = k.umem := by
  unfold ugen_submit_ctrl
  simp only []
  split_ifs
  · rfl
  · rfl
  · split
    · rfl
    · split
      · rfl
      · rename_i a _ _ x _
        have hb := submit_buffer_umem
          (((k.emit (.malloc a)).store a req).emit (.usbd_alloc_xfer x)) req a x
          ((UGETW req.ucr_request.wLength : Nat) : Int)
          (decide (req.ucr_request.bmRequestType &&& UT_READ ≠ 0)) env
        split
        · rename_i r hr
          rw [hr] at hb
          simpa using hb
        · rename_i k1 hk
          rw [hk] at hb
          rw [submit_transfer_umem]
          simpa using hb

theorem submit_bulk_umem (k : Kernel) (req : usb_ctl_request) (env : submit_env) :
    (ugen_submit_bulk k req env).2.umem = k.umem := by
  unfold ugen_submit_bulk
  simp only []
  split_ifs
  · rfl
  · split
    · rfl
    · split
      · rfl
      · rename_i a _ _ x _
        have hb := submit_buffer_umem
          (((k.emit (.malloc a)).store a req).emit (.usbd_alloc_xfer x)) req a x
          req.ucr_actlen (decide (req.ucr_read ≠ 0)) env
        split
        · rename_i r hr
          rw [hr] at hb
          simpa using hb
        · rename_i k1 hk
          rw [hk] at hb
          rw [submit_transfer_umem]
          simpa using hb

theorem do_request_umem (k : Kernel) (endpt : Nat) (req : usb_ctl_request) (flag : Nat)
    (env : submit_env) : (ugen_do_request k endpt req flag env).2.2.umem = k.umem := by
  unfold ugen_do_request
  simp only [ite_error]
  split_ifs
  · rfl
  · exact submit_ctrl_umem _ _ _
  · split
    · rfl
    · split_ifs
      · rfl
      · exact submit_bulk_umem _ _ _
      · rfl

theorem callback_umem (k : Kernel) (x p : Nat) (s : usbd_status) :
    (ugen_async_callback k x p s).umem = k.umem := by
  unfold ugen_async_callback
  by_cases hs : s = USBD_CANCELLED <;> simp [hs]

theorem callback_xfers (k : Kernel) (x p : Nat) (s : usbd_status) :
    (ugen_async_callback k x p s).xfers = k.xfers := by
  unfold ugen_async_callback
  by_cases hs : s = USBD_CANCELLED <;> simp [hs]

/-- A reap of a record marked cancelled succeeds, hands the record back as it
is and leaves the user memory alone. -/
theorem reap_cancelled (k : Kernel) (endpt b : Nat) (req : usb_ctl_request) (flag : Nat)
    (env : submit_env) (h : reaps k endpt b)
    (hs : (k.kmem b).ucr_status = USBD_CANCELLED) :
    (ugen_do_ioctl k endpt .USB_GET_COMPLETED req flag env).1 = 0 ∧
    (ugen_do_ioctl k endpt .USB_GET_COMPLETED req flag env).2.1 = k.kmem b ∧
    (ugen_do_ioctl k endpt .USB_GET_COMPLETED req flag env).2.2.umem = k.umem := by
  obtain ⟨K0, h1, _, h3, _, _, hcase⟩ := get_completed_reaps k endpt b req flag env h
  have hs0 : (K0.kmem b).ucr_status = USBD_CANCELLED := by rw [h1]; exact hs
  rcases hcase with ⟨_, hR⟩ | ⟨_, hR⟩
  · rw [hR]
    refine ⟨rfl, ?_, ?_⟩
    · show (ugen_complete_ctrl K0 b).2.kmem b = k.kmem b
      rw [complete_ctrl_cancelled K0 b hs0, h1]
    · simp [ugen_complete_ctrl, hs0, h3]
  · rw [hR]
    refine ⟨rfl, ?_, ?_⟩
    · show (ugen_complete_bulk K0 b).2.kmem b = k.kmem b
      rw [complete_bulk_cancelled K0 b hs0, h1]
    · simp [ugen_complete_bulk, hs0, h3]

/-- C18, counterexample: a bulk read of four bytes is accepted on endpoint 1
and cancelled before any completion; `USB_GET_COMPLETED` hands it back with
status cancelled but with `ucr_actlen` 4, the length it was submitted with,
not 0. -/
theorem cancelled_bulk_actlen_counterexample :
    (ugen_do_ioctl kernel_bulk 1 .USB_DO_REQUEST (urb_bulk_read 4) 0 (env_ok 1 1)).1 = 0 ∧
    (cancel_race (ugen_do_ioctl kernel_bulk 1 .USB_DO_REQUEST (urb_bulk_read 4) 0
      (env_ok 1 1)).2.2 1 1 (urb_bulk_read 4) 0 (env_ok 0 0) none).1 = 0 ∧
    (ugen_do_ioctl kernel_bulk_cancelled 1 .USB_GET_COMPLETED urb_get_status 0
      (env_ok 0 0)).1 = 0 ∧
    (reaped_request kernel_bulk_cancelled 1 urb_get_status 0 (env_ok 0 0)).ucr_status =
      USBD_CANCELLED ∧
    (reaped_request kernel_bulk_cancelled 1 urb_get_status 0 (env_ok 0 0)).ucr_context =
      (urb_bulk_read 4).ucr_context ∧
    (reaped_request kernel_bulk_cancelled 1 urb_get_status 0 (env_ok 0 0)).ucr_actlen = 4 ∧
    (reaped_request kernel_bulk_cancelled 1 urb_get_status 0 (env_ok 0 0)).ucr_actlen ≠ 0 := by
  decide

/-- C18, amended: a request accepted by `USB_DO_REQUEST` (record at address
`a`; in particular a bulk request of any length) and then cancelled by its
context, before its completion (`order = none`, the callback fires with
`USBD_CANCELLED`) or after it, is handed back by the `USB_GET_COMPLETED` that
follows the reaps of the records completed before it with status cancelled and
with the `ucr_actlen` it was submitted with, not with 0; neither the submission
and the cancel nor that reap write to the user memory. -/
theorem cancelled_reap_keeps_actlen (k : Kernel) (endpt : Nat) (req : usb_ctl_request)
    (flag : Nat) (env : submit_env) (a : Nat) (order : Option usbd_status)
    (creq : usb_ctl_request) (flagc : Nat) (envc : submit_env)
    (r : usb_ctl_request) (flagr : Nat) (envr : submit_env)
    (hsub : (ugen_do_ioctl k endpt .USB_DO_REQUEST req flag env).1 = 0)
    (ha : env.kreq = some a)
    (hctx : creq.ucr_context = req.ucr_context)
    (hfind : cancel_finds (ugen_do_ioctl k endpt .USB_DO_REQUEST req flag env).2.2 endpt a
      req.ucr_context order) :
    (cancel_race (ugen_do_ioctl k endpt .USB_DO_REQUEST req flag env).2.2 endpt a creq flagc envc
      order).1 = 0 ∧
    (cancel_race (ugen_do_ioctl k endpt .USB_DO_REQUEST req flag env).2.2 endpt a creq flagc envc
      order).2.umem = k.umem ∧
    (ugen_do_ioctl (reap_n endpt r flagr envr (k.sce endpt IN).complete_queue.length
      (cancel_race (ugen_do_ioctl k endpt .USB_DO_REQUEST req flag env).2.2 endpt a creq flagc
        envc order).2).2 endpt .USB_GET_COMPLETED r flagr envr).1 = 0 ∧
    (reaped_request (reap_n endpt r flagr envr (k.sce endpt IN).complete_queue.length
      (cancel_race (ugen_do_ioctl k endpt .USB_DO_REQUEST req flag env).2.2 endpt a creq flagc
        envc order).2).2 endpt r flagr envr).ucr_status = USBD_CANCELLED ∧
    (reaped_request (reap_n endpt r flagr envr (k.sce endpt IN).complete_queue.length
      (cancel_race (ugen_do_ioctl k endpt .USB_DO_REQUEST req flag env).2.2 endpt a creq flagc
        envc order).2).2 endpt r flagr envr).ucr_context = req.ucr_context ∧
    (reaped_request (reap_n endpt r flagr envr (k.sce endpt IN).complete_queue.length
      (cancel_race (ugen_do_ioctl k endpt .USB_DO_REQUEST req flag env).2.2 endpt a creq flagc
        envc order).2).2 endpt r flagr envr).ucr_actlen = req.ucr_actlen ∧
    (reaped_state (reap_n endpt r flagr envr (k.sce endpt IN).complete_queue.length
      (cancel_race (ugen_do_ioctl k endpt .USB_DO_REQUEST req flag env).2.2 endpt a creq flagc
        envc order).2).2 endpt r flagr envr).umem =
      (reap_n endpt r flagr envr (k.sce endpt IN).complete_queue.length
        (cancel_race (ugen_do_ioctl k endpt .USB_DO_REQUEST req flag env).2.2 endpt a creq flagc
          envc order).2).2.umem := by
  obtain ⟨h1, h2, h3, h4, x, hx, h5⟩ :=
    race_after_submit k endpt req flag env a order creq flagc envc hsub ha hctx hfind
  have hum : (cancel_race (ugen_do_ioctl k endpt .USB_DO_REQUEST req flag env).2.2 endpt a creq
      flagc envc order).2.umem = k.umem := by
    have hd : k.sc.dying = false := by
      by_contra hd
      rw [do_ioctl_dying _ _ _ _ _ _ (by simpa using hd)] at hsub
      simp at hsub
    have h0 : (ugen_do_ioctl k endpt .USB_DO_REQUEST req flag env).2.2.umem = k.umem := by
      rw [do_ioctl_request _ _ _ _ _ hd]; exact do_request_umem _ _ _ _ _
    cases order with
    | none =>
      simp only [cancel_race]
      rw [callback_umem]
      generalize ugen_do_ioctl k endpt .USB_DO_REQUEST req flag env = R at h0 ⊢
      unfold ugen_do_ioctl ugen_cancel
      simp only []
      split_ifs
      · exact h0
      · split
        · split <;> simpa using h0
        · simpa using h0
    | some s =>
      simp only [cancel_race]
      generalize ugen_do_ioctl k endpt .USB_DO_REQUEST req flag env = R at h0 ⊢
      have hc := callback_umem R.2.2 (R.2.2.kmem a).xfer a s
      generalize ugen_async_callback R.2.2 (R.2.2.kmem a).xfer a s = C at hc ⊢
      unfold ugen_do_ioctl ugen_cancel
      simp only []
      split_ifs
      · rw [hc, h0]
      · split
        · split <;> simp [hc, h0]
        · simp [hc, h0]
  obtain ⟨_, i2, i3, i4, i5⟩ := reap_n_drain endpt r flagr envr a _ (by rw [h5])
    (k.sce endpt IN).complete_queue [a] _ h2 h3 h4 rfl
  obtain ⟨j1, j2, j3⟩ := reap_cancelled _ endpt a r flagr envr
    ⟨i2, by rw [i4]; rfl, i3⟩ (by rw [i5, h5])
  unfold reaped_request reaped_state
  refine ⟨h1, hum, j1, ?_, ?_, ?_, j3⟩
  · rw [j2, i5, h5]
  · rw [j2, i5, h5]
  · rw [j2, i5, h5]

/-- C18, amended, on an instance: the cancelled bulk read of four bytes comes
back with status cancelled and `ucr_actlen` 4. -/
theorem cancelled_reap_keeps_actlen_witness :
    (ugen_do_ioctl kernel_bulk 1 .USB_DO_REQUEST (urb_bulk_read 4) 0 (env_ok 1 1)).1 = 0 ∧
    (reaped_request (reap_n 1 urb_get_status 0 (env_ok 0 0)
      (kernel_bulk.sce 1 IN).complete_queue.length
      (cancel_race (ugen_do_ioctl kernel_bulk 1 .USB_DO_REQUEST (urb_bulk_read 4) 0
        (env_ok 1 1)).2.2 1 1 (urb_bulk_read 4) 0 (env_ok 0 0) none).2).2 1 urb_get_status 0
      (env_ok 0 0)).ucr_actlen = (urb_bulk_read 4).ucr_actlen :=
  ⟨by decide,
   (cancelled_reap_keeps_actlen kernel_bulk 1 (urb_bulk_read 4) 0 (env_ok 1 1) 1 none
      (urb_bulk_read 4) 0 (env_ok 0 0) urb_get_status 0 (env_ok 0 0)
      (by decide) rfl rfl (by simp only [cancel_finds]; decide)).2.2.2.2.2.1⟩

/-- C19, counterexample: in a kernel built with `DIAGNOSTIC`, on a live device
whose endpoint 1 has a bulk descriptor in the IN slot but no open pipe there,
`ugenpoll` with an empty complete queue returns `POLLERR`, not 0. -/
theorem poll_diagnostic_counterexample :
    kernel_bulk_closed.sc.dying = false ∧
    (kernel_bulk_closed.sce 1 IN).edesc = some UE_BULK ∧
    UE_BULK &&& UE_XFERTYPE = UE_BULK ∧
    (kernel_bulk_closed.sce 1 IN).complete_queue = [] ∧
    ugenpoll true kernel_bulk_closed 1 (POLLIN ||| POLLRDNORM) false = some (POLLERR, false) ∧
    POLLERR ≠ 0 := by
  decide

/-- C19, amended: for a device that is not dying, on the control endpoint or
on an endpoint whose IN descriptor is of bulk type and, in a kernel built with
`DIAGNOSTIC`, whose IN pipe is open, `ugenpoll` returns `events & (POLLIN |
POLLRDNORM)` if the complete queue of the endpoint is not empty and 0 if it is
empty (it then calls `selrecord` if one of the two events was asked for); the
result is the same whatever the submit queue holds. -/
theorem poll_reports_complete_queue (diagnostic : Bool) (k : Kernel) (endpt events : Nat)
    (ring_ready : Bool) (hd : k.sc.dying = false) (hok : async_endpoint k endpt)
    (hp : diagnostic = true → endpt ≠ USB_CONTROL_ENDPOINT → (k.sce endpt IN).pipeh ≠ none) :
    ugenpoll diagnostic k endpt events ring_ready =
      some (if (k.sce endpt IN).complete_queue ≠ [] then events &&& (POLLIN ||| POLLRDNORM)
            else 0,
            decide (events &&& (POLLIN ||| POLLRDNORM) ≠ 0 ∧
              (k.sce endpt IN).complete_queue = [])) ∧
    ∀ q, ugenpoll diagnostic
        (k.set_sce endpt IN { k.sce endpt IN with submit_queue := q }) endpt events ring_ready =
      ugenpoll diagnostic k endpt events ring_ready := by
  have key : ∀ k : Kernel, k.sc.dying = false → async_endpoint k endpt →
      (diagnostic = true → endpt ≠ USB_CONTROL_ENDPOINT → (k.sce endpt IN).pipeh ≠ none) →
      ugenpoll diagnostic k endpt events ring_ready =
        some (if (k.sce endpt IN).complete_queue ≠ [] then events &&& (POLLIN ||| POLLRDNORM)
              else 0,
              decide (events &&& (POLLIN ||| POLLRDNORM) ≠ 0 ∧
                (k.sce endpt IN).complete_queue = [])) := by
    intro k hd hok hp
    have hpr : poll_read events (!TAILQ_EMPTY (k.sce endpt IN).complete_queue) =
        (if (k.sce endpt IN).complete_queue ≠ [] then events &&& (POLLIN ||| POLLRDNORM)
         else 0,
         decide (events &&& (POLLIN ||| POLLRDNORM) ≠ 0 ∧
           (k.sce endpt IN).complete_queue = [])) := by
      unfold poll_read TAILQ_EMPTY
      cases hq : (k.sce endpt IN).complete_queue with
      | nil => by_cases he : events &&& (POLLIN ||| POLLRDNORM) = 0 <;> simp [he]
      | cons b l => by_cases he : events &&& (POLLIN ||| POLLRDNORM) = 0 <;> simp [he]
    unfold ugenpoll
    simp only []
    rw [if_neg (by simp [hd])]
    by_cases h0 : endpt = USB_CONTROL_ENDPOINT
    · rw [if_neg (fun hc => hc.2.1 h0), if_neg (fun hc => hc.2.1 h0), if_pos h0, hpr]
    · rcases hok with h | ⟨attr, hattr, hbulk⟩
      · exact absurd h h0
      · rw [if_neg (fun hc => by rw [hattr] at hc; exact absurd hc.2.2 (by simp)),
          if_neg (fun hc => hp hc.1 h0 hc.2.2), if_neg h0]
        simp only [hattr]
        rw [if_neg (by rw [hbulk]; decide), if_neg (by rw [hbulk]; decide), if_pos hbulk, hpr]
  refine ⟨key k hd hok hp, fun q => ?_⟩
  rw [key k hd hok hp, key _ (by simpa using hd)
    ((async_endpoint_congr _ _ _ (by simp)).2 hok) (by simpa using hp)]
  simp

/-- C19, amended, on an instance: in a kernel built with `DIAGNOSTIC`, with a
finished bulk read on the complete queue of endpoint 1 `ugenpoll` reports the
node readable, and with all queues empty it returns 0. -/
theorem poll_reports_complete_queue_witness :
    (kernel_bulk_finished USBD_NORMAL_COMPLETION 3 [9, 8, 7, 0]).sc.dying = false ∧
    ((kernel_bulk_finished USBD_NORMAL_COMPLETION 3 [9, 8, 7, 0]).sce 1 IN).pipeh ≠ none ∧
    ugenpoll true (kernel_bulk_finished USBD_NORMAL_COMPLETION 3 [9, 8, 7, 0]) 1
      (POLLIN ||| POLLRDNORM) false = some (POLLIN ||| POLLRDNORM, false) ∧
    ugenpoll true kernel_bulk 1 (POLLIN ||| POLLRDNORM) false = some (0, true) :=
  ⟨by decide, by decide,
   (poll_reports_complete_queue true (kernel_bulk_finished USBD_NORMAL_COMPLETION 3
      [9, 8, 7, 0]) 1 (POLLIN ||| POLLRDNORM) false
      (by decide) (Or.inr ⟨UE_BULK, by decide, by decide⟩) (fun _ _ => by decide)).1,
   (poll_reports_complete_queue true kernel_bulk 1 (POLLIN ||| POLLRDNORM) false
      (by decide) (Or.inr ⟨UE_BULK, by decide, by decide⟩) (fun _ _ => by decide)).1⟩

/-- The state `control_delivered` reaches from a state with empty control
queues when the submission is accepted: the record is alone on the complete
queue, its transfer carries the outcome, and the user memory is untouched. -/
theorem control_delivered_state (k : Kernel) (req : usb_ctl_request) (flag : Nat)
    (env : submit_env) (x n : Nat) (buf : List Nat)
    (hs : (k.sce USB_CONTROL_ENDPOINT IN).submit_queue = [])
    (hc : (k.sce USB_CONTROL_ENDPOINT IN).complete_queue = [])
    (hsub : (ugen_do_ioctl k USB_CONTROL_ENDPOINT .USB_DO_REQUEST req flag env).1 = 0)
    (hx : env.xfer = some x) :
    ∃ a, (control_delivered k req flag env x n buf).sc.dying = false ∧
      ((control_delivered k req flag env x n buf).sce USB_CONTROL_ENDPOINT IN).submit_queue
        = [] ∧
      ((control_delivered k req flag env x n buf).sce USB_CONTROL_ENDPOINT IN).complete_queue
        = [a] ∧
      (control_delivered k req flag env x n buf).kmem a =
        { req with ucr_sce := (USB_CONTROL_ENDPOINT, IN), xfer := x } ∧
      ((control_delivered k req flag env x n buf).xfers x).status = USBD_NORMAL_COMPLETION ∧
      ((control_delivered k req flag env x n buf).xfers x).actlen = n ∧
      ((control_delivered k req flag env x n buf).xfers x).dmabuf = buf ∧
      (control_delivered k req flag env x n buf).umem = k.umem := by
  have hd : k.sc.dying = false := by
    by_contra hd
    rw [do_ioctl_dying _ _ _ _ _ _ (by simpa using hd)] at hsub
    simp at hsub
  unfold control_delivered
  rw [do_ioctl_request _ _ _ _ _ hd] at hsub ⊢
  have hum := do_request_umem k USB_CONTROL_ENDPOINT req flag env
  rcases do_request_cases k USB_CONTROL_ENDPOINT req flag env with
    ⟨h1, _⟩ | ⟨a, x', _, hx', _, _, h2, h3, h4, h5, _, _⟩
  · exact absurd hsub h1
  · obtain rfl : x' = x := by rw [hx] at hx'; exact (Option.some.inj hx').symm
    generalize ugen_do_request k USB_CONTROL_ENDPOINT req flag env = R at h2 h3 h4 h5 hum ⊢
    refine ⟨a, ?_, ?_, ?_, ?_, ?_, ?_, ?_, ?_⟩
    · unfold usb_transfer_complete
      simp only []
      rw [callback_dying]; simp [h4, hd]
    · unfold usb_transfer_complete
      simp only []
      rw [callback_sce]
      simp [h5, h2, h3, hs]
    · unfold usb_transfer_complete
      simp only []
      rw [callback_sce]
      simp [h5, h2, h3, hc]
    · unfold usb_transfer_complete
      simp only []
      rw [callback_kmem]
      simp [h2]
    · unfold usb_transfer_complete
      simp only []
      rw [callback_xfers]; simp
    · unfold usb_transfer_complete
      simp only []
      rw [callback_xfers]; simp
    · unfold usb_transfer_complete
      simp only []
      rw [callback_xfers]; simp
    · unfold usb_transfer_complete
      simp only []
      rw [callback_umem]; simpa using hum

/-- C20, counterexample: `urb_get_status`, the read of two bytes of the test
program, is accepted on the control endpoint with empty queues for a process
whose buffer is not mapped; the device delivers two bytes with normal
completion and `ugenpoll` reports the node readable, but the
`USB_GET_COMPLETED` that follows hands back status `USBD_IOERROR`, not normal
completion, and the user buffer does not hold the delivered bytes. -/
theorem async_control_counterexample :
    (kernel_unmapped.sce USB_CONTROL_ENDPOINT IN).submit_queue = [] ∧
    (kernel_unmapped.sce USB_CONTROL_ENDPOINT IN).complete_queue = [] ∧
    urb_get_status.ucr_request.bmRequestType &&& UT_READ ≠ 0 ∧
    (ugen_do_ioctl kernel_unmapped USB_CONTROL_ENDPOINT .USB_DO_REQUEST urb_get_status FWRITE
      (env_ok 1 1)).1 = 0 ∧
    urb_get_status.ucr_status ≠ USBD_CANCELLED ∧
    ugenpoll false (control_delivered kernel_unmapped urb_get_status FWRITE (env_ok 1 1) 1 2
      [1, 0]) USB_CONTROL_ENDPOINT (POLLIN ||| POLLRDNORM) false =
        some (POLLIN ||| POLLRDNORM, false) ∧
    (ugen_do_ioctl (control_delivered kernel_unmapped urb_get_status FWRITE (env_ok 1 1) 1 2
      [1, 0]) USB_CONTROL_ENDPOINT .USB_GET_COMPLETED urb_get_status 0 (env_ok 0 0)).1 = 0 ∧
    (reaped_request (control_delivered kernel_unmapped urb_get_status FWRITE (env_ok 1 1) 1 2
      [1, 0]) USB_CONTROL_ENDPOINT urb_get_status 0 (env_ok 0 0)).ucr_status = USBD_IOERROR ∧
    (reaped_request (control_delivered kernel_unmapped urb_get_status FWRITE (env_ok 1 1) 1 2
      [1, 0]) USB_CONTROL_ENDPOINT urb_get_status 0 (env_ok 0 0)).ucr_status ≠
        USBD_NORMAL_COMPLETION ∧
    (reaped_state (control_delivered kernel_unmapped urb_get_status FWRITE (env_ok 1 1) 1 2
      [1, 0]) USB_CONTROL_ENDPOINT urb_get_status 0 (env_ok 0 0)).umem
        urb_get_status.ucr_data ≠ some 1 := by
  decide

/-- C20, amended: for every control read request accepted by `USB_DO_REQUEST`
on a control endpoint with empty queues whose user buffer of min(`wLength`,
bytes delivered) bytes can be accessed, once the host controller has finished
the transfer with normal completion after `n` bytes (a `u_int32_t`) and the
callback has fired, `ugenpoll` with `POLLIN | POLLRDNORM` reports the node
readable, and the next `USB_GET_COMPLETED` returns 0 and hands back the
submitted context, status normal completion and `ucr_actlen` min(`wLength`,
`n`), with the first min(`wLength`, `n`) bytes of the DMA buffer in the user
buffer; both queues of the control endpoint are empty afterwards. -/
theorem async_control_scenario (diagnostic : Bool) (k : Kernel) (req : usb_ctl_request)
    (flag : Nat) (env : submit_env) (x n : Nat) (buf : List Nat) (ring_ready : Bool)
    (r : usb_ctl_request) (flagr : Nat) (envr : submit_env)
    (hs : (k.sce USB_CONTROL_ENDPOINT IN).submit_queue = [])
    (hc : (k.sce USB_CONTROL_ENDPOINT IN).complete_queue = [])
    (hread : req.ucr_request.bmRequestType &&& UT_READ ≠ 0)
    (hst : req.ucr_status ≠ USBD_CANCELLED)
    (hsub : (ugen_do_ioctl k USB_CONTROL_ENDPOINT .USB_DO_REQUEST req flag env).1 = 0)
    (hx : env.xfer = some x)
    (hn : n < 4294967296)
    (hbuf : user_range_ok k.umem req.ucr_data (min (UGETW req.ucr_request.wLength) n) = true) :
    ugenpoll diagnostic (control_delivered k req flag env x n buf) USB_CONTROL_ENDPOINT
      (POLLIN ||| POLLRDNORM) ring_ready = some (POLLIN ||| POLLRDNORM, false) ∧
    (ugen_do_ioctl (control_delivered k req flag env x n buf) USB_CONTROL_ENDPOINT
      .USB_GET_COMPLETED r flagr envr).1 = 0 ∧
    (reaped_request (control_delivered k req flag env x n buf) USB_CONTROL_ENDPOINT r flagr
      envr).ucr_context = req.ucr_context ∧
    (reaped_request (control_delivered k req flag env x n buf) USB_CONTROL_ENDPOINT r flagr
      envr).ucr_status = USBD_NORMAL_COMPLETION ∧
    (reaped_request (control_delivered k req flag env x n buf) USB_CONTROL_ENDPOINT r flagr
      envr).ucr_actlen = ((min (UGETW req.ucr_request.wLength) n : Nat) : Int) ∧
    (∀ i, i < min (UGETW req.ucr_request.wLength) n →
      (reaped_state (control_delivered k req flag env x n buf) USB_CONTROL_ENDPOINT r flagr
        envr).umem (req.ucr_data + i) = some (buf.getD i 0)) ∧
    (∀ p, p < req.ucr_data ∨ req.ucr_data + min (UGETW req.ucr_request.wLength) n ≤ p →
      (reaped_state (control_delivered k req flag env x n buf) USB_CONTROL_ENDPOINT r flagr
        envr).umem p = k.umem p) ∧
    ((reaped_state (control_delivered k req flag env x n buf) USB_CONTROL_ENDPOINT r flagr
      envr).sce USB_CONTROL_ENDPOINT IN).submit_queue = [] ∧
    ((reaped_state (control_delivered k req flag env x n buf) USB_CONTROL_ENDPOINT r flagr
      envr).sce USB_CONTROL_ENDPOINT IN).complete_queue = [] := by
  obtain ⟨a, g1, g2, g3, g4, g5, g6, g7, g8⟩ :=
    control_delivered_state k req flag env x n buf hs hc hsub hx
  generalize control_delivered k req flag env x n buf = K at g1 g2 g3 g4 g5 g6 g7 g8 ⊢
  have hreaps : reaps K USB_CONTROL_ENDPOINT a := ⟨g1, by rw [g3]; rfl, Or.inl rfl⟩
  have hxa : (K.kmem a).xfer = x := by rw [g4]
  have hns : (K.kmem a).ucr_status ≠ USBD_CANCELLED := by rw [g4]; exact hst
  have hL := UGETW_lt req.ucr_request.wLength
  have hdl : declared_length K USB_CONTROL_ENDPOINT a =
      ((UGETW req.ucr_request.wLength : Nat) : Int) := by
    simp [declared_length, g4]
  have hrd : read_request K USB_CONTROL_ENDPOINT a = true := by
    simp [read_request, g4, hread]
  have hcl : clamp_len (declared_length K USB_CONTROL_ENDPOINT a) (K.xfers (K.kmem a).xfer).actlen
      = ((min (UGETW req.ucr_request.wLength) n : Nat) : Int) := by
    rw [hxa, g6, hdl, clamp_len_min _ _ (by omega) (by omega) hn]
    omega
  have hsz : to_size_t ((min (UGETW req.ucr_request.wLength) n : Nat) : Int) =
      min (UGETW req.ucr_request.wLength) n := by
    rw [to_size_t_of_nonneg _ (by omega) (by omega)]
    exact Int.toNat_ofNat _
  obtain ⟨r1, _, r3⟩ := reap_result K USB_CONTROL_ENDPOINT a r flagr envr hreaps hns
  obtain ⟨c1, c2, _⟩ := r3 (by rw [hxa, g5])
  rw [hcl] at c1 c2
  rw [hsz, hxa, g7, g8] at c2
  rw [g8] at c1
  have hpoll : ugenpoll diagnostic K USB_CONTROL_ENDPOINT (POLLIN ||| POLLRDNORM) ring_ready =
      some (POLLIN ||| POLLRDNORM, false) := by
    simp [ugenpoll, g1, g3, poll_read, TAILQ_EMPTY]
  have hqs : ((ugen_do_ioctl K USB_CONTROL_ENDPOINT .USB_GET_COMPLETED r flagr envr).2.2.sce
        USB_CONTROL_ENDPOINT IN).submit_queue = [] ∧
      ((ugen_do_ioctl K USB_CONTROL_ENDPOINT .USB_GET_COMPLETED r flagr envr).2.2.sce
        USB_CONTROL_ENDPOINT IN).complete_queue = [] := by
    obtain ⟨K0, _, _, _, _, q5, hcase⟩ :=
      get_completed_reaps K USB_CONTROL_ENDPOINT a r flagr envr hreaps
    rcases hcase with ⟨_, hR⟩ | ⟨h0, _⟩
    · rw [hR]
      simp only [sce_emit]
      rw [sce_of_sc _ _ (complete_ctrl_sc K0 a), q5, if_pos ⟨rfl, rfl⟩]
      simp [g2, g3]
    · exact absurd rfl h0
  unfold reaped_request reaped_state
  have hres : (ugen_do_ioctl K USB_CONTROL_ENDPOINT .USB_GET_COMPLETED r flagr envr).2.1 =
        { K.kmem a with
          ucr_status := USBD_NORMAL_COMPLETION,
          ucr_actlen := ((min (UGETW req.ucr_request.wLength) n : Nat) : Int) } ∧
      (ugen_do_ioctl K USB_CONTROL_ENDPOINT .USB_GET_COMPLETED r flagr envr).2.2.umem =
        fun p => if req.ucr_data ≤ p ∧ p < req.ucr_data + min (UGETW req.ucr_request.wLength) n
          then some (buf.getD (p - req.ucr_data) 0) else k.umem p := by
    by_cases h0 : min (UGETW req.ucr_request.wLength) n = 0
    · have hn0 : ¬ (((min (UGETW req.ucr_request.wLength) n : Nat) : Int) ≠ 0 ∧
          read_request K USB_CONTROL_ENDPOINT a = true) := fun hc => hc.1 (by omega)
      refine ⟨(c1 hn0).1, ?_⟩
      rw [(c1 hn0).2]
      funext p
      rw [if_neg]
      omega
    · rcases uiomove_read_cases k.umem buf (K.kmem a).ucr_data
        (min (UGETW req.ucr_request.wLength) n) with ⟨_, u2⟩ | ⟨u1, _⟩
      · have hc2 := c2 (by omega) hrd _ u2
        refine ⟨hc2.1, ?_⟩
        rw [hc2.2, g4]
      · rw [g4] at u1
        rw [hbuf] at u1
        exact absurd u1 (by simp)
  rw [hres.1, hres.2, g4]
  refine ⟨hpoll, r1, rfl, rfl, rfl, fun i hi => ?_, fun p hp => ?_, hqs.1, hqs.2⟩
  · simp [hi]
  · beta_reduce
    rw [if_neg]
    omega

/-- C20, amended, on the input of the test program: `urb_get_status` on the
freshly opened device, two bytes 1, 0 delivered. -/
theorem async_control_scenario_witness :
    (ugen_do_ioctl kernel_boot USB_CONTROL_ENDPOINT .USB_DO_REQUEST urb_get_status FWRITE
      (env_ok 1 1)).1 = 0 ∧
    user_range_ok kernel_boot.umem urb_get_status.ucr_data
      (min (UGETW urb_get_status.ucr_request.wLength) 2) = true ∧
    ugenpoll false (control_delivered kernel_boot urb_get_status FWRITE (env_ok 1 1) 1 2 [1, 0])
      USB_CONTROL_ENDPOINT (POLLIN ||| POLLRDNORM) false = some (POLLIN ||| POLLRDNORM, false) ∧
    (ugen_do_ioctl (control_delivered kernel_boot urb_get_status FWRITE (env_ok 1 1) 1 2 [1, 0])
      USB_CONTROL_ENDPOINT .USB_GET_COMPLETED urb_get_status 0 (env_ok 0 0)).1 = 0 ∧
    (reaped_request (control_delivered kernel_boot urb_get_status FWRITE (env_ok 1 1) 1 2
      [1, 0]) USB_CONTROL_ENDPOINT urb_get_status 0 (env_ok 0 0)).ucr_status =
        USBD_NORMAL_COMPLETION ∧
    (reaped_request (control_delivered kernel_boot urb_get_status FWRITE (env_ok 1 1) 1 2
      [1, 0]) USB_CONTROL_ENDPOINT urb_get_status 0 (env_ok 0 0)).ucr_actlen = 2 ∧
    (reaped_state (control_delivered kernel_boot urb_get_status FWRITE (env_ok 1 1) 1 2
      [1, 0]) USB_CONTROL_ENDPOINT urb_get_status 0 (env_ok 0 0)).umem 100 = some 1 :=
  ⟨by decide, by decide,
   (async_control_scenario false kernel_boot urb_get_status FWRITE (env_ok 1 1) 1 2 [1, 0]
      false urb_get_status 0 (env_ok 0 0) rfl rfl (by decide) (by decide) (by decide) rfl
      (by decide) (by decide)).1,
   (async_control_scenario false kernel_boot urb_get_status FWRITE (env_ok 1 1) 1 2 [1, 0]
      false urb_get_status 0 (env_ok 0 0) rfl rfl (by decide) (by decide) (by decide) rfl
      (by decide) (by decide)).2.1,
   (async_control_scenario false kernel_boot urb_get_status FWRITE (env_ok 1 1) 1 2 [1, 0]
      false urb_get_status 0 (env_ok 0 0) rfl rfl (by decide) (by decide) (by decide) rfl
      (by decide) (by decide)).2.2.2.1,
   (async_control_scenario false kernel_boot urb_get_status FWRITE (env_ok 1 1) 1 2 [1, 0]
      false urb_get_status 0 (env_ok 0 0) rfl rfl (by decide) (by decide) (by decide) rfl
      (by decide) (by decide)).2.2.2.2.1,
   (async_control_scenario false kernel_boot urb_get_status FWRITE (env_ok 1 1) 1 2 [1, 0]
      false urb_get_status 0 (env_ok 0 0) rfl rfl (by decide) (by decide) (by decide) rfl
      (by decide) (by decide)).2.2.2.2.2.1 0 (by decide)⟩

/-- C23: `_errno_to_libusb` is total and maps the io error to
`LIBUSB_ERROR_IO`, `EACCES` to `LIBUSB_ERROR_ACCESS`, `ENOENT` to
`LIBUSB_ERROR_NO_DEVICE`, `ENOMEM` to `LIBUSB_ERROR_NO_MEM`, `ETIMEDOUT` to
`LIBUSB_ERROR_TIMEOUT` and every other integer, 0, `EINVAL` and `EINTR`
among them, to `LIBUSB_ERROR_OTHER`; no input gives `LIBUSB_SUCCESS`. -/
theorem errno_to_libusb_table :
    _errno_to_libusb ( EIO : Nat) = LIBUSB_ERROR_IO ∧
    _errno_to_libusb (EACCES : Nat) = LIBUSB_ERROR_ACCESS ∧
    _errno_to_libusb (ENOENT : Nat) = LIBUSB_ERROR_NO_DEVICE ∧
    _errno_to_libusb (ENOMEM : Nat) = LIBUSB_ERROR_NO_MEM ∧
    _errno_to_libusb (ETIMEDOUT : Nat) = LIBUSB_ERROR_TIMEOUT ∧
    (∀ err : Int, err ≠ ( EIO : Nat) → err ≠ (EACCES : Nat) → err ≠ (ENOENT : Nat) →
      err ≠ (ENOMEM : Nat) → err ≠ (ETIMEDOUT : Nat) →
      _errno_to_libusb err = LIBUSB_ERROR_OTHER) ∧
    _errno_to_libusb 0 = LIBUSB_ERROR_OTHER ∧
    _errno_to_libusb (EINVAL : Nat) = LIBUSB_ERROR_OTHER ∧
    _errno_to_libusb (EINTR : Nat) = LIBUSB_ERROR_OTHER ∧
    (∀ err : Int, _errno_to_libusb err ≠ LIBUSB_SUCCESS) ∧
    (∀ err : Int, _errno_to_libusb err = LIBUSB_ERROR_IO ∨
      _errno_to_libusb err = LIBUSB_ERROR_ACCESS ∨
      _errno_to_libusb err = LIBUSB_ERROR_NO_DEVICE ∨
      _errno_to_libusb err = LIBUSB_ERROR_NO_MEM ∨
      _errno_to_libusb err = LIBUSB_ERROR_TIMEOUT ∨
      _errno_to_libusb err = LIBUSB_ERROR_OTHER) := by
  refine ⟨by decide, by decide, by decide, by decide, by decide, ?_, by decide, by decide,
    by decide, ?_, ?_⟩
  · intro err h1 h2 h3 h4 h5
    unfold _errno_to_libusb
    rw [if_neg h1, if_neg h2, if_neg h3, if_neg h4, if_neg h5]
  · intro err
    unfold _errno_to_libusb
    split_ifs <;> decide
  · intro err
    unfold _errno_to_libusb
    split_ifs <;> simp

/-- C21: the status of a completion reaped by `obsd_handle_events` is mapped
by `status_switch`: normal completion to `LIBUSB_TRANSFER_COMPLETED`, short
transfer to `LIBUSB_TRANSFER_ERROR`, cancelled (and only cancelled) to
`LIBUSB_TRANSFER_CANCELLED`, stalled to `LIBUSB_TRANSFER_STALL`, every other
status except in-progress (timeout and io error among them) to
`LIBUSB_TRANSFER_ERROR`, and in-progress (and only in-progress) to no status.
In a round of the loop whose `USB_GET_COMPLETED` succeeds, a completion with
no status is handed to neither dispatcher and the loop goes round again (the
next call is the next `USB_GET_COMPLETED`); one mapped to
`LIBUSB_TRANSFER_CANCELLED` is handed to the cancellation dispatcher and every
other one to the completion dispatcher with its mapped status; the round
leaves the loop exactly when the dispatcher returns non-zero. -/
theorem reaped_status_dispatch (env : lib_env) (fd : Int) (endpt flag : Nat)
    (senv : submit_env) (k : Kernel) (req : usb_ctl_request) (L : lib_state)
    (h0 : (ugen_do_ioctl k endpt .USB_GET_COMPLETED req flag senv).1 = 0) :
    status_switch USBD_NORMAL_COMPLETION = some LIBUSB_TRANSFER_COMPLETED ∧
    status_switch USBD_SHORT_XFER = some LIBUSB_TRANSFER_ERROR ∧
    status_switch USBD_CANCELLED = some LIBUSB_TRANSFER_CANCELLED ∧
    status_switch USBD_STALLED = some LIBUSB_TRANSFER_STALL ∧
    status_switch USBD_TIMEOUT = some LIBUSB_TRANSFER_ERROR ∧
    status_switch USBD_IOERROR = some LIBUSB_TRANSFER_ERROR ∧
    status_switch USBD_IN_PROGRESS = none ∧
    (∀ s, s ≠ USBD_NORMAL_COMPLETION → s ≠ USBD_SHORT_XFER → s ≠ USBD_IN_PROGRESS →
      s ≠ USBD_CANCELLED → s ≠ USBD_STALLED → status_switch s = some LIBUSB_TRANSFER_ERROR) ∧
    (∀ s, status_switch s = some LIBUSB_TRANSFER_CANCELLED ↔ s = USBD_CANCELLED) ∧
    (∀ s, status_switch s = none ↔ s = USBD_IN_PROGRESS) ∧
    ((reaped_request k endpt req flag senv).ucr_status = USBD_IN_PROGRESS →
      obsd_reap_round env fd endpt flag senv k req L =
        (none, reaped_state k endpt req flag senv, reaped_request k endpt req flag senv,
          L.log (.ioctl_get_completed fd 0))) ∧
    ((reaped_request k endpt req flag senv).ucr_status = USBD_CANCELLED →
      (obsd_reap_round env fd endpt flag senv k req L).1 =
        (if env.cancellation (L.log (.ioctl_get_completed fd 0)).calls
            (reaped_request k endpt req flag senv).ucr_context ≠ 0
         then some (env.cancellation (L.log (.ioctl_get_completed fd 0)).calls
            (reaped_request k endpt req flag senv).ucr_context)
         else none) ∧
      (obsd_reap_round env fd endpt flag senv k req L).2.2.2.calls =
        L.calls ++ [.ioctl_get_completed fd 0,
          .usbi_handle_transfer_cancellation
            (reaped_request k endpt req flag senv).ucr_context]) ∧
    (∀ code, status_switch (reaped_request k endpt req flag senv).ucr_status = some code →
      code ≠ LIBUSB_TRANSFER_CANCELLED →
      (obsd_reap_round env fd endpt flag senv k req L).1 =
        (if env.completion (L.log (.ioctl_get_completed fd 0)).calls
            (reaped_request k endpt req flag senv).ucr_context code ≠ 0
         then some (env.completion (L.log (.ioctl_get_completed fd 0)).calls
            (reaped_request k endpt req flag senv).ucr_context code)
         else none) ∧
      (obsd_reap_round env fd endpt flag senv k req L).2.2.2.calls =
        L.calls ++ [.ioctl_get_completed fd 0,
          .usbi_handle_transfer_completion
            (reaped_request k endpt req flag senv).ucr_context code]) ∧
    (obsd_reap_round env fd endpt flag senv k req L).2.1 = reaped_state k endpt req flag senv ∧
    (obsd_reap_round env fd endpt flag senv k req L).2.2.1 =
      reaped_request k endpt req flag senv := by
  refine ⟨rfl, rfl, rfl, rfl, rfl, rfl, rfl, ?_, ?_, ?_, ?_, ?_, ?_, ?_, ?_⟩
  · intro s h1 h2 h3 h4 h5
    cases s <;> first | rfl | contradiction
  · intro s
    cases s <;> simp [status_switch]
  · intro s
    cases s <;> simp [status_switch]
  · intro hs
    unfold reaped_request reaped_state at *
    simp only [obsd_reap_round, h0, ne_eq, not_true_eq_false, if_false, hs, status_switch]
    simp
  · intro hs
    unfold reaped_request at *
    have hne : ¬ (USBD_CANCELLED = USBD_NORMAL_COMPLETION) := by decide
    simp only [obsd_reap_round, h0, ne_eq, not_true_eq_false, if_false, hs, status_switch,
      if_neg hne]
    simp only [if_true, lib_state.log]
    split_ifs <;> simp
  · intro code hs hc
    unfold reaped_request at *
    simp only [obsd_reap_round, h0, ne_eq, not_true_eq_false, if_false, hs, if_neg hc]
    by_cases hn : (ugen_do_ioctl k endpt .USB_GET_COMPLETED req flag senv).2.1.ucr_status =
        USBD_NORMAL_COMPLETION
    · simp only [hn, if_true, lib_state.log, lib_state.add_transferred]
      split_ifs <;> simp
    · simp only [hn, if_false, lib_state.log]
      split_ifs <;> simp
  · unfold reaped_state
    simp only [obsd_reap_round, h0, ne_eq, not_true_eq_false, if_false]
    split
    · rfl
    · split_ifs <;> rfl
  · unfold reaped_request
    simp only [obsd_reap_round, h0, ne_eq, not_true_eq_false, if_false]
    split
    · rfl
    · split_ifs <;> rfl

/-- C21 on an instance: a stalled bulk read reaped on descriptor 3 is handed to
the completion dispatcher with `LIBUSB_TRANSFER_STALL`. -/
theorem reaped_status_dispatch_witness :
    (ugen_do_ioctl (kernel_bulk_finished USBD_STALLED 0 []) 1 .USB_GET_COMPLETED
      urb_get_status 0 (env_ok 0 0)).1 = 0 ∧
    (obsd_reap_round lib_env_ok 3 1 0 (env_ok 0 0) (kernel_bulk_finished USBD_STALLED 0 [])
      urb_get_status lib_boot).2.2.2.calls =
        lib_boot.calls ++ [.ioctl_get_completed 3 0,
          .usbi_handle_transfer_completion
            (reaped_request (kernel_bulk_finished USBD_STALLED 0 []) 1 urb_get_status 0
              (env_ok 0 0)).ucr_context LIBUSB_TRANSFER_STALL] :=
  ⟨by decide,
   ((reaped_status_dispatch lib_env_ok 3 1 0 (env_ok 0 0)
      (kernel_bulk_finished USBD_STALLED 0 []) urb_get_status lib_boot
      (by decide)).2.2.2.2.2.2.2.2.2.2.2.2.1 LIBUSB_TRANSFER_STALL (by decide) (by decide)).2⟩

theorem int_add_of_range (a b : Int) (h1 : -2147483648 ≤ a + b) (h2 : a + b < 2147483648) :
    int_add a b = a + b := by
  unfold int_add to_int to_u32
  have h3 : (0 : Int) ≤ (a + b) % 4294967296 := Int.emod_nonneg _ (by decide)
  have h4 : (a + b) % 4294967296 < 4294967296 := Int.emod_lt_of_pos _ (by decide)
  have h5 : (((a + b) % 4294967296).toNat : Int) = (a + b) % 4294967296 := Int.toNat_of_nonneg h3
  have h6 : ((a + b) % 4294967296).toNat % 4294967296 = ((a + b) % 4294967296).toNat := by
    apply Nat.mod_eq_of_lt
    omega
  rw [h6]
  split_ifs with h7
  · omega
  · omega

/-- C22, counterexample: a bulk read of four bytes that stalled is reaped and
handed to the completion dispatcher with its `ucr_actlen` 4, and the
`transferred` count of its transfer (context 5) is 0 as before, not 0 + 4. -/
theorem transferred_count_counterexample :
    (ugen_do_ioctl (kernel_bulk_finished USBD_STALLED 0 []) 1 .USB_GET_COMPLETED
      urb_get_status 0 (env_ok 0 0)).1 = 0 ∧
    (reaped_request (kernel_bulk_finished USBD_STALLED 0 []) 1 urb_get_status 0
      (env_ok 0 0)).ucr_status = USBD_STALLED ∧
    (reaped_request (kernel_bulk_finished USBD_STALLED 0 []) 1 urb_get_status 0
      (env_ok 0 0)).ucr_actlen = 4 ∧
    (reaped_request (kernel_bulk_finished USBD_STALLED 0 []) 1 urb_get_status 0
      (env_ok 0 0)).ucr_context = 5 ∧
    (obsd_reap_round lib_env_ok 3 1 0 (env_ok 0 0) (kernel_bulk_finished USBD_STALLED 0 [])
      urb_get_status lib_boot).2.2.2.calls =
        [.ioctl_get_completed 3 0, .usbi_handle_transfer_completion 5 LIBUSB_TRANSFER_STALL] ∧
    lib_boot.transferred 5 = 0 ∧
    (obsd_reap_round lib_env_ok 3 1 0 (env_ok 0 0) (kernel_bulk_finished USBD_STALLED 0 [])
      urb_get_status lib_boot).2.2.2.transferred 5 = 0 ∧
    (obsd_reap_round lib_env_ok 3 1 0 (env_ok 0 0) (kernel_bulk_finished USBD_STALLED 0 [])
      urb_get_status lib_boot).2.2.2.transferred 5 ≠ lib_boot.transferred 5 + 4 := by
  decide

/-- C22, amended: in a round of the loop of `obsd_handle_events` whose
`USB_GET_COMPLETED` succeeds, the `transferred` count of the transfer named by
the context of the reaped block is, after the dispatch, its previous value
plus the reported `ucr_actlen` (the `int` sum; the exact sum when that is
within `int`) when the status is normal completion, and its previous value
for every other status; the counts of all other transfers are as before. -/
theorem transferred_after_dispatch (env : lib_env) (fd : Int) (endpt flag : Nat)
    (senv : submit_env) (k : Kernel) (req : usb_ctl_request) (L : lib_state)
    (h0 : (ugen_do_ioctl k endpt .USB_GET_COMPLETED req flag senv).1 = 0) :
    ((reaped_request k endpt req flag senv).ucr_status = USBD_NORMAL_COMPLETION →
      (obsd_reap_round env fd endpt flag senv k req L).2.2.2.transferred
          (reaped_request k endpt req flag senv).ucr_context =
        int_add (L.transferred (reaped_request k endpt req flag senv).ucr_context)
          (reaped_request k endpt req flag senv).ucr_actlen ∧
      (-2147483648 ≤ L.transferred (reaped_request k endpt req flag senv).ucr_context +
          (reaped_request k endpt req flag senv).ucr_actlen →
        L.transferred (reaped_request k endpt req flag senv).ucr_context +
          (reaped_request k endpt req flag senv).ucr_actlen < 2147483648 →
        (obsd_reap_round env fd endpt flag senv k req L).2.2.2.transferred
            (reaped_request k endpt req flag senv).ucr_context =
          L.transferred (reaped_request k endpt req flag senv).ucr_context +
            (reaped_request k endpt req flag senv).ucr_actlen)) ∧
    ((reaped_request k endpt req flag senv).ucr_status ≠ USBD_NORMAL_COMPLETION →
      (obsd_reap_round env fd endpt flag senv k req L).2.2.2.transferred = L.transferred) ∧
    (∀ t, t ≠ (reaped_request k endpt req flag senv).ucr_context →
      (obsd_reap_round env fd endpt flag senv k req L).2.2.2.transferred t =
        L.transferred t) := by
  have key : (obsd_reap_round env fd endpt flag senv k req L).2.2.2.transferred =
      if (reaped_request k endpt req flag senv).ucr_status = USBD_NORMAL_COMPLETION then
        fun t => if t = (reaped_request k endpt req flag senv).ucr_context then
          int_add (L.transferred t) (reaped_request k endpt req flag senv).ucr_actlen
          else L.transferred t
      else L.transferred := by
    unfold reaped_request
    simp only [obsd_reap_round, h0, ne_eq, not_true_eq_false, if_false]
    by_cases hn : (ugen_do_ioctl k endpt .USB_GET_COMPLETED req flag senv).2.1.ucr_status =
        USBD_NORMAL_COMPLETION
    · simp only [hn, if_true, status_switch, lib_state.log, lib_state.add_transferred]
      split_ifs <;> rfl
    · simp only [hn, if_false]
      split
      · rfl
      · split_ifs <;> rfl
  rw [key]
  refine ⟨fun hn => ?_, fun hn => ?_, fun t ht => ?_⟩
  · rw [if_pos hn]
    simp only [if_true]
    exact ⟨trivial, fun h1 h2 => int_add_of_range _ _ h1 h2⟩
  · rw [if_neg hn]
  · split_ifs
    · simp [ht]
    · rfl

/-- C22, amended, on an instance: the two bytes of `urb_get_status` reaped
with normal completion are added to the count of transfer 7. -/
theorem transferred_after_dispatch_witness :
    (ugen_do_ioctl (kernel_delivered kernel_boot) 0 .USB_GET_COMPLETED urb_get_status 0
      (env_ok 0 0)).1 = 0 ∧
    (reaped_request (kernel_delivered kernel_boot) 0 urb_get_status 0
      (env_ok 0 0)).ucr_status = USBD_NORMAL_COMPLETION ∧
    (obsd_reap_round lib_env_ok 3 0 0 (env_ok 0 0) (kernel_delivered kernel_boot)
      urb_get_status lib_boot).2.2.2.transferred 7 = 0 + 2 :=
  ⟨by decide, by decide,
   ((transferred_after_dispatch lib_env_ok 3 0 0 (env_ok 0 0) (kernel_delivered kernel_boot)
      urb_get_status lib_boot (by decide)).1 (by decide)).2 (by decide) (by decide)⟩

theorem get_completed_req (k : Kernel) (endpt : Nat) (r1 r2 : usb_ctl_request) :
    (ugen_get_completed k endpt r1).1 = (ugen_get_completed k endpt r2).1 ∧
    (ugen_get_completed k endpt r1).2.2 = (ugen_get_completed k endpt r2).2.2 ∧
    ((ugen_get_completed k endpt r1).1 = 0 →
      (ugen_get_completed k endpt r1).2.1 = (ugen_get_completed k endpt r2).2.1) := by
  unfold ugen_get_completed
  simp only [complete_ctrl_fst, complete_bulk_fst, ne_eq, not_true_eq_false, if_false]
  split
  · simp
  · split_ifs
    · simp
    · split
      · simp
      · split_ifs <;> simp

/-- A round whose `USB_GET_COMPLETED` fails leaves the loop with `err` 0 and
`errno` the error of the ioctl. -/
theorem reap_round_fail (env : lib_env) (fd : Int) (endpt flag : Nat) (senv : submit_env)
    (k : Kernel) (req : usb_ctl_request) (L : lib_state)
    (h : (ugen_do_ioctl k endpt .USB_GET_COMPLETED req flag senv).1 ≠ 0) :
    obsd_reap_round env fd endpt flag senv k req L =
      (some 0, (ugen_do_ioctl k endpt .USB_GET_COMPLETED req flag senv).2.2,
        (ugen_do_ioctl k endpt .USB_GET_COMPLETED req flag senv).2.1,
        { L.log (.ioctl_get_completed fd
            (ugen_do_ioctl k endpt .USB_GET_COMPLETED req flag senv).1) with
          errno := (ugen_do_ioctl k endpt .USB_GET_COMPLETED req flag senv).1 }) := by
  simp only [obsd_reap_round, if_pos h]

/-- A round whose `USB_GET_COMPLETED` succeeds, with dispatchers that return 0,
goes round again having logged the ioctl and the dispatch of the block. -/
theorem reap_round_ok (env : lib_env) (fd : Int) (endpt flag : Nat) (senv : submit_env)
    (k : Kernel) (req : usb_ctl_request) (L : lib_state)
    (hz1 : ∀ c t s, env.completion c t s = 0) (hz2 : ∀ c t, env.cancellation c t = 0)
    (h : (ugen_do_ioctl k endpt .USB_GET_COMPLETED req flag senv).1 = 0) :
    ∃ L1, obsd_reap_round env fd endpt flag senv k req L =
        (none, (ugen_do_ioctl k endpt .USB_GET_COMPLETED req flag senv).2.2,
          (ugen_do_ioctl k endpt .USB_GET_COMPLETED req flag senv).2.1, L1) ∧
      L1.calls = L.calls ++
        round_calls fd (ugen_do_ioctl k endpt .USB_GET_COMPLETED req flag senv).2.1 ∧
      L1.errno = L.errno := by
  simp only [obsd_reap_round, h, ne_eq, not_true_eq_false, if_false, hz1, hz2, round_calls,
    dispatch_of]
  cases hs : status_switch (ugen_do_ioctl k endpt .USB_GET_COMPLETED req flag senv).2.1.ucr_status
    with
  | none =>
    refine ⟨_, rfl, ?_, ?_⟩
    · split_ifs <;> simp [lib_state.log, lib_state.add_transferred]
    · split_ifs <;> simp [lib_state.log, lib_state.add_transferred]
  | some code =>
    by_cases hc : code = LIBUSB_TRANSFER_CANCELLED
    · simp only [hc, if_true]
      refine ⟨_, rfl, ?_, ?_⟩
      · split_ifs <;> simp [lib_state.log, lib_state.add_transferred]
      · split_ifs <;> simp [lib_state.log, lib_state.add_transferred]
    · simp only [hc, if_false]
      refine ⟨_, rfl, ?_, ?_⟩
      · split_ifs <;> simp [lib_state.log, lib_state.add_transferred]
      · split_ifs <;> simp [lib_state.log, lib_state.add_transferred]

/-- Drain: on a live device and an endpoint that serves the asynchronous
commands, with dispatchers that return 0 and fuel for one round more than the
complete queue is long, the loop of `obsd_handle_events` ends with `err` 0
after reaping the whole queue. -/
theorem reap_loop_drain (env : lib_env) (fd : Int) (endpt flag : Nat) (senv : submit_env)
    (r0 : usb_ctl_request)
    (hz1 : ∀ c t s, env.completion c t s = 0) (hz2 : ∀ c t, env.cancellation c t = 0) :
    ∀ (q : List Nat) (fuel : Nat) (k : Kernel) (req : usb_ctl_request) (L : lib_state),
      q.length < fuel →
      k.sc.dying = false → async_endpoint k endpt → (k.sce endpt IN).complete_queue = q →
      ∃ req1 L1, obsd_reap env fd endpt flag senv fuel k req L =
          some (0, (reap_n endpt r0 flag senv q.length k).2, req1, L1) ∧
        L1.calls = L.calls ++
          (reap_n endpt r0 flag senv q.length k).1.flatMap (fun x => round_calls fd x.2) ++
          [.ioctl_get_completed fd EIO] ∧
        L1.errno = ( EIO : Nat) ∧
        (∀ x ∈ (reap_n endpt r0 flag senv q.length k).1, x.1 = 0) ∧
        (((reap_n endpt r0 flag senv q.length k).2).sce endpt IN).complete_queue = [] := by
  intro q
  induction q with
  | nil =>
    intro fuel k req L hf hd _ hq
    obtain ⟨fuel, rfl⟩ : ∃ n, fuel = n + 1 := ⟨fuel - 1, by simp at hf; omega⟩
    have hio : ugen_do_ioctl k endpt .USB_GET_COMPLETED req flag senv = ( EIO, req, k) := by
      rw [do_ioctl_completed _ _ _ _ _ hd, get_completed_nil _ _ _ hq]
    refine ⟨req, { L.log (.ioctl_get_completed fd EIO) with errno := (( EIO : Nat) : Int) },
      ?_, ?_, ?_, ?_, ?_⟩
    · simp only [List.length_nil, obsd_reap]
      rw [reap_round_fail _ _ _ _ _ _ _ _ (by rw [hio]; simp), hio]
      simp only [reap_n]
    · simp [reap_n, lib_state.log]
    · rfl
    · simp [reap_n]
    · simpa [reap_n] using hq
  | cons b rest ih =>
    intro fuel k req L hf hd hok hq
    obtain ⟨fuel, rfl⟩ : ∃ n, fuel = n + 1 := ⟨fuel - 1, by simp at hf; omega⟩
    obtain ⟨h1, h2, _, _, _, _, h7, _⟩ := get_completed_cons k endpt req b rest hq
    obtain ⟨g1, g2, g3⟩ := get_completed_req k endpt req r0
    have h0 : (ugen_do_ioctl k endpt .USB_GET_COMPLETED req flag senv).1 = 0 := by
      rw [do_ioctl_completed _ _ _ _ _ hd]; exact h7.2 hok
    obtain ⟨L1, e1, e2, e3⟩ := reap_round_ok env fd endpt flag senv k req L hz1 hz2 h0
    have hK : ugen_do_ioctl k endpt .USB_GET_COMPLETED req flag senv =
        ugen_get_completed k endpt req := do_ioctl_completed _ _ _ _ _ hd
    have hK0 : ugen_do_ioctl k endpt .USB_GET_COMPLETED r0 flag senv =
        ugen_get_completed k endpt r0 := do_ioctl_completed _ _ _ _ _ hd
    have hd1 : (ugen_get_completed k endpt req).2.2.sc.dying = false := by rw [h2, hd]
    have hok1 : async_endpoint (ugen_get_completed k endpt req).2.2 endpt :=
      (async_endpoint_congr _ _ _ (by simp [h1])).2 hok
    have hq1 : ((ugen_get_completed k endpt req).2.2.sce endpt IN).complete_queue = rest := by
      simp [h1]
    obtain ⟨req2, L2, f1, f2, f3, f4, f5⟩ :=
      ih fuel (ugen_get_completed k endpt req).2.2 (ugen_get_completed k endpt req).2.1 L1
        (by simp at hf; omega) hd1 hok1 hq1
    refine ⟨req2, L2, ?_, ?_, f3, ?_, ?_⟩
    · simp only [obsd_reap]
      rw [e1, hK]
      simp only []
      rw [f1]
      simp only [List.length_cons, reap_n, hK0, g2]
    · rw [f2, e2, hK]
      simp only [List.length_cons, reap_n, hK0, List.flatMap_cons, List.append_assoc]
      rw [← g2, ← g3 (by rw [← hK]; exact h0)]
    · intro x hx
      simp only [List.length_cons, reap_n, hK0, List.mem_cons] at hx
      rcases hx with hx | hx
      · rw [hx]; show (ugen_get_completed k endpt r0).1 = 0
        rw [← g1, ← hK]; exact h0
      · rw [← g2] at hx; exact f4 x hx
    · simp only [List.length_cons, reap_n, hK0]
      rw [← g2]; exact f5

theorem ioctl_errors_append (l m : List lib_call) :
    ioctl_errors (l ++ m) = ioctl_errors l ++ ioctl_errors m := by
  induction l with
  | nil => rfl
  | cons c l ih => cases c <;> simp [ioctl_errors, ih]

theorem dispatches_append (l m : List lib_call) :
    dispatches (l ++ m) = dispatches l ++ dispatches m := by
  induction l with
  | nil => rfl
  | cons c l ih => cases c <;> simp [dispatches, ih]

theorem dispatches_dispatch_of (R : usb_ctl_request) : dispatches (dispatch_of R) = dispatch_of R := by
  unfold dispatch_of
  split
  · rfl
  · split_ifs <;> rfl

theorem ioctl_errors_dispatch_of (R : usb_ctl_request) : ioctl_errors (dispatch_of R) = [] := by
  unfold dispatch_of
  split
  · rfl
  · split_ifs <;> rfl

theorem ioctl_errors_rounds (fd : Int) (l : List (Nat × usb_ctl_request)) :
    ioctl_errors (l.flatMap (fun x => round_calls fd x.2)) = List.replicate l.length 0 := by
  induction l with
  | nil => rfl
  | cons x l ih =>
    rw [List.flatMap_cons, ioctl_errors_append, ih]
    simp only [round_calls, ioctl_errors, ioctl_errors_dispatch_of, List.length_cons,
      List.replicate_succ, List.cons_append, List.nil_append]

theorem dispatches_rounds (fd : Int) (l : List (Nat × usb_ctl_request)) :
    dispatches (l.flatMap (fun x => round_calls fd x.2)) =
      l.flatMap (fun x => dispatch_of x.2) := by
  induction l with
  | nil => rfl
  | cons x l ih =>
    rw [List.flatMap_cons, List.flatMap_cons, dispatches_append, ih]
    simp only [round_calls, dispatches, dispatches_dispatch_of]

theorem reap_n_length (e : Nat) (r : usb_ctl_request) (flag : Nat) (env : submit_env) :
    ∀ (n : Nat) (k : Kernel), (reap_n e r flag env n k).1.length = n := by
  intro n
  induction n with
  | zero => intro k; rfl
  | succ n ih => intro k; simp [reap_n, ih]

/-- C28: for a ready descriptor `p` without the error bit that the handle `h`
owns as the node of endpoint `endpt`, on a device that is not dying and an
endpoint that serves the asynchronous commands (the control endpoint or a bulk
endpoint) whose complete queue holds `n` records, with dispatchers that return
0 and at least `n + 1` rounds of fuel: the inner loop of `obsd_handle_events`
ends, with `err` 0; its `USB_GET_COMPLETED` calls are `n` successes followed by
one failure, with the io error; the complete queue is left empty; the reaped
blocks carry the contexts of the queue in queue order and the dispatcher calls
made are those of the reaped blocks in that order, one for each block whose
status is not in progress and none for the others; and the loop over the
descriptors goes on with the next descriptor, no error recorded. -/
theorem event_loop_drains (env : lib_env) (open_devs : List libusb_device_handle)
    (flag : Nat) (senv : submit_env) (fuel : Nat) (p : pollfd) (fds : List pollfd)
    (num_ready : Int) (ks : Nat → Kernel) (req : usb_ctl_request) (L : lib_state)
    (h : libusb_device_handle) (endpt : Nat)
    (hz1 : ∀ c t s, env.completion c t s = 0) (hz2 : ∀ c t, env.cancellation c t = 0)
    (hready : p.revents ≠ 0) (herr : p.revents &&& POLLERR = 0) (hnum : 0 < num_ready)
    (hown : find_handle open_devs p.fd = some (h, endpt))
    (hd : (ks h.dev).sc.dying = false) (hok : async_endpoint (ks h.dev) endpt)
    (hf : ((ks h.dev).sce endpt IN).complete_queue.length < fuel) :
    ∃ req1 L1,
      obsd_reap env p.fd endpt flag senv fuel (ks h.dev) req L =
        some (0, (reap_n endpt req flag senv
          ((ks h.dev).sce endpt IN).complete_queue.length (ks h.dev)).2, req1, L1) ∧
      ioctl_errors L1.calls = ioctl_errors L.calls ++
        List.replicate ((ks h.dev).sce endpt IN).complete_queue.length 0 ++ [ EIO] ∧
      (((reap_n endpt req flag senv ((ks h.dev).sce endpt IN).complete_queue.length
        (ks h.dev)).2).sce endpt IN).complete_queue = [] ∧
      (reap_n endpt req flag senv ((ks h.dev).sce endpt IN).complete_queue.length
        (ks h.dev)).1.map (fun x => x.2.ucr_context) =
          ((ks h.dev).sce endpt IN).complete_queue.map
            (fun b => ((ks h.dev).kmem b).ucr_context) ∧
      dispatches L1.calls = dispatches L.calls ++
        (reap_n endpt req flag senv ((ks h.dev).sce endpt IN).complete_queue.length
          (ks h.dev)).1.flatMap (fun x => dispatch_of x.2) ∧
      (∀ R, (dispatch_of R).length = if R.ucr_status = USBD_IN_PROGRESS then 0 else 1) ∧
      obsd_handle_fds env open_devs flag senv fuel (p :: fds) num_ready ks req L =
        obsd_handle_fds env open_devs flag senv fuel fds (num_ready - 1)
          (fun d => if d = h.dev then (reap_n endpt req flag senv
            ((ks h.dev).sce endpt IN).complete_queue.length (ks h.dev)).2 else ks d)
          req1 L1 := by
  obtain ⟨req1, L1, f1, f2, _, f4, f5⟩ :=
    reap_loop_drain env p.fd endpt flag senv req hz1 hz2
      ((ks h.dev).sce endpt IN).complete_queue fuel (ks h.dev) req L hf hd hok rfl
  refine ⟨req1, L1, f1, ?_, f5, ?_, ?_, ?_, ?_⟩
  · rw [f2, ioctl_errors_append, ioctl_errors_append, ioctl_errors_rounds]
    simp [ioctl_errors, reap_n_length]
  · have := reap_n_ctxs endpt req flag senv _ (ks h.dev) f4
    rw [this, ctxs, List.take_of_length_le (by simp)]
  · rw [f2, dispatches_append, dispatches_append, dispatches_rounds]
    simp [dispatches]
  · intro R
    unfold dispatch_of
    cases R.ucr_status <;> simp [status_switch]
  · simp only [obsd_handle_fds]
    rw [if_neg (by simpa using hnum), if_neg hready, hown]
    simp only []
    rw [if_neg (by simpa using herr), f1]
    simp

/-- C28 on an instance: descriptor 3, the control node of device 0, is ready
with one completed request queued; the loop makes one successful and one
failing `USB_GET_COMPLETED`, dispatches the request once and
`obsd_handle_events` returns `LIBUSB_SUCCESS`. -/
theorem event_loop_drains_witness :
    find_handle [handle_boot] pollfd_ready.fd = some (handle_boot, 0) ∧
    ((kernel_delivered kernel_boot).sce 0 IN).complete_queue.length = 1 ∧
    (∃ req1 L1,
      obsd_reap lib_env_ok pollfd_ready.fd 0 0 (env_ok 0 0) 2 (kernel_delivered kernel_boot) urb_get_status
        lib_boot = some (0, (reap_n 0 urb_get_status 0 (env_ok 0 0) 1 (kernel_delivered kernel_boot)).2,
          req1, L1) ∧
      ioctl_errors L1.calls = [0, EIO] ∧
      dispatches L1.calls = [.usbi_handle_transfer_completion 7 LIBUSB_TRANSFER_COMPLETED]) ∧
    (obsd_handle_events lib_env_ok [handle_boot] 0 (env_ok 0 0) 2 [pollfd_ready] 1
      (fun _ => kernel_delivered kernel_boot) urb_get_status lib_boot).map (fun r => r.1) =
        some LIBUSB_SUCCESS :=
  ⟨rfl, by decide,
   (event_loop_drains lib_env_ok [handle_boot] 0 (env_ok 0 0) 2 pollfd_ready [] 1
      (fun _ => kernel_delivered kernel_boot) urb_get_status lib_boot handle_boot 0
      (fun _ _ _ => rfl) (fun _ _ => rfl) (by decide) (by decide) (by decide) rfl
      (by decide) (Or.inl rfl) (by decide)).elim
     (fun req1 hr => hr.elim (fun L1 hl =>
       ⟨req1, L1, hl.1, hl.2.1, hl.2.2.2.2.1.trans (by decide)⟩)),
   by decide⟩

/-- C24, counterexample: an isochronous IN transfer on a device with a ugen(4)
node is not refused: `obsd_submit_transfer` opens the endpoint node, sets the
timeout and short-transfer mode with `ioctl`, reads, signals the completion
and returns `LIBUSB_SUCCESS`. -/
theorem iso_in_submit_counterexample :
    transfer_iso_in.type = LIBUSB_TRANSFER_TYPE_ISOCHRONOUS ∧
    IS_XFERIN transfer_iso_in = true ∧
    (obsd_submit_transfer os_env_ok 9 transfer_iso_in urb_get_status os_boot).1 =
      LIBUSB_SUCCESS ∧
    (obsd_submit_transfer os_env_ok 9 transfer_iso_in urb_get_status os_boot).1 ≠
      LIBUSB_ERROR_NOT_SUPPORTED ∧
    (obsd_submit_transfer os_env_ok 9 transfer_iso_in urb_get_status os_boot).2.calls =
      [.open_endpoint 1 O_RDWR, .usbi_add_pollfd 4 (POLLIN ||| POLLRDNORM),
       .ioctl 4 (.USB_SET_TIMEOUT 1000), .ioctl 4 (.USB_SET_SHORT_XFER 1),
       .read 4 100 2, .usbi_signal_transfer_completion 9] := by
  decide

/-- C24, amended: `obsd_submit_transfer` returns `LIBUSB_ERROR_NOT_SUPPORTED`
with the state as it was (no `ioctl`, `read` or `write` made, no completion
signalled) for every isochronous OUT transfer, every bulk-stream transfer and
every interrupt OUT transfer that carries the add-zero-packet flag; an
isochronous IN transfer is handed to `_sync_gen_transfer`, which refuses it in
that way only when the device has no ugen(4) node. -/
theorem submit_not_supported (env : os_env) (itransfer : Nat) (t : libusb_transfer)
    (req0 : usb_ctl_request) (S : os_state) :
    (t.type = LIBUSB_TRANSFER_TYPE_ISOCHRONOUS → IS_XFEROUT t = true →
      obsd_submit_transfer env itransfer t req0 S = (LIBUSB_ERROR_NOT_SUPPORTED, S)) ∧
    (t.type = LIBUSB_TRANSFER_TYPE_BULK_STREAM →
      obsd_submit_transfer env itransfer t req0 S = (LIBUSB_ERROR_NOT_SUPPORTED, S)) ∧
    (t.type = LIBUSB_TRANSFER_TYPE_INTERRUPT → IS_XFEROUT t = true →
      t.flags &&& LIBUSB_TRANSFER_ADD_ZERO_PACKET ≠ 0 →
      obsd_submit_transfer env itransfer t req0 S = (LIBUSB_ERROR_NOT_SUPPORTED, S)) ∧
    (t.type = LIBUSB_TRANSFER_TYPE_ISOCHRONOUS → IS_XFERIN t = true →
      obsd_submit_transfer env itransfer t req0 S =
        if (_sync_gen_transfer env itransfer t S).1 ≠ 0 then _sync_gen_transfer env itransfer t S
        else (LIBUSB_SUCCESS, (_sync_gen_transfer env itransfer t S).2.log
          (.usbi_signal_transfer_completion itransfer))) ∧
    (t.type = LIBUSB_TRANSFER_TYPE_ISOCHRONOUS → t.devname = none →
      obsd_submit_transfer env itransfer t req0 S = (LIBUSB_ERROR_NOT_SUPPORTED, S)) := by
  have hns : (LIBUSB_ERROR_NOT_SUPPORTED : Int) ≠ 0 := by decide
  refine ⟨fun h1 h2 => ?_, fun h1 => ?_, fun h1 h2 h3 => ?_, fun h1 h2 => ?_, fun h1 h2 => ?_⟩
  · simp [obsd_submit_transfer, h1, h2]
  · simp [obsd_submit_transfer, h1]
  · simp [obsd_submit_transfer, h1, h2, h3]
  · have h3 : IS_XFEROUT t = false := by simp [IS_XFEROUT, h2]
    simp [obsd_submit_transfer, h1, h3]
  · by_cases h3 : IS_XFEROUT t = true
    · simp [obsd_submit_transfer, h1, h3]
    · simp [obsd_submit_transfer, h1, h3, _sync_gen_transfer, h2]

/-- C24, amended, on an instance: the isochronous OUT transfer is refused with
nothing done. -/
theorem submit_not_supported_witness :
    transfer_iso_out.type = LIBUSB_TRANSFER_TYPE_ISOCHRONOUS ∧
    IS_XFEROUT transfer_iso_out = true ∧
    obsd_submit_transfer os_env_ok 9 transfer_iso_out urb_get_status os_boot =
      (LIBUSB_ERROR_NOT_SUPPORTED, os_boot) :=
  ⟨rfl, by decide,
   (submit_not_supported os_env_ok 9 transfer_iso_out urb_get_status os_boot).1 rfl
     (by decide)⟩

theorem callback_trace (k : Kernel) (x p : Nat) (s : usbd_status) :
    (ugen_async_callback k x p s).trace =
      k.trace ++ [.selwakeup (k.kmem p).ucr_sce.1 (k.kmem p).ucr_sce.2] := by
  unfold ugen_async_callback
  by_cases hs : s = USBD_CANCELLED <;> simp [hs]

/-- C25: for a record `a` that is on the submit queue of its endpoint slot,
`ugen_async_callback` with status `s` takes `a` (its one occurrence there) out
of that submit queue, keeping the order of the others, and puts it at the tail
of the complete queue of the same slot, whose other entries stay in place; the
number of queued records is the same and the rest of the slot and every other
slot are untouched.  The status of `a` becomes cancelled when `s` is
cancelled and stays otherwise, no other field of `a` and no other record
changes, and the only call made is `selwakeup`: neither the record nor the
transfer is freed, and transfers and user memory are as before. -/
theorem callback_moves_record (k : Kernel) (x a : Nat) (s : usbd_status)
    (hin : a ∈ (k.sce (k.kmem a).ucr_sce.1 (k.kmem a).ucr_sce.2).submit_queue) :
    (∃ l1 l2, a ∉ l1 ∧
      (k.sce (k.kmem a).ucr_sce.1 (k.kmem a).ucr_sce.2).submit_queue = l1 ++ a :: l2 ∧
      ((ugen_async_callback k x a s).sce (k.kmem a).ucr_sce.1
        (k.kmem a).ucr_sce.2).submit_queue = l1 ++ l2) ∧
    ((ugen_async_callback k x a s).sce (k.kmem a).ucr_sce.1
      (k.kmem a).ucr_sce.2).complete_queue =
        (k.sce (k.kmem a).ucr_sce.1 (k.kmem a).ucr_sce.2).complete_queue ++ [a] ∧
    ((ugen_async_callback k x a s).sce (k.kmem a).ucr_sce.1
        (k.kmem a).ucr_sce.2).submit_queue.length +
      ((ugen_async_callback k x a s).sce (k.kmem a).ucr_sce.1
        (k.kmem a).ucr_sce.2).complete_queue.length =
      (k.sce (k.kmem a).ucr_sce.1 (k.kmem a).ucr_sce.2).submit_queue.length +
        (k.sce (k.kmem a).ucr_sce.1 (k.kmem a).ucr_sce.2).complete_queue.length ∧
    ((ugen_async_callback k x a s).sce (k.kmem a).ucr_sce.1 (k.kmem a).ucr_sce.2).edesc =
      (k.sce (k.kmem a).ucr_sce.1 (k.kmem a).ucr_sce.2).edesc ∧
    ((ugen_async_callback k x a s).sce (k.kmem a).ucr_sce.1 (k.kmem a).ucr_sce.2).pipeh =
      (k.sce (k.kmem a).ucr_sce.1 (k.kmem a).ucr_sce.2).pipeh ∧
    (∀ e d, ¬ (e = (k.kmem a).ucr_sce.1 ∧ d = (k.kmem a).ucr_sce.2) →
      (ugen_async_callback k x a s).sce e d = k.sce e d) ∧
    (s = USBD_CANCELLED →
      (ugen_async_callback k x a s).kmem a = { k.kmem a with ucr_status := USBD_CANCELLED }) ∧
    (s ≠ USBD_CANCELLED → (ugen_async_callback k x a s).kmem a = k.kmem a) ∧
    (∀ q, q ≠ a → (ugen_async_callback k x a s).kmem q = k.kmem q) ∧
    emitted k (ugen_async_callback k x a s) =
      [.selwakeup (k.kmem a).ucr_sce.1 (k.kmem a).ucr_sce.2] ∧
    (∀ p, Event.free p ∉ emitted k (ugen_async_callback k x a s)) ∧
    (∀ y, Event.usbd_free_xfer y ∉ emitted k (ugen_async_callback k x a s)) ∧
    (ugen_async_callback k x a s).xfers = k.xfers ∧
    (ugen_async_callback k x a s).umem = k.umem ∧
    (ugen_async_callback k x a s).sc.dying = k.sc.dying := by
  have hem : emitted k (ugen_async_callback k x a s) =
      [.selwakeup (k.kmem a).ucr_sce.1 (k.kmem a).ucr_sce.2] :=
    emitted_append _ _ _ (callback_trace k x a s)
  obtain ⟨l1, l2, h1, h2, h3⟩ := List.exists_erase_eq hin
  have hsq : ((ugen_async_callback k x a s).sce (k.kmem a).ucr_sce.1
      (k.kmem a).ucr_sce.2).submit_queue = l1 ++ l2 := by
    rw [callback_sce, if_pos ⟨rfl, rfl⟩, h3]
  have hcq : ((ugen_async_callback k x a s).sce (k.kmem a).ucr_sce.1
      (k.kmem a).ucr_sce.2).complete_queue =
        (k.sce (k.kmem a).ucr_sce.1 (k.kmem a).ucr_sce.2).complete_queue ++ [a] := by
    rw [callback_sce, if_pos ⟨rfl, rfl⟩]
  refine ⟨⟨l1, l2, h1, h2, hsq⟩, hcq, ?_, ?_, ?_, ?_, ?_, ?_, ?_, hem, ?_, ?_,
    callback_xfers _ _ _ _, callback_umem _ _ _ _, callback_dying _ _ _ _⟩
  · rw [hsq, hcq, h2]
    simp only [List.length_append, List.length_cons, List.length_nil]
    omega
  · rw [callback_sce, if_pos ⟨rfl, rfl⟩]
  · rw [callback_sce, if_pos ⟨rfl, rfl⟩]
  · intro e d hed
    rw [callback_sce, if_neg hed]
  · intro hs
    rw [callback_kmem, if_pos ⟨rfl, hs⟩]
  · intro hs
    rw [callback_kmem, if_neg (fun hc => hs hc.2)]
  · intro q hq
    rw [callback_kmem, if_neg (fun hc => hq hc.1)]
  · intro p; rw [hem]; simp
  · intro y; rw [hem]; simp

/-- C25 on an instance: the record of `urb_get_status` on the submit queue of
the control endpoint is moved to the complete queue. -/
theorem callback_moves_record_witness :
    1 ∈ (kernel_submitted.sce (kernel_submitted.kmem 1).ucr_sce.1
      (kernel_submitted.kmem 1).ucr_sce.2).submit_queue ∧
    ((ugen_async_callback kernel_submitted 1 1 USBD_NORMAL_COMPLETION).sce
      (kernel_submitted.kmem 1).ucr_sce.1 (kernel_submitted.kmem 1).ucr_sce.2).complete_queue =
      (kernel_submitted.sce (kernel_submitted.kmem 1).ucr_sce.1
        (kernel_submitted.kmem 1).ucr_sce.2).complete_queue ++ [1] ∧
    emitted kernel_submitted (ugen_async_callback kernel_submitted 1 1 USBD_NORMAL_COMPLETION) =
      [.selwakeup (kernel_submitted.kmem 1).ucr_sce.1 (kernel_submitted.kmem 1).ucr_sce.2] :=
  ⟨by decide,
   (callback_moves_record kernel_submitted 1 1 USBD_NORMAL_COMPLETION (by decide)).2.1,
   (callback_moves_record kernel_submitted 1 1 USBD_NORMAL_COMPLETION
     (by decide)).2.2.2.2.2.2.2.2.2.1⟩

/-- The calls a successful reap logs: the transfer of the record is freed, then
the record. -/
theorem reap_trace (k : Kernel) (endpt b : Nat) (req : usb_ctl_request) (flag : Nat)
    (env : submit_env) (h : reaps k endpt b) :
    emitted k (ugen_do_ioctl k endpt .USB_GET_COMPLETED req flag env).2.2 =
      [.usbd_free_xfer (k.kmem b).xfer, .free b] ∧
    (∀ e d, (ugen_do_ioctl k endpt .USB_GET_COMPLETED req flag env).2.2.sce e d =
      if e = endpt ∧ d = IN then
        { k.sce e d with complete_queue := (k.sce e d).complete_queue.tail }
      else k.sce e d) := by
  obtain ⟨K0, h1, _, _, h4, h5, hcase⟩ := get_completed_reaps k endpt b req flag env h
  rcases hcase with ⟨_, hR⟩ | ⟨_, hR⟩
  · rw [hR]
    refine ⟨emitted_append _ _ _ ?_, fun e d => ?_⟩
    · simp [complete_ctrl_trace, h4, h1]
    · simp only [sce_emit]
      rw [sce_of_sc _ _ (complete_ctrl_sc K0 b), h5]
  · rw [hR]
    refine ⟨emitted_append _ _ _ ?_, fun e d => ?_⟩
    · simp [complete_bulk_trace, h4, h1]
    · simp only [sce_emit]
      rw [sce_of_sc _ _ (complete_bulk_sc K0 b), h5]

/-- C26: when `USB_GET_COMPLETED` reaps a record that is not marked cancelled,
is a read and whose transfer finished with normal completion, and the user
buffer of the clamped length cannot be accessed, so that the copy fails: the
ioctl returns 0, the status handed back is `USBD_IOERROR`, the record is off
the complete queue (the queue is its tail, every other slot and the submit
queue are as before), and the calls made are exactly one `usbd_free_xfer` of
the transfer of the record and one `free` of the record; the user memory is
as before. -/
theorem reap_copy_failure (k : Kernel) (endpt b : Nat) (req : usb_ctl_request) (flag : Nat)
    (env : submit_env) (h : reaps k endpt b)
    (hs : (k.kmem b).ucr_status ≠ USBD_CANCELLED)
    (hx : (k.xfers (k.kmem b).xfer).status = USBD_NORMAL_COMPLETION)
    (hrd : read_request k endpt b = true)
    (hfail : user_range_ok k.umem (k.kmem b).ucr_data
      (to_size_t (clamp_len (declared_length k endpt b) (k.xfers (k.kmem b).xfer).actlen))
        = false) :
    (ugen_do_ioctl k endpt .USB_GET_COMPLETED req flag env).1 = 0 ∧
    (reaped_request k endpt req flag env).ucr_status = USBD_IOERROR ∧
    (reaped_request k endpt req flag env).ucr_context = (k.kmem b).ucr_context ∧
    (k.sce endpt IN).complete_queue = b :: (k.sce endpt IN).complete_queue.tail ∧
    ((reaped_state k endpt req flag env).sce endpt IN).complete_queue =
      (k.sce endpt IN).complete_queue.tail ∧
    ((reaped_state k endpt req flag env).sce endpt IN).submit_queue =
      (k.sce endpt IN).submit_queue ∧
    (∀ e d, ¬ (e = endpt ∧ d = IN) → (reaped_state k endpt req flag env).sce e d = k.sce e d) ∧
    emitted k (reaped_state k endpt req flag env) =
      [.usbd_free_xfer (k.kmem b).xfer, .free b] ∧
    (emitted k (reaped_state k endpt req flag env)).count
      (.usbd_free_xfer (k.kmem b).xfer) = 1 ∧
    (emitted k (reaped_state k endpt req flag env)).count (.free b) = 1 ∧
    (reaped_state k endpt req flag env).umem = k.umem := by
  obtain ⟨r1, _, r3⟩ := reap_result k endpt b req flag env h hs
  obtain ⟨_, _, c3⟩ := r3 hx
  obtain ⟨t1, t2⟩ := reap_trace k endpt b req flag env h
  have hlen : clamp_len (declared_length k endpt b) (k.xfers (k.kmem b).xfer).actlen ≠ 0 := by
    intro h0
    rw [h0] at hfail
    simp [to_size_t, user_range_ok] at hfail
  rcases uiomove_read_cases k.umem (k.xfers (k.kmem b).xfer).dmabuf (k.kmem b).ucr_data
      (to_size_t (clamp_len (declared_length k endpt b) (k.xfers (k.kmem b).xfer).actlen)) with
    ⟨u1, _⟩ | ⟨_, u2⟩
  · rw [u1] at hfail; exact absurd hfail (by simp)
  · obtain ⟨d1, d2⟩ := c3 hlen hrd _ u2
    unfold reaped_request reaped_state
    have hq : (k.sce endpt IN).complete_queue = b :: (k.sce endpt IN).complete_queue.tail := by
      obtain ⟨_, hh, _⟩ := h
      cases hc : (k.sce endpt IN).complete_queue with
      | nil => simp [TAILQ_FIRST, hc] at hh
      | cons b1 rest =>
        simp only [TAILQ_FIRST, hc, List.head?_cons, Option.some.injEq] at hh
        simp [hh]
    refine ⟨r1, by rw [d1], by rw [d1], hq, ?_, ?_, ?_, t1, ?_, ?_, d2⟩
    · rw [t2, if_pos ⟨rfl, rfl⟩]
    · rw [t2, if_pos ⟨rfl, rfl⟩]
    · intro e d hed; rw [t2, if_neg hed]
    · rw [t1]; simp
    · rw [t1]; simp

/-- C26 on an instance: `urb_get_status` delivered for a process whose buffer
is not mapped. -/
theorem reap_copy_failure_witness :
    reaps (kernel_delivered kernel_unmapped) 0 1 ∧
    user_range_ok (kernel_delivered kernel_unmapped).umem
      ((kernel_delivered kernel_unmapped).kmem 1).ucr_data 2 = false ∧
    (ugen_do_ioctl (kernel_delivered kernel_unmapped) 0 .USB_GET_COMPLETED urb_get_status 0
      (env_ok 0 0)).1 = 0 ∧
    (reaped_request (kernel_delivered kernel_unmapped) 0 urb_get_status 0
      (env_ok 0 0)).ucr_status = USBD_IOERROR ∧
    emitted (kernel_delivered kernel_unmapped)
      (reaped_state (kernel_delivered kernel_unmapped) 0 urb_get_status 0 (env_ok 0 0)) =
      [.usbd_free_xfer ((kernel_delivered kernel_unmapped).kmem 1).xfer, .free 1] :=
  ⟨⟨by decide, by decide, Or.inl rfl⟩, by decide,
   (reap_copy_failure (kernel_delivered kernel_unmapped) 0 1 urb_get_status 0 (env_ok 0 0)
      ⟨by decide, by decide, Or.inl rfl⟩ (by decide) (by decide) (by decide) (by decide)).1,
   (reap_copy_failure (kernel_delivered kernel_unmapped) 0 1 urb_get_status 0 (env_ok 0 0)
      ⟨by decide, by decide, Or.inl rfl⟩ (by decide) (by decide) (by decide)
      (by decide)).2.1,
   (reap_copy_failure (kernel_delivered kernel_unmapped) 0 1 urb_get_status 0 (env_ok 0 0)
      ⟨by decide, by decide, Or.inl rfl⟩ (by decide) (by decide) (by decide)
      (by decide)).2.2.2.2.2.2.2.1⟩

/-- C30: on a non-control endpoint number whose IN slot has no endpoint
descriptor, the case `USB_DO_REQUEST` returns `EINVAL` and leaves the state as
it was (nothing allocated, submitted or queued), whatever the request, its
read flag included, and whatever the OUT slot of that number holds; so does
`ugen_do_ioctl` on a device that is not dying. -/
theorem do_request_in_slot_only (k : Kernel) (endpt : Nat) (req : usb_ctl_request)
    (flag : Nat) (env : submit_env) (h0 : endpt ≠ USB_CONTROL_ENDPOINT)
    (hin : (k.sce endpt IN).edesc = none) :
    ugen_do_request k endpt req flag env = (EINVAL, { req with ucr_sce := (endpt, IN) }, k) ∧
    (k.sc.dying = false →
      ugen_do_ioctl k endpt .USB_DO_REQUEST req flag env =
        (EINVAL, { req with ucr_sce := (endpt, IN) }, k)) ∧
    (∀ (out : ugen_endpoint) (r : Nat),
      out.edesc ≠ none → out.pipeh ≠ none →
      ugen_do_request (k.set_sce endpt OUT out) endpt { req with ucr_read := r } flag env =
        (EINVAL, { req with ucr_read := r, ucr_sce := (endpt, IN) },
          k.set_sce endpt OUT out)) := by
  have key : ∀ (K : Kernel) (R : usb_ctl_request), (K.sce endpt IN).edesc = none →
      ugen_do_request K endpt R flag env = (EINVAL, { R with ucr_sce := (endpt, IN) }, K) := by
    intro K R hK
    unfold ugen_do_request
    simp only [if_neg h0, hK]
  refine ⟨key k req hin, fun hd => ?_, fun out r _ _ => ?_⟩
  · rw [do_ioctl_request _ _ _ _ _ hd, key k req hin]
  · refine key _ _ ?_
    rw [sce_set_sce, if_neg (fun hc => absurd hc.2 (by decide)), hin]

/-- C30 on an instance: endpoint 2 has a bulk descriptor and an open pipe in
the OUT slot only, and a bulk request on it is refused. -/
theorem do_request_in_slot_only_witness :
    (kernel_bulk_out.sce 2 OUT).edesc = some UE_BULK ∧
    (kernel_bulk_out.sce 2 OUT).pipeh = some 2 ∧
    (kernel_bulk_out.sce 2 IN).edesc = none ∧
    ugen_do_ioctl kernel_bulk_out 2 .USB_DO_REQUEST (urb_bulk_read 4) FWRITE (env_ok 1 1) =
      (EINVAL, { urb_bulk_read 4 with ucr_sce := (2, IN) }, kernel_bulk_out) :=
  ⟨by decide, by decide, by decide,
   (do_request_in_slot_only kernel_bulk_out 2 (urb_bulk_read 4) FWRITE (env_ok 1 1)
      (by decide) (by decide)).2.1 (by decide)⟩

/-- What a failing `USB_GET_COMPLETED` leaves: with the io error the state is
as it was; with any other error the complete queue was not empty and has lost
its head, which is neither handed back nor freed. -/
theorem get_completed_error_cases (k : Kernel) (endpt : Nat) (req : usb_ctl_request)
    (flag : Nat) (env : submit_env)
    (h : (ugen_do_ioctl k endpt .USB_GET_COMPLETED req flag env).1 ≠ 0) :
    ((ugen_do_ioctl k endpt .USB_GET_COMPLETED req flag env).1 = EIO ∧
      (ugen_do_ioctl k endpt .USB_GET_COMPLETED req flag env).2.2 = k ∧
      (k.sc.dying = true ∨ (k.sce endpt IN).complete_queue = [])) ∨
    ((ugen_do_ioctl k endpt .USB_GET_COMPLETED req flag env).1 = EINVAL ∧
      k.sc.dying = false ∧ endpt ≠ USB_CONTROL_ENDPOINT ∧ ¬ async_endpoint k endpt ∧
      ∃ b rest, (k.sce endpt IN).complete_queue = b :: rest ∧
        ((ugen_do_ioctl k endpt .USB_GET_COMPLETED req flag env).2.2.sce endpt
          IN).complete_queue = rest ∧
        (ugen_do_ioctl k endpt .USB_GET_COMPLETED req flag env).2.2.trace = k.trace ∧
        (ugen_do_ioctl k endpt .USB_GET_COMPLETED req flag env).2.1 = req) := by
  by_cases hd : k.sc.dying = true
  · left
    rw [do_ioctl_dying _ _ _ _ _ _ hd]
    exact ⟨rfl, rfl, Or.inl hd⟩
  · have hd' : k.sc.dying = false := by simpa using hd
    rw [do_ioctl_completed _ _ _ _ _ hd'] at h ⊢
    cases hq : (k.sce endpt IN).complete_queue with
    | nil =>
      left
      rw [get_completed_nil _ _ _ hq]
      exact ⟨rfl, rfl, Or.inr rfl⟩
    | cons b rest =>
      right
      obtain ⟨h1, _, _, _, _, _, h7, _⟩ := get_completed_cons k endpt req b rest hq
      have hna : ¬ async_endpoint k endpt := fun hc => h (h7.2 hc)
      have h0 : endpt ≠ USB_CONTROL_ENDPOINT := fun hc => hna (Or.inl hc)
      have hval : ugen_get_completed k endpt req =
          (EINVAL, req, k.set_sce endpt IN { k.sce endpt IN with complete_queue := rest }) := by
        unfold ugen_get_completed
        simp only [TAILQ_FIRST, hq, List.head?_cons, TAILQ_REMOVE, List.erase_cons_head,
          if_neg h0]
        cases he : (k.sce endpt IN).edesc with
        | none => rfl
        | some attr =>
          have h9 : ¬ (attr &&& UE_XFERTYPE = UE_BULK) := fun h9 => hna (Or.inr ⟨attr, he, h9⟩)
          by_cases h8 : attr &&& UE_XFERTYPE = UE_INTERRUPT ∨
              attr &&& UE_XFERTYPE = UE_ISOCHRONOUS
          · simp only [if_pos h8]
          · simp only [if_neg h8, if_neg h9]
      rw [hval]
      refine ⟨rfl, hd', h0, hna, b, rest, rfl, ?_, rfl, rfl⟩
      simp

/-- C29, at the failing input: on endpoint 1, whose IN descriptor is of
interrupt type and whose complete queue holds record 1, `USB_GET_COMPLETED`
returns `EINVAL` and the complete queue, `[1]` before the call, is empty after
it; the caller's block is as it was and nothing is freed, so the record is
lost. -/
theorem failed_reap_loses_head :
    kernel_interrupt_queued.sc.dying = false ∧
    (kernel_interrupt_queued.sce 1 IN).complete_queue = [1] ∧
    (ugen_do_ioctl kernel_interrupt_queued 1 .USB_GET_COMPLETED urb_second 0
      (env_ok 0 0)).1 = EINVAL ∧
    ((ugen_do_ioctl kernel_interrupt_queued 1 .USB_GET_COMPLETED urb_second 0
      (env_ok 0 0)).2.2.sce 1 IN).complete_queue = [] ∧
    ((ugen_do_ioctl kernel_interrupt_queued 1 .USB_GET_COMPLETED urb_second 0
      (env_ok 0 0)).2.2.sce 1 IN).complete_queue ≠
      (kernel_interrupt_queued.sce 1 IN).complete_queue ∧
    (ugen_do_ioctl kernel_interrupt_queued 1 .USB_GET_COMPLETED urb_second 0
      (env_ok 0 0)).2.1 = urb_second ∧
    emitted kernel_interrupt_queued (ugen_do_ioctl kernel_interrupt_queued 1
      .USB_GET_COMPLETED urb_second 0 (env_ok 0 0)).2.2 = [] := by
  decide

/-- The drain of `ugen_do_close` with enough fuel empties the complete queue of
the IN slot, logs the two releases of each record in queue order and touches
nothing else. -/
theorem close_drain_spec (endpt : Nat) :
    ∀ (q : List Nat) (fuel : Nat) (k : Kernel), (k.sce endpt IN).complete_queue = q →
      q.length ≤ fuel →
      ∃ K, ugen_close_drain endpt fuel k = some K ∧
        (∀ e d, K.sce e d = if e = endpt ∧ d = IN then
          { k.sce e d with complete_queue := [] } else k.sce e d) ∧
        K.sc.dying = k.sc.dying ∧ K.kmem = k.kmem ∧ K.xfers = k.xfers ∧ K.umem = k.umem ∧
        K.trace = k.trace ++ drain_events k q := by
  intro q
  induction q with
  | nil =>
    intro fuel k hq _
    refine ⟨k, ?_, ?_, rfl, rfl, rfl, rfl, by simp [drain_events]⟩
    · cases fuel <;> simp [ugen_close_drain, TAILQ_FIRST, hq]
    · intro e d
      split_ifs with h
      · rw [h.1, h.2]
        have : { k.sce endpt IN with complete_queue := [] } = k.sce endpt IN := by
          rw [← hq]
        rw [this]
      · rfl
  | cons b rest ih =>
    intro fuel k hq hf
    obtain ⟨fuel, rfl⟩ : ∃ n, fuel = n + 1 := ⟨fuel - 1, by simp at hf; omega⟩
    obtain ⟨K, h1, h2, h3, h4, h5, h6, h7⟩ := ih fuel
      (((k.set_sce endpt IN { k.sce endpt IN with complete_queue := rest }).emit
        (.usbd_free_xfer (k.kmem b).xfer)).emit (.free b))
      (by simp) (by simp at hf; omega)
    refine ⟨K, ?_, ?_, ?_, ?_, ?_, ?_, ?_⟩
    · simp only [ugen_close_drain, TAILQ_FIRST, hq, List.head?_cons, TAILQ_REMOVE,
        List.erase_cons_head]
      exact h1
    · intro e d
      rw [h2]
      simp only [sce_emit, sce_set_sce]
      split_ifs with h
      · rw [h.1, h.2]
      · rfl
    · rw [h3]; rfl
    · rw [h4]; rfl
    · rw [h5]; rfl
    · rw [h6]; rfl
    · rw [h7]
      simp [drain_events]

theorem foldl_emit_spec (f : Nat → Event) :
    ∀ (l : List Nat) (k : Kernel),
      (l.foldl (fun k i => k.emit (f i)) k).trace = k.trace ++ l.map f ∧
      (l.foldl (fun k i => k.emit (f i)) k).sc = k.sc ∧
      (l.foldl (fun k i => k.emit (f i)) k).kmem = k.kmem ∧
      (l.foldl (fun k i => k.emit (f i)) k).xfers = k.xfers ∧
      (l.foldl (fun k i => k.emit (f i)) k).umem = k.umem := by
  intro l
  induction l with
  | nil => intro k; simp
  | cons i l ih =>
    intro k
    obtain ⟨h1, h2, h3, h4, h5⟩ := ih (k.emit (f i))
    simp only [List.foldl_cons]
    refine ⟨by rw [h1]; simp, by rw [h2]; rfl, by rw [h3]; rfl, by rw [h4]; rfl, by rw [h5]; rfl⟩

/-- One round of the pipe teardown returns when an open pipe has a descriptor;
it leaves the queues, records and transfers alone, and what it logs are frees
of the teardown. -/
theorem close_dir_spec (endpt flag dir : Nat) (k : Kernel) (o : ugen_open_state)
    (calls : List close_call)
    (hwf : (k.sce endpt dir).pipeh ≠ none → (k.sce endpt dir).edesc ≠ none) :
    ∃ K o1 c1 tail, ugen_close_dir endpt flag dir k o calls = some (K, o1, c1) ∧
      (∀ e d, (K.sce e d).submit_queue = (k.sce e d).submit_queue ∧
        (K.sce e d).complete_queue = (k.sce e d).complete_queue ∧
        (K.sce e d).edesc = (k.sce e d).edesc ∧
        (¬ (e = endpt ∧ d = dir) → (K.sce e d).pipeh = (k.sce e d).pipeh)) ∧
      K.kmem = k.kmem ∧ K.xfers = k.xfers ∧ K.umem = k.umem ∧
      K.trace = k.trace ++ tail ∧
      (∀ ev ∈ tail, teardown_free o endpt ev) ∧
      o1.sc_is_open = o.sc_is_open ∧ o1.isoreqs = o.isoreqs ∧
      (∀ e d p, o1.ibuf e d = some p → o.ibuf e d = some p) ∧
      (o.ibuf endpt dir = none ∧ (∀ attr, (k.sce endpt dir).edesc = some attr →
        attr &&& UE_XFERTYPE ≠ UE_ISOCHRONOUS) → tail = []) := by
  unfold ugen_close_dir
  by_cases hfl : flag &&& (if dir = OUT then FWRITE else FREAD) = 0
  · rw [if_pos hfl]
    exact ⟨k, o, calls, [], rfl, fun e d => ⟨rfl, rfl, rfl, fun _ => rfl⟩, rfl, rfl, rfl,
      by simp, by simp, rfl, rfl, fun _ _ _ h => h, fun _ => rfl⟩
  · rw [if_neg hfl]
    simp only []
    cases hp : (k.sce endpt dir).pipeh with
    | none =>
      exact ⟨k, o, calls, [], rfl, fun e d => ⟨rfl, rfl, rfl, fun _ => rfl⟩, rfl, rfl, rfl,
        by simp, by simp, rfl, rfl, fun _ _ _ h => h, fun _ => rfl⟩
    | some pipe =>
      cases he : (k.sce endpt dir).edesc with
      | none => exact absurd he (hwf (by rw [hp]; simp))
      | some attr =>
        simp only []
        have hslot : ∀ (K : Kernel), K.sc = (k.set_sce endpt dir
            { edesc := some attr, pipeh := none, state := (k.sce endpt dir).state,
              timeout := (k.sce endpt dir).timeout,
              submit_queue := (k.sce endpt dir).submit_queue,
              complete_queue := (k.sce endpt dir).complete_queue }).sc →
            ∀ e d, (K.sce e d).submit_queue = (k.sce e d).submit_queue ∧
              (K.sce e d).complete_queue = (k.sce e d).complete_queue ∧
              (K.sce e d).edesc = (k.sce e d).edesc ∧
              (¬ (e = endpt ∧ d = dir) → (K.sce e d).pipeh = (k.sce e d).pipeh) := by
          intro K hK e d
          rw [sce_of_sc _ _ hK, sce_set_sce]
          split_ifs with h
          · rw [h.1, h.2]; exact ⟨rfl, rfl, he.symm, fun hc => absurd ⟨rfl, rfl⟩ hc⟩
          · exact ⟨rfl, rfl, rfl, fun _ => rfl⟩
        obtain ⟨f1, f2, f3, f4, f5⟩ := foldl_emit_spec
          (fun i => Event.usbd_free_xfer (o.isoreqs endpt dir i)) (List.range UGEN_NISOREQS)
          (k.set_sce endpt dir
            { edesc := some attr, pipeh := none, state := (k.sce endpt dir).state,
              timeout := (k.sce endpt dir).timeout,
              submit_queue := (k.sce endpt dir).submit_queue,
              complete_queue := (k.sce endpt dir).complete_queue })
        have hiso : ∀ ev ∈ (List.range UGEN_NISOREQS).map
            (fun i => Event.usbd_free_xfer (o.isoreqs endpt dir i)), teardown_free o endpt ev := by
          intro ev hev
          obtain ⟨i, _, hi⟩ := List.mem_map.1 hev
          exact Or.inl ⟨dir, i, hi.symm⟩
        have hsub : ∀ e d q, (if e = endpt ∧ d = dir then none else o.ibuf e d) = some q →
            o.ibuf e d = some q := by
          intro e d q hq
          split_ifs at hq with h
          exact hq
        have hone : ∀ p, o.ibuf endpt dir = some p →
            ∀ ev ∈ [Event.free p], teardown_free o endpt ev := by
          intro p hb ev hev
          simp only [List.mem_singleton] at hev
          rw [hev]; exact Or.inr ⟨dir, p, hb, rfl⟩
        by_cases h1 : attr &&& UE_XFERTYPE = UE_INTERRUPT
        · simp only [if_pos h1]
          cases hb : o.ibuf endpt dir with
          | none =>
            exact ⟨_, _, _, [], rfl, hslot _ rfl, rfl, rfl, rfl, by simp, by simp, rfl, rfl,
              fun _ _ _ h => h, fun _ => rfl⟩
          | some p =>
            exact ⟨_, _, _, [.free p], rfl, hslot _ rfl, rfl, rfl, rfl, by simp, hone p hb,
              rfl, rfl, hsub, fun hc => absurd hc.1 (by simp)⟩
        · simp only [if_neg h1]
          by_cases h2 : attr &&& UE_XFERTYPE = UE_ISOCHRONOUS
          · simp only [if_pos h2]
            cases hb : o.ibuf endpt dir with
            | none =>
              exact ⟨_, _, _, _, rfl, hslot _ f2, f3, f4, f5, f1, hiso, rfl, rfl,
                fun _ _ _ h => h, fun hc => absurd h2 (hc.2 attr rfl)⟩
            | some p =>
              refine ⟨_, _, _, (List.range UGEN_NISOREQS).map
                  (fun i => Event.usbd_free_xfer (o.isoreqs endpt dir i)) ++ [.free p], rfl,
                hslot _ (by simp [f2]), by simp [f3], by simp [f4], by simp [f5],
                by simp [f1], ?_, rfl, rfl, hsub, fun hc => absurd h2 (hc.2 attr rfl)⟩
              intro ev hev
              rcases List.mem_append.1 hev with h | h
              · exact hiso ev h
              · exact hone p hb ev h
          · simp only [if_neg h2]
            cases hb : o.ibuf endpt dir with
            | none =>
              exact ⟨_, _, _, [], rfl, hslot _ rfl, rfl, rfl, rfl, by simp, by simp, rfl, rfl,
                fun _ _ _ h => h, fun _ => rfl⟩
            | some p =>
              exact ⟨_, _, _, [.free p], rfl, hslot _ rfl, rfl, rfl, rfl, by simp, hone p hb,
                rfl, rfl, hsub, fun hc => absurd hc.1 (by simp)⟩

/-- C27: `ugen_do_close` on an open endpoint, with fuel for the records on the
complete queue of its IN slot and every open pipe of the endpoint having a
descriptor, returns 0 and leaves that complete queue empty; the calls it logs
are, for each record that was on the queue in turn, one `usbd_free_xfer` of its
transfer and one `free` of the record, followed only by frees of the pipe
teardown (transfers of `isoreqs`, the buffer `ibuf`), of which there are none
on the control endpoint nor on an endpoint without `ibuf` and isochronous
descriptor; every submit queue is exactly as it was, no transfer is aborted,
no record or transfer is changed, and the endpoint is marked closed. -/
theorem close_drains_complete_queue (diagnostic : Bool) (fuel : Nat) (k : Kernel)
    (o : ugen_open_state) (endpt flag : Nat)
    (hopen : o.sc_is_open endpt = true)
    (hfuel : (k.sce endpt IN).complete_queue.length ≤ fuel)
    (hwf : ∀ dir, (k.sce endpt dir).pipeh ≠ none → (k.sce endpt dir).edesc ≠ none) :
    ∃ K o1 calls tail,
      ugen_do_close diagnostic fuel k o endpt flag = some (0, K, o1, calls) ∧
      (K.sce endpt IN).complete_queue = [] ∧
      (∀ e d, (K.sce e d).submit_queue = (k.sce e d).submit_queue) ∧
      (∀ e d, ¬ (e = endpt ∧ d = IN) →
        (K.sce e d).complete_queue = (k.sce e d).complete_queue) ∧
      K.kmem = k.kmem ∧ K.xfers = k.xfers ∧ K.umem = k.umem ∧
      emitted k K = drain_events k (k.sce endpt IN).complete_queue ++ tail ∧
      (∀ ev ∈ tail, teardown_free o endpt ev) ∧
      (endpt = USB_CONTROL_ENDPOINT → tail = []) ∧
      ((∀ d, o.ibuf endpt d = none) →
        (∀ d attr, (k.sce endpt d).edesc = some attr →
          attr &&& UE_XFERTYPE ≠ UE_ISOCHRONOUS) → tail = []) ∧
      (∀ y, Event.usbd_abort_transfer y ∉ emitted k K) ∧
      o1.sc_is_open endpt = false := by
  obtain ⟨K0, d1, d2, _, d4, d5, d6, d7⟩ :=
    close_drain_spec endpt (k.sce endpt IN).complete_queue fuel k rfl hfuel
  have hK0 : ∀ e d, (K0.sce e d).submit_queue = (k.sce e d).submit_queue ∧
      (K0.sce e d).edesc = (k.sce e d).edesc ∧ (K0.sce e d).pipeh = (k.sce e d).pipeh ∧
      (¬ (e = endpt ∧ d = IN) → (K0.sce e d).complete_queue = (k.sce e d).complete_queue) := by
    intro e d
    rw [d2]
    split_ifs with h
    · exact ⟨rfl, rfl, rfl, fun hc => absurd h hc⟩
    · exact ⟨rfl, rfl, rfl, fun _ => rfl⟩
  have hcq0 : (K0.sce endpt IN).complete_queue = [] := by rw [d2, if_pos ⟨rfl, rfl⟩]
  have hnoabort : ∀ (l : List Event), (∀ ev ∈ l, teardown_free o endpt ev) →
      ∀ y, Event.usbd_abort_transfer y ∉
        drain_events k (k.sce endpt IN).complete_queue ++ l := by
    intro l hl y hy
    rcases List.mem_append.1 hy with h | h
    · simp [drain_events] at h
    · rcases hl _ h with ⟨_, _, h1⟩ | ⟨_, _, _, h1⟩ <;> simp at h1
  unfold ugen_do_close
  rw [if_neg (by simp [hopen]), d1]
  simp only []
  by_cases h0 : endpt = USB_CONTROL_ENDPOINT
  · rw [if_pos h0]
    refine ⟨K0, _, [], [], rfl, hcq0, fun e d => (hK0 e d).1, fun e d h => (hK0 e d).2.2.2 h,
      d4, d5, d6, ?_, by simp, fun _ => rfl, fun _ _ => rfl, ?_, by simp⟩
    · exact emitted_append _ _ _ (by rw [d7]; simp)
    · rw [emitted_append _ _ _ d7]
      intro y hy
      exact hnoabort [] (by simp) y (by simpa using hy)
  · rw [if_neg h0]
    obtain ⟨K1, o1, c1, t1, e1, e2, e3, e4, e5, e6, e7, e8, e9, e10, e11⟩ :=
      close_dir_spec endpt flag OUT K0 o []
        (by rw [(hK0 endpt OUT).2.1, (hK0 endpt OUT).2.2.1]; exact hwf OUT)
    have hin : ¬ (endpt = endpt ∧ IN = OUT) := fun hc => absurd hc.2 (by decide)
    obtain ⟨K2, o2, c2, t2, g1, g2, g3, g4, g5, g6, g7, g8, g9, g10, g11⟩ :=
      close_dir_spec endpt flag IN K1 o1 c1
        (by rw [(e2 endpt IN).2.2.1, (e2 endpt IN).2.2.2 hin, (hK0 endpt IN).2.1,
              (hK0 endpt IN).2.2.1]; exact hwf IN)
    rw [e1]
    simp only []
    rw [g1]
    simp only []
    have ht2 : ∀ ev ∈ t2, teardown_free o endpt ev := by
      intro ev hev
      rcases g7 ev hev with ⟨d, i, h⟩ | ⟨d, p, h, h'⟩
      · exact Or.inl ⟨d, i, by rw [h, e9]⟩
      · exact Or.inr ⟨d, p, e10 _ _ _ h, h'⟩
    have htail : ∀ ev ∈ t1 ++ t2, teardown_free o endpt ev := by
      intro ev hev
      rcases List.mem_append.1 hev with h | h
      · exact e7 ev h
      · exact ht2 ev h
    have hem : emitted k K2 = drain_events k (k.sce endpt IN).complete_queue ++ (t1 ++ t2) :=
      emitted_append _ _ _ (by rw [g6, e6, d7]; simp)
    refine ⟨K2, _, c2, t1 ++ t2, rfl, ?_, ?_, ?_, ?_, ?_, ?_, hem, htail,
      fun h => absurd h h0, ?_, ?_, by simp⟩
    · rw [(g2 endpt IN).2.1, (e2 endpt IN).2.1, hcq0]
    · intro e d; rw [(g2 e d).1, (e2 e d).1, (hK0 e d).1]
    · intro e d h; rw [(g2 e d).2.1, (e2 e d).2.1, (hK0 e d).2.2.2 h]
    · rw [g3, e3, d4]
    · rw [g4, e4, d5]
    · rw [g5, e5, d6]
    · intro hib hiso
      have a1 : t1 = [] := e11 ⟨hib OUT, fun attr ha =>
        hiso OUT attr (by rw [← (hK0 endpt OUT).2.1]; exact ha)⟩
      have hib1 : o1.ibuf endpt IN = none := by
        cases hc : o1.ibuf endpt IN with
        | none => rfl
        | some p => have := e10 _ _ _ hc; rw [hib IN] at this; exact absurd this (by simp)
      have a2 : t2 = [] := g11 ⟨hib1, fun attr ha =>
        hiso IN attr (by rw [← (hK0 endpt IN).2.1, ← (e2 endpt IN).2.2.1]; exact ha)⟩
      rw [a1, a2]; rfl
    · rw [hem]; exact hnoabort _ htail

/-- C27 on an instance: closing bulk endpoint 1 with record 1 on the complete
queue and record 2 on the submit queue frees transfer 1 and record 1, closes
the pipe, and leaves record 2 on the submit queue. -/
theorem close_drains_complete_queue_witness :
    open_boot.sc_is_open 1 = true ∧
    (kernel_bulk_closing.sce 1 IN).complete_queue = [1] ∧
    (kernel_bulk_closing.sce 1 IN).submit_queue = [2] ∧
    (ugen_do_close true 1 kernel_bulk_closing open_boot 1 FREAD).map
      (fun r => (r.1, r.2.2.2)) = some (0, [.usbd_close_pipe 1]) ∧
    ∃ K o1 calls tail,
      ugen_do_close true 1 kernel_bulk_closing open_boot 1 FREAD = some (0, K, o1, calls) ∧
      (K.sce 1 IN).complete_queue = [] ∧
      (K.sce 1 IN).submit_queue = [2] ∧
      emitted kernel_bulk_closing K = [.usbd_free_xfer 1, .free 1] ++ tail ∧
      tail = [] := by
  have hwf : ∀ dir, (kernel_bulk_closing.sce 1 dir).pipeh ≠ none →
      (kernel_bulk_closing.sce 1 dir).edesc ≠ none := by
    intro dir
    simp only [kernel_bulk_closing, Kernel.sce]
    split_ifs <;> simp
  have hiso : ∀ d attr, (kernel_bulk_closing.sce 1 d).edesc = some attr →
      attr &&& UE_XFERTYPE ≠ UE_ISOCHRONOUS := by
    intro d attr
    simp only [kernel_bulk_closing, Kernel.sce]
    split_ifs
    · intro h; simp only [Option.some.injEq] at h; rw [← h]; decide
    · intro h; simp at h
  obtain ⟨K, o1, calls, tail, h⟩ :=
    close_drains_complete_queue true 1 kernel_bulk_closing open_boot 1 FREAD rfl (by decide) hwf
  exact ⟨rfl, by decide, by decide, by decide, K, o1, calls, tail, h.1, h.2.1, h.2.2.1 1 IN,
    h.2.2.2.2.2.2.2.1, h.2.2.2.2.2.2.2.2.2.2.1 (fun _ => rfl) hiso⟩

/-- The `USB_CANCEL` of the two interleavings of `cancel_race` after an
accepted `USB_DO_REQUEST`: on the submit queue it aborts the transfer of the
record, which has the record as private pointer, and changes neither the
record nor a queue; after the callback it aborts nothing and marks the
record. -/
theorem cancel_after_submit (k : Kernel) (endpt : Nat) (req : usb_ctl_request) (flag : Nat)
    (env : submit_env) (a : Nat) (order : Option usbd_status)
    (creq : usb_ctl_request) (flagc : Nat) (envc : submit_env)
    (hsub : (ugen_do_ioctl k endpt .USB_DO_REQUEST req flag env).1 = 0)
    (ha : env.kreq = some a)
    (hctx : creq.ucr_context = req.ucr_context)
    (hfind : cancel_finds (ugen_do_ioctl k endpt .USB_DO_REQUEST req flag env).2.2 endpt a
      req.ucr_context order) :
    ∃ x, env.xfer = some x ∧
      ((ugen_do_ioctl k endpt .USB_DO_REQUEST req flag env).2.2.kmem a).xfer = x ∧
      ((ugen_do_ioctl k endpt .USB_DO_REQUEST req flag env).2.2.xfers x).priv = a ∧
      a ∈ ((ugen_do_ioctl k endpt .USB_DO_REQUEST req flag env).2.2.sce endpt IN).submit_queue ∧
      (order = none →
        ugen_do_ioctl (ugen_do_ioctl k endpt .USB_DO_REQUEST req flag env).2.2 endpt
            .USB_CANCEL creq flagc envc =
          (0, creq, (ugen_do_ioctl k endpt .USB_DO_REQUEST req flag env).2.2.emit
            (.usbd_abort_transfer x))) ∧
      (∀ s, order = some s →
        ugen_do_ioctl (ugen_async_callback (ugen_do_ioctl k endpt .USB_DO_REQUEST req flag
            env).2.2 x a s) endpt .USB_CANCEL creq flagc envc =
          (0, creq, (ugen_async_callback (ugen_do_ioctl k endpt .USB_DO_REQUEST req flag
            env).2.2 x a s).store a
              { (ugen_async_callback (ugen_do_ioctl k endpt .USB_DO_REQUEST req flag
                  env).2.2 x a s).kmem a with ucr_status := USBD_CANCELLED })) := by
  have hd : k.sc.dying = false := by
    by_contra hd
    rw [do_ioctl_dying _ _ _ _ _ _ (by simpa using hd)] at hsub
    simp at hsub
  rw [do_ioctl_request _ _ _ _ _ hd] at hsub hfind ⊢
  rcases do_request_cases k endpt req flag env with
    ⟨h1, _⟩ | ⟨a', x, ha', hx, _, _, h2, h3, h4, h5, _, _⟩
  · exact absurd hsub h1
  · obtain rfl : a' = a := by rw [ha] at ha'; exact (Option.some.inj ha').symm
    generalize ugen_do_request k endpt req flag env = R at hfind h2 h3 h4 h5 ⊢
    have hd1 : R.2.2.sc.dying = false := by rw [h4, hd]
    have hxa : (R.2.2.kmem a').xfer = x := by rw [h2]; simp
    refine ⟨x, hx, hxa, h5, by rw [h3]; simp, fun ho => ?_, fun s ho => ?_⟩
    · subst ho
      simp only [cancel_finds] at hfind
      rw [do_ioctl_cancel _ _ _ _ _ hd1]
      simp [ugen_cancel, hctx, hfind, hxa]
    · subst ho
      simp only [cancel_finds, hxa] at hfind
      rw [do_ioctl_cancel _ _ _ _ _ (by rw [callback_dying]; exact hd1)]
      simp [ugen_cancel, hctx, hfind.1, hfind.2]

/-- C1: a request accepted by `USB_DO_REQUEST` (record at address `a`, transfer
`x`) and then cancelled by its context is handed back with status
`USBD_CANCELLED` in both interleavings.  With `order = none` the `USB_CANCEL`
finds the record on the submit queue: it returns 0 and its one effect is the
call `usbd_abort_transfer(x)` on the transfer of the record, the record and
the queues being as before, so it is not the ioctl that marks the record; the
transfer `x` has the record as private pointer, and the rest of the
interleaving is the callback of that aborted transfer fired with
`USBD_CANCELLED`.  With `order = some s` the callback has fired with status
`s`, and the `USB_CANCEL` finds the record on the complete queue, aborts
nothing and marks it.  In both the `USB_CANCEL` succeeds, the reaps of the
records that completed before succeed, and the next `USB_GET_COMPLETED`
succeeds and returns the caller's request with status cancelled. -/
theorem cancel_round_trip (k : Kernel) (endpt : Nat) (req : usb_ctl_request) (flag : Nat)
    (env : submit_env) (a : Nat) (order : Option usbd_status)
    (creq : usb_ctl_request) (flagc : Nat) (envc : submit_env)
    (r : usb_ctl_request) (flagr : Nat) (envr : submit_env)
    (hsub : (ugen_do_ioctl k endpt .USB_DO_REQUEST req flag env).1 = 0)
    (ha : env.kreq = some a)
    (hctx : creq.ucr_context = req.ucr_context)
    (hfind : cancel_finds (ugen_do_ioctl k endpt .USB_DO_REQUEST req flag env).2.2 endpt a
      req.ucr_context order) :
    (cancel_race (ugen_do_ioctl k endpt .USB_DO_REQUEST req flag env).2.2 endpt a creq flagc envc
      order).1 = 0 ∧
    (∀ x ∈ (reap_n endpt r flagr envr (k.sce endpt IN).complete_queue.length
      (cancel_race (ugen_do_ioctl k endpt .USB_DO_REQUEST req flag env).2.2 endpt a creq flagc
        envc order).2).1, x.1 = 0) ∧
    (ugen_do_ioctl (reap_n endpt r flagr envr (k.sce endpt IN).complete_queue.length
      (cancel_race (ugen_do_ioctl k endpt .USB_DO_REQUEST req flag env).2.2 endpt a creq flagc
        envc order).2).2 endpt .USB_GET_COMPLETED r flagr envr).1 = 0 ∧
    (ugen_do_ioctl (reap_n endpt r flagr envr (k.sce endpt IN).complete_queue.length
      (cancel_race (ugen_do_ioctl k endpt .USB_DO_REQUEST req flag env).2.2 endpt a creq flagc
        envc order).2).2 endpt .USB_GET_COMPLETED r flagr envr).2.1.ucr_status
      = USBD_CANCELLED ∧
    (ugen_do_ioctl (reap_n endpt r flagr envr (k.sce endpt IN).complete_queue.length
      (cancel_race (ugen_do_ioctl k endpt .USB_DO_REQUEST req flag env).2.2 endpt a creq flagc
        envc order).2).2 endpt .USB_GET_COMPLETED r flagr envr).2.1.ucr_context
      = req.ucr_context ∧
    ∃ x, env.xfer = some x ∧
      (ugen_do_ioctl (reap_n endpt r flagr envr (k.sce endpt IN).complete_queue.length
        (cancel_race (ugen_do_ioctl k endpt .USB_DO_REQUEST req flag env).2.2 endpt a creq flagc
          envc order).2).2 endpt .USB_GET_COMPLETED r flagr envr).2.1
        = { req with ucr_sce := (endpt, IN), xfer := x, ucr_status := USBD_CANCELLED } ∧
      ((ugen_do_ioctl k endpt .USB_DO_REQUEST req flag env).2.2.kmem a).xfer = x ∧
      ((ugen_do_ioctl k endpt .USB_DO_REQUEST req flag env).2.2.xfers x).priv = a ∧
      (order = none →
        (ugen_do_ioctl (ugen_do_ioctl k endpt .USB_DO_REQUEST req flag env).2.2 endpt
          .USB_CANCEL creq flagc envc).1 = 0 ∧
        emitted (ugen_do_ioctl k endpt .USB_DO_REQUEST req flag env).2.2
          (ugen_do_ioctl (ugen_do_ioctl k endpt .USB_DO_REQUEST req flag env).2.2 endpt
            .USB_CANCEL creq flagc envc).2.2 = [.usbd_abort_transfer x] ∧
        (ugen_do_ioctl (ugen_do_ioctl k endpt .USB_DO_REQUEST req flag env).2.2 endpt
          .USB_CANCEL creq flagc envc).2.2.kmem =
            (ugen_do_ioctl k endpt .USB_DO_REQUEST req flag env).2.2.kmem ∧
        ((ugen_do_ioctl (ugen_do_ioctl k endpt .USB_DO_REQUEST req flag env).2.2 endpt
          .USB_CANCEL creq flagc envc).2.2.kmem a).ucr_status = req.ucr_status ∧
        a ∈ ((ugen_do_ioctl (ugen_do_ioctl k endpt .USB_DO_REQUEST req flag env).2.2 endpt
          .USB_CANCEL creq flagc envc).2.2.sce endpt IN).submit_queue ∧
        (cancel_race (ugen_do_ioctl k endpt .USB_DO_REQUEST req flag env).2.2 endpt a creq
          flagc envc order).2 =
            ugen_async_callback
              (ugen_do_ioctl (ugen_do_ioctl k endpt .USB_DO_REQUEST req flag env).2.2 endpt
                .USB_CANCEL creq flagc envc).2.2 x
              ((ugen_do_ioctl (ugen_do_ioctl k endpt .USB_DO_REQUEST req flag env).2.2 endpt
                .USB_CANCEL creq flagc envc).2.2.xfers x).priv USBD_CANCELLED) ∧
      (∀ s, order = some s →
        emitted (ugen_async_callback (ugen_do_ioctl k endpt .USB_DO_REQUEST req flag env).2.2
            x a s)
          (cancel_race (ugen_do_ioctl k endpt .USB_DO_REQUEST req flag env).2.2 endpt a creq
            flagc envc order).2 = [] ∧
        ((cancel_race (ugen_do_ioctl k endpt .USB_DO_REQUEST req flag env).2.2 endpt a creq
          flagc envc order).2.kmem a).ucr_status = USBD_CANCELLED) := by
  obtain ⟨h1, h2, h3, h4, x, hx, h5⟩ :=
    race_after_submit k endpt req flag env a order creq flagc envc hsub ha hctx hfind
  obtain ⟨i1, i2, i3⟩ := reap_cancelled_tail endpt r flagr envr a
    (k.sce endpt IN).complete_queue _ h2 h3 h4 (by rw [h5])
  obtain ⟨x', hx', c1, c2, c3, c4, c5⟩ :=
    cancel_after_submit k endpt req flag env a order creq flagc envc hsub ha hctx hfind
  obtain rfl : x' = x := by rw [hx] at hx'; exact (Option.some.inj hx').symm
  have hst : ((ugen_do_ioctl k endpt .USB_DO_REQUEST req flag env).2.2.kmem a).ucr_status =
      req.ucr_status := by
    have hd : k.sc.dying = false := by
      by_contra hd
      rw [do_ioctl_dying _ _ _ _ _ _ (by simpa using hd)] at hsub
      simp at hsub
    rw [do_ioctl_request _ _ _ _ _ hd] at hsub ⊢
    rcases do_request_cases k endpt req flag env with
      ⟨g1, _⟩ | ⟨a', _, ha', _, _, _, g2, _⟩
    · exact absurd hsub g1
    · obtain rfl : a' = a := by rw [ha] at ha'; exact (Option.some.inj ha').symm
      rw [g2]; simp
  refine ⟨h1, i1, i2, ?_, ?_, x', hx, ?_, c1, c2, fun ho => ?_, fun s ho => ?_⟩
  · rw [i3, h5]
  · rw [i3, h5]
  · rw [i3, h5]
  · have hc := c4 ho
    subst ho
    rw [hc]
    refine ⟨rfl, emitted_append _ _ _ rfl, rfl, hst, c3, ?_⟩
    simp only [cancel_race, hc, xfers_emit, c2, c1]
  · have hc := c5 s ho
    subst ho
    simp only [cancel_race, c1, hc]
    refine ⟨?_, by simp⟩
    simp [emitted]

/-- C1, at a concrete input: with record 1 already completed, the request
`urb_second` is accepted as record 2 with transfer 2 and cancelled, once
before and once after its completion; before it, the `USB_CANCEL` logs the
abort of transfer 2. -/
theorem cancel_round_trip_witness :
    (ugen_do_ioctl kernel_completed 0 .USB_DO_REQUEST urb_second FWRITE (env_ok 2 2)).1 = 0 ∧
    (ugen_do_ioctl (reap_n 0 urb_get_status 0 (env_ok 0 0) 1
      (cancel_race (ugen_do_ioctl kernel_completed 0 .USB_DO_REQUEST urb_second FWRITE
        (env_ok 2 2)).2.2 0 2 urb_second 0 (env_ok 0 0) none).2).2 0 .USB_GET_COMPLETED
        urb_get_status 0 (env_ok 0 0)).2.1.ucr_status = USBD_CANCELLED ∧
    (ugen_do_ioctl (reap_n 0 urb_get_status 0 (env_ok 0 0) 1
      (cancel_race (ugen_do_ioctl kernel_completed 0 .USB_DO_REQUEST urb_second FWRITE
        (env_ok 2 2)).2.2 0 2 urb_second 0 (env_ok 0 0)
        (some USBD_NORMAL_COMPLETION)).2).2 0 .USB_GET_COMPLETED
        urb_get_status 0 (env_ok 0 0)).2.1.ucr_status = USBD_CANCELLED ∧
    emitted (ugen_do_ioctl kernel_completed 0 .USB_DO_REQUEST urb_second FWRITE
        (env_ok 2 2)).2.2
      (ugen_do_ioctl (ugen_do_ioctl kernel_completed 0 .USB_DO_REQUEST urb_second FWRITE
        (env_ok 2 2)).2.2 0 .USB_CANCEL urb_second 0 (env_ok 0 0)).2.2 =
      [.usbd_abort_transfer 2] := by
  obtain ⟨_, _, _, n4, _, x, hx, _, _, _, n10, _⟩ :=
    cancel_round_trip kernel_completed 0 urb_second FWRITE (env_ok 2 2) 2 none
      urb_second 0 (env_ok 0 0) urb_get_status 0 (env_ok 0 0)
      (by decide) rfl rfl (by simp only [cancel_finds]; decide)
  obtain rfl : x = 2 := (Option.some.inj hx).symm
  exact ⟨by decide, n4,
    (cancel_round_trip kernel_completed 0 urb_second FWRITE (env_ok 2 2) 2
      (some USBD_NORMAL_COMPLETION)
      urb_second 0 (env_ok 0 0) urb_get_status 0 (env_ok 0 0)
      (by decide) rfl rfl (by simp only [cancel_finds]; decide)).2.2.2.1,
    (n10 rfl).2.1⟩

/-- C11, at the failing input: on a freshly attached device the control slot
has no pipe (`pipeh` is `NULL`), and a `USB_DO_REQUEST` on the control
endpoint whose transfer the bus refuses with `USBD_STALLED` returns ` EIO`,
having started the transfer and then called `usbd_clear_endpoint_stall` with
that `NULL` pipe: the log of the call names no pipe whose stall is cleared.
The transfer and the record are released once and the queues stay empty.  The
same refusal on the bulk endpoint 1 of `kernel_bulk`, whose pipe 1 is open,
clears the stall of that pipe. -/
theorem control_stall_clear_null_pipe :
    (kernel_boot.sce USB_CONTROL_ENDPOINT IN).pipeh = none ∧
    (ugen_do_ioctl kernel_boot USB_CONTROL_ENDPOINT .USB_DO_REQUEST urb_get_status FWRITE
      (env_err 1 1 USBD_STALLED)).1 = EIO ∧
    emitted kernel_boot
      (ugen_do_ioctl kernel_boot USB_CONTROL_ENDPOINT .USB_DO_REQUEST urb_get_status FWRITE
        (env_err 1 1 USBD_STALLED)).2.2 =
      [.malloc 1, .usbd_alloc_xfer 1, .usbd_alloc_buffer 1 2, .usbd_transfer 1,
       .usbd_clear_endpoint_stall none, .usbd_free_xfer 1, .free 1] ∧
    (∀ p, Event.usbd_clear_endpoint_stall (some p) ∉ emitted kernel_boot
      (ugen_do_ioctl kernel_boot USB_CONTROL_ENDPOINT .USB_DO_REQUEST urb_get_status FWRITE
        (env_err 1 1 USBD_STALLED)).2.2) ∧
    ((ugen_do_ioctl kernel_boot USB_CONTROL_ENDPOINT .USB_DO_REQUEST urb_get_status FWRITE
      (env_err 1 1 USBD_STALLED)).2.2.sce USB_CONTROL_ENDPOINT IN).submit_queue = [] ∧
    ((ugen_do_ioctl kernel_boot USB_CONTROL_ENDPOINT .USB_DO_REQUEST urb_get_status FWRITE
      (env_err 1 1 USBD_STALLED)).2.2.sce USB_CONTROL_ENDPOINT IN).complete_queue = [] ∧
    (kernel_bulk.sce 1 IN).pipeh = some 1 ∧
    Event.usbd_clear_endpoint_stall (some 1) ∈ emitted kernel_bulk
      (ugen_do_ioctl kernel_bulk 1 .USB_DO_REQUEST (urb_bulk_read 4) FWRITE
        (env_err 1 1 USBD_STALLED)).2.2 := by
  have h : emitted kernel_boot
      (ugen_do_ioctl kernel_boot USB_CONTROL_ENDPOINT .USB_DO_REQUEST urb_get_status FWRITE
        (env_err 1 1 USBD_STALLED)).2.2 =
      [.malloc 1, .usbd_alloc_xfer 1, .usbd_alloc_buffer 1 2, .usbd_transfer 1,
       .usbd_clear_endpoint_stall none, .usbd_free_xfer 1, .free 1] := by decide
  refine ⟨by decide, by decide, h, fun p hp => ?_, by decide, by decide, by decide, by decide⟩
  rw [h] at hp
  simp at hp

end Ugen
